import Mathlib

/-!
# Pigeonhole (Dovecot Sieve): action duplicate checks, store transaction, error handlers

A shallow embedding of
* `src/lib-sieve/plugins/notify/cmd-notify.c` (`act_notify_check_duplicate` and the
  `:options` loop of `cmd_notify_operation_execute`),
* `src/lib-sieve/sieve-actions.c` (the store action),
* `src/lib-sieve/sieve-error.c` (error handler statistics and reset, gate setters,
  reference counting, the report functions, the buffer sink, the file sink, the
  prefix decorator and the replaceable master sink),
* `src/lib-sieve/plugins/relational/ext-relational.c` (validation of the relational
  operator, the match type table and `mtch_value_match`),
followed by the theorems about them.

Conventions: a C pointer that may be NULL is an `Option`; C strings are lists of
bytes (`List Nat`, the bytes before the terminating NUL) where the code compares
them and `String` where it only concatenates them; `unsigned int` is a `Nat` with
an explicit wrap at `2 ^ 32` where the code subtracts; error handlers that point
to each other live in a heap indexed by address.
-/

namespace Pigeonhole

/-! ## Notify action: `cmd-notify.c` -/

/-- One recipient of the deprecated notify action (`struct ext_notify_recipient`):
the text as written and the parsed address. -/
structure ext_notify_recipient (Addr : Type) where
  full : String
  address : Addr
deriving DecidableEq, Repr

/-- The context of a notify action (`struct ext_notify_action`). -/
structure ext_notify_action (Addr : Type) where
  id : Option String
  message : Option String
  importance : Nat
  recipients : List (ext_notify_recipient Addr)
deriving DecidableEq, Repr

/-- The part of `struct sieve_action` the duplicate checks read: the source
location and the type-specific context pointer (NULL for implicit keep). -/
structure sieve_action (Ctx : Type) where
  location : Option String
  context : Option Ctx
deriving DecidableEq, Repr

/-- Unsigned 32-bit subtraction `a - b` (used for `i -= del_len`). -/
def uint_sub (a b : Nat) : Nat := (a + 2 ^ 32 - b % 2 ^ 32) % 2 ^ 32

/-- Dovecot `array_delete(array, idx, count)`: removes `count` elements starting
at index `idx`, moving the tail down. -/
def array_delete {α : Type} (arr : List α) (idx count : Nat) : List α :=
  arr.take idx ++ arr.drop (idx + count)

/-- The inner `for ( j = 0; j < old_count; j++ )` loop of
`act_notify_check_duplicate`, started at index `j` with the not yet visited part
of `old_rcpts`: it stops at the first old recipient whose address equals `a` and
yields the value of `j` after the loop. -/
def notify_inner_loop {Addr : Type} (smtp_address_equals : Addr → Addr → Bool) (a : Addr) :
    List (ext_notify_recipient Addr) → Nat → Nat
  | [], j => j
  | r :: rs, j =>
    if smtp_address_equals a r.address then j
    else notify_inner_loop smtp_address_equals a rs (j + 1)

/-- The local variables of `act_notify_check_duplicate` that the outer loop
changes, together with the recipient array of the new action. -/
structure notify_loop_state (Addr : Type) where
  recipients : List (ext_notify_recipient Addr)
  new_count : Nat
  i : Nat
  del_start : Nat
  del_len : Nat
  deletions : List (Nat × Nat)
deriving DecidableEq, Repr

/-- One iteration of the outer loop body at index `i` (the caller has checked
`i < new_count`), followed by the `i++` of the loop header. Reading
`new_rcpts[i]` outside the array is `none`. The field `deletions` records every
`array_delete` call as `(del_start, del_len)`. -/
def notify_loop_body {Addr : Type} (smtp_address_equals : Addr → Addr → Bool)
    (old_rcpts : List (ext_notify_recipient Addr)) (s : notify_loop_state Addr) :
    Option (notify_loop_state Addr) :=
  match s.recipients[s.i]? with
  | none => none
  | some rcpt =>
    let j := notify_inner_loop smtp_address_equals rcpt.address old_rcpts 0
    if j = old_rcpts.length then
      -- Not duplicate
      if 0 < s.del_len then
          -- Perform pending deletion
          let arr := array_delete s.recipients s.del_start s.del_len
          some { recipients := arr, new_count := arr.length,
                 i := uint_sub s.i s.del_len + 1,
                 del_start := s.del_start, del_len := 0,
                 deletions := s.deletions ++ [(s.del_start, s.del_len)] }
      else
          some { s with i := s.i + 1, del_len := 0 }
    else
      -- Mark deletion
      some { s with i := s.i + 1,
                    del_start := if s.del_len = 0 then s.i else s.del_start,
                    del_len := s.del_len + 1 }

/-- The outer `for ( i = 0; i < new_count; i++ )` loop; `fuel` bounds the number
of iterations (`none` when it runs out or when the body reads out of bounds). -/
def notify_loop {Addr : Type} (smtp_address_equals : Addr → Addr → Bool)
    (old_rcpts : List (ext_notify_recipient Addr)) :
    Nat → notify_loop_state Addr → Option (notify_loop_state Addr)
  | 0, _ => none
  | fuel + 1, s =>
    if s.i < s.new_count then
      match notify_loop_body smtp_address_equals old_rcpts s with
      | none => none
      | some s1 => notify_loop smtp_address_equals old_rcpts fuel s1
    else some s

/-- The function `act_notify_check_duplicate(renv, act, act_other)`. The result
is the returned `int` together with the two actions after the call (`act` is the
new action, `act_other` the one already in the result). The loop is run with
fuel `new_count + 1`. -/
def act_notify_check_duplicate {Addr : Type} (smtp_address_equals : Addr → Addr → Bool)
    (act act_other : sieve_action (ext_notify_action Addr)) :
    Option (Int × sieve_action (ext_notify_action Addr) × sieve_action (ext_notify_action Addr)) :=
  match act.context, act_other.context with
  | none, _ => some (0, act, act_other)
  | _, none => some (0, act, act_other)
  | some new_nact, some old_nact =>
    let new_count := new_nact.recipients.length
    match notify_loop smtp_address_equals old_nact.recipients (new_count + 1)
        { recipients := new_nact.recipients, new_count := new_count, i := 0,
          del_start := 0, del_len := 0, deletions := [] } with
    | none => none
    | some s =>
      -- Perform pending deletion
      let arr := if 0 < s.del_len then array_delete s.recipients s.del_start s.del_len
                 else s.recipients
      some (if 0 < arr.length then 0 else 1,
            { act with context := some { new_nact with recipients := arr } },
            act_other)

/-- The `array_delete` calls `act_notify_check_duplicate` performs for non-null
contexts, as `(del_start, del_len)` in order: those of the loop, then the final
pending one. -/
def act_notify_deletions {Addr : Type} (smtp_address_equals : Addr → Addr → Bool)
    (new_nact old_nact : ext_notify_action Addr) : Option (List (Nat × Nat)) :=
  match notify_loop smtp_address_equals old_nact.recipients (new_nact.recipients.length + 1)
      { recipients := new_nact.recipients, new_count := new_nact.recipients.length, i := 0,
        del_start := 0, del_len := 0, deletions := [] } with
  | none => none
  | some s => some (if 0 < s.del_len then s.deletions ++ [(s.del_start, s.del_len)]
                    else s.deletions)

/-- Whether the address of `r` equals the address of some recipient in `old`
(the meaning of the inner loop ending with `j != old_count`). -/
def is_old_recipient {Addr : Type} (smtp_address_equals : Addr → Addr → Bool)
    (old : List (ext_notify_recipient Addr)) (r : ext_notify_recipient Addr) : Bool :=
  old.any (fun o => smtp_address_equals r.address o.address)

/-- The array the final `if ( del_len > 0 ) array_delete(...)` after the loop
leaves behind. -/
def notify_final {Addr : Type} (s : notify_loop_state Addr) :
    List (ext_notify_recipient Addr) :=
  if 0 < s.del_len then array_delete s.recipients s.del_start s.del_len else s.recipients

/-! ## C strings -/

/-- The bytes of an ASCII string literal. -/
def cstr (s : String) : List Nat := s.toList.map Char.toNat

/-- A well-formed C string body: bytes `1 .. 255`, no embedded NUL. -/
def is_cstring (s : List Nat) : Bool := s.all (fun b => decide (0 < b) && decide (b < 256))

/-- The libc `tolower` on a byte, C locale. -/
def tolower (c : Nat) : Nat := if 65 ≤ c ∧ c ≤ 90 then c + 32 else c

/-- The libc `strcmp`: the difference of the first pair of bytes that differ,
the terminating NUL counting as byte `0`. -/
def strcmp : List Nat → List Nat → Int
  | [], [] => 0
  | [], b :: _ => 0 - (b : Int)
  | a :: _, [] => (a : Int)
  | a :: as, b :: bs => if a = b then strcmp as bs else (a : Int) - (b : Int)

/-- The libc `strcasecmp`: as `strcmp` after `tolower` on every byte. -/
def strcasecmp : List Nat → List Nat → Int
  | [], [] => 0
  | [], b :: _ => 0 - (tolower b : Int)
  | a :: _, [] => (tolower a : Int)
  | a :: as, b :: bs =>
    if tolower a = tolower b then strcasecmp as bs else (tolower a : Int) - (tolower b : Int)

/-! ## Store action: `sieve-actions.c` -/

/-- The context of a store action (`struct act_store_context`): the target folder. -/
structure act_store_context where
  folder : List Nat
deriving DecidableEq, Repr

/-- The fields of `struct sieve_script_env` the store action reads. -/
structure sieve_script_env where
  default_mailbox : Option (List Nat)
  namespaces : Option Nat
  mailbox_autocreate : Bool
  mailbox_autosubscribe : Bool
deriving DecidableEq, Repr

/-- The execution status shared by the actions of one run (`struct sieve_exec_status`). -/
structure sieve_exec_status where
  message_saved : Bool
  tried_default_save : Bool
  last_storage : Option Nat
deriving DecidableEq, Repr

/-- The fields of `struct mail_namespace` the store action reads (handles). -/
structure mail_namespace where
  storage : Nat
  list : Nat
deriving DecidableEq, Repr

/-- The `enum mail_error` values the store action tells apart. -/
inductive mail_error where
  | MAIL_ERROR_NOTFOUND
  | other (code : Nat)
deriving DecidableEq, Repr

/-- The `enum mailbox_open_flags` bits used by `act_store_mailbox_open`. -/
inductive mailbox_open_flags where
  | MAILBOX_OPEN_FAST
  | MAILBOX_OPEN_KEEP_RECENT
  | MAILBOX_OPEN_SAVEONLY
  | MAILBOX_OPEN_POST_SESSION
  | MAILBOX_OPEN_IGNORE_ACLS
deriving DecidableEq, Repr

/-- The messages `act_store_log_status` and `act_store_execute` report through
`sieve_result_log` / `sieve_result_error`, with the mailbox name they mention. -/
inductive store_message where
  | skipped (mailbox_name : List Nat)
  | no_namespace (mailbox_name : List Nat)
  | stored (mailbox_name : List Nat)
  | aborted (mailbox_name : List Nat)
  | failed (mailbox_name : List Nat) (errstr : Option (List Nat))
  | invalid_keywords
deriving DecidableEq, Repr

/-- The calls the store action makes into the mail storage library and into the
result logger, in the order they happen. -/
inductive mail_call where
  | mail_namespace_find (namespaces : Nat) (folder : List Nat)
  | mailbox_open (storage : Nat) (folder : List Nat) (flags : List mailbox_open_flags)
  | mail_storage_get_last_error (storage : Nat)
  | mail_storage_mailbox_create (storage : Nat) (folder : List Nat)
  | mailbox_list_set_subscribed (list : Nat) (folder : List Nat)
  | mailbox_sync (box : Nat)
  | mailbox_close (box : Nat)
  | mailbox_transaction_begin (box : Nat)
  | mail_alloc (t : Nat)
  | mailbox_keywords_create (box : Nat) (kwds : List (Option (List Nat)))
  | mailbox_copy (t : Nat) (mail : Nat) (flags : Nat) (keywords : Option Nat) (dest_mail : Nat)
  | mail_free (mail : Nat)
  | mailbox_transaction_commit (t : Nat)
  | mailbox_transaction_rollback (t : Nat)
  | sieve_result_log (msg : store_message)
  | sieve_result_error (msg : store_message)
deriving DecidableEq, Repr

/-- The collaborators of the store action that are outside these sources, taken
as parameters: the macro `SIEVE_SCRIPT_DEFAULT_MAILBOX` and the results of the
mail storage library calls. Every result may depend on all calls made so far. -/
structure mail_api where
  SIEVE_SCRIPT_DEFAULT_MAILBOX : sieve_script_env → List Nat
  mail_namespace_find : List mail_call → Nat → List Nat → Option mail_namespace × List Nat
  mailbox_open : List mail_call → Nat → List Nat → List mailbox_open_flags → Option Nat × Nat
  mail_storage_get_last_error : List mail_call → Nat → Option (List Nat) × mail_error
  mail_storage_mailbox_create : List mail_call → Nat → List Nat → Int
  mailbox_sync : List mail_call → Nat → Int
  mailbox_transaction_begin : List mail_call → Nat → Nat
  mail_alloc : List mail_call → Nat → Nat
  mailbox_keywords_create : List mail_call → Nat → List (Option (List Nat)) → Int × Option Nat
  mailbox_copy : List mail_call → Nat → Nat → Nat → Option Nat → Nat → Int
  mailbox_transaction_commit : List mail_call → Nat → Int

/-- The immutable part of `struct sieve_action_exec_env`: the script environment
and the message's mail object (`aenv->msgdata->mail`). -/
structure sieve_action_exec_env where
  scriptenv : sieve_script_env
  mail : Nat
deriving DecidableEq, Repr

/-- The mutable state around a store action: the calls made so far and
`aenv->estatus`. -/
structure store_world where
  calls : List mail_call
  estatus : sieve_exec_status
deriving DecidableEq, Repr

/-- Records one more call. -/
def store_world.call (w : store_world) (c : mail_call) : store_world :=
  { w with calls := w.calls ++ [c] }

/-- The transaction context of a store action (`struct act_store_transaction`).
`keywords` is `none` while the array is not created; the field `namespace` is
spelled `namespace_`. -/
structure act_store_transaction where
  context : Option act_store_context
  namespace_ : Option mail_namespace
  box : Option Nat
  mail_trans : Option Nat
  dest_mail : Option Nat
  error : Option (List Nat)
  flags : Nat
  keywords : Option (List (Option (List Nat)))
deriving DecidableEq, Repr

/-- The function `act_store_get_storage_error(aenv, trans)`; `none` is the
dereference of a NULL `trans->namespace`. -/
def act_store_get_storage_error (api : mail_api) (trans : act_store_transaction)
    (w : store_world) : Option (act_store_transaction × store_world) :=
  match trans.namespace_ with
  | none => none
  | some ns =>
    let e := api.mail_storage_get_last_error w.calls ns.storage
    some ({ trans with error := e.1 }, w.call (.mail_storage_get_last_error ns.storage))

/-- The function `act_store_mailbox_open(aenv, ns, folder)`. `mailbox_open` gets
the address of `aenv->estatus->last_storage` and may replace the storage there. -/
def act_store_mailbox_open (api : mail_api) (aenv : sieve_action_exec_env)
    (ns : mail_namespace) (folder : List Nat) (w : store_world) : Option Nat × store_world :=
  let open_flags : List mailbox_open_flags :=
    [.MAILBOX_OPEN_FAST, .MAILBOX_OPEN_KEEP_RECENT, .MAILBOX_OPEN_SAVEONLY,
      .MAILBOX_OPEN_POST_SESSION] ++
    (if strcasecmp folder (cstr "INBOX") = 0 then [.MAILBOX_OPEN_IGNORE_ACLS] else [])
  let r1 := api.mailbox_open w.calls ns.storage folder open_flags
  let w1 : store_world :=
    { calls := w.calls ++ [.mailbox_open ns.storage folder open_flags],
      estatus := { w.estatus with last_storage := some r1.2 } }
  match r1.1 with
  | some box => (some box, w1)
  | none =>
    if aenv.scriptenv.mailbox_autocreate then
      let e := api.mail_storage_get_last_error w1.calls r1.2
      let w2 := w1.call (.mail_storage_get_last_error r1.2)
      if e.2 ≠ mail_error.MAIL_ERROR_NOTFOUND then (none, w2)
      else
        -- Try creating it
        let c := api.mail_storage_mailbox_create w2.calls r1.2 folder
        let w3 := w2.call (.mail_storage_mailbox_create r1.2 folder)
        if c < 0 then (none, w3)
        else
          let w4 := if aenv.scriptenv.mailbox_autosubscribe
            then w3.call (.mailbox_list_set_subscribed ns.list folder) else w3
          -- Try opening again
          let r2 := api.mailbox_open w4.calls r1.2 folder open_flags
          let w5 : store_world :=
            { calls := w4.calls ++ [.mailbox_open r1.2 folder open_flags],
              estatus := { w4.estatus with last_storage := some r2.2 } }
          match r2.1 with
          | none => (none, w5)
          | some box =>
            let sy := api.mailbox_sync w5.calls box
            let w6 := w5.call (.mailbox_sync box)
            if sy < 0 then (none, w6.call (.mailbox_close box)) else (some box, w6)
    else (none, w1)

/-- The function `act_store_start(action, aenv, context, tr_context)`: the
returned `bool`, the pointer stored in `*tr_context` and the state afterwards. -/
def act_store_start (api : mail_api) (aenv : sieve_action_exec_env)
    (context : Option act_store_context) (w : store_world) :
    Option (Bool × Option act_store_transaction × store_world) :=
  -- If context is NULL, the store action is the result of (implicit) keep
  let ctx : act_store_context :=
    match context with
    | none => { folder := api.SIEVE_SCRIPT_DEFAULT_MAILBOX aenv.scriptenv }
    | some c => c
  -- Open the requested mailbox
  let r : act_store_context × Option mail_namespace × Option Nat × store_world :=
    match aenv.scriptenv.namespaces with
    | none => (ctx, none, none, w)
    | some namespaces =>
      let f := api.mail_namespace_find w.calls namespaces ctx.folder
      let w1 := w.call (.mail_namespace_find namespaces ctx.folder)
      let ctx1 : act_store_context := { ctx with folder := f.2 }
      match f.1 with
      | none => (ctx1, none, none, w1)
      | some ns =>
        let b := act_store_mailbox_open api aenv ns ctx1.folder w1
        (ctx1, some ns, b.1, b.2)
  -- Create transaction context
  let trans : act_store_transaction :=
    { context := some r.1, namespace_ := r.2.1, box := r.2.2.1, mail_trans := none,
      dest_mail := none, error := none, flags := 0, keywords := none }
  let ret : Bool := aenv.scriptenv.namespaces.isNone || trans.box.isSome
  if trans.namespace_.isSome ∧ trans.box.isNone then
    match act_store_get_storage_error api trans r.2.2.2 with
    | none => none
    | some tw => some (ret, some tw.1, tw.2)
  else some (ret, some trans, r.2.2.2)

/-- The keyword collection step of `act_store_execute` ("Collect keywords added
by side-effects"): the `keywords` value handed to `mailbox_copy`, the transaction
and the state afterwards. -/
def act_store_collect_keywords (api : mail_api) (box : Nat) (trans : act_store_transaction)
    (w : store_world) : Option Nat × act_store_transaction × store_world :=
  match trans.keywords with
  | none => (none, trans, w)
  | some kws =>
    if 0 < kws.length then
      -- array_append_space: one more, zeroed, element
      let kwds := kws ++ [none]
      let r := api.mailbox_keywords_create w.calls box kwds
      let w1 := w.call (.mailbox_keywords_create box kwds)
      if r.1 < 0 then
        (none, { trans with keywords := some kwds },
          w1.call (.sieve_result_error .invalid_keywords))
      else (r.2, { trans with keywords := some kwds }, w1)
    else (none, trans, w)

/-- The function `act_store_execute(action, aenv, tr_context)`; `none` is the
dereference of a NULL pointer. -/
def act_store_execute (api : mail_api) (aenv : sieve_action_exec_env)
    (tr_context : Option act_store_transaction) (w : store_world) :
    Option (Bool × Option act_store_transaction × store_world) :=
  match tr_context with
  -- Verify transaction
  | none => some (false, none, w)
  | some tr =>
    match tr.namespace_ with
    -- Exit early if namespace is not available
    | none =>
      if aenv.scriptenv.namespaces = none then some (true, some tr, w)
      else some (false, some tr, w)
    | some ns =>
      match tr.box with
      | none => some (false, some tr, w)
      | some box =>
        match tr.context with
        | none => none
        | some ctx =>
          -- Mark attempt to store in default mailbox
          let est1 : sieve_exec_status :=
            if strcmp ctx.folder (api.SIEVE_SCRIPT_DEFAULT_MAILBOX aenv.scriptenv) = 0
            then { w.estatus with tried_default_save := true } else w.estatus
          -- Mark attempt to use storage
          let est2 : sieve_exec_status := { est1 with last_storage := some ns.storage }
          -- Start mail transaction
          let t := api.mailbox_transaction_begin w.calls box
          let w1 : store_world :=
            { calls := w.calls ++ [.mailbox_transaction_begin box], estatus := est2 }
          -- Create mail object for stored message
          let d := api.mail_alloc w1.calls t
          let w2 := w1.call (.mail_alloc t)
          let trans1 : act_store_transaction :=
            { tr with mail_trans := some t, dest_mail := some d }
          let k := act_store_collect_keywords api box trans1 w2
          -- Store the message
          let c := api.mailbox_copy k.2.2.calls t aenv.mail tr.flags k.1 d
          let w3 := k.2.2.call (.mailbox_copy t aenv.mail tr.flags k.1 d)
          if c < 0 then
            match act_store_get_storage_error api k.2.1 w3 with
            | none => none
            | some tw => some (false, some tw.1, tw.2)
          else some (true, some k.2.1, w3)

/-- The function `act_store_log_status(trans, aenv, rolled_back, status)`;
`none` is the dereference of a NULL `trans->context`. -/
def act_store_log_status (api : mail_api) (aenv : sieve_action_exec_env)
    (trans : act_store_transaction) (rolled_back status : Bool) (w : store_world) :
    Option store_world :=
  match trans.context with
  | none => none
  | some ctx =>
    let mailbox_name := ctx.folder
    match trans.namespace_ with
    | none =>
      if aenv.scriptenv.namespaces = none then
        some (w.call (.sieve_result_log (.skipped mailbox_name)))
      else
        some (w.call (.sieve_result_error (.no_namespace mailbox_name)))
    | some ns =>
      if !rolled_back && status then
        some (w.call (.sieve_result_log (.stored mailbox_name)))
      else
        let e : Option (List Nat) × store_world :=
          match trans.error with
          | some err => (some err, w)
          | none =>
            ((api.mail_storage_get_last_error w.calls ns.storage).1,
              w.call (.mail_storage_get_last_error ns.storage))
        if status then
          some (e.2.call (.sieve_result_log (.aborted mailbox_name)))
        else
          some (e.2.call (.sieve_result_error (.failed mailbox_name e.1)))

/-- Dovecot `mail_free(&trans->dest_mail)` behind its NULL guard: frees the mail
object and clears the pointer it was given the address of. -/
def store_free_dest_mail (trans : act_store_transaction) (w : store_world) :
    act_store_transaction × store_world :=
  match trans.dest_mail with
  | none => (trans, w)
  | some d => ({ trans with dest_mail := none }, w.call (.mail_free d))

/-- Dovecot `mailbox_transaction_rollback(&trans->mail_trans)` behind its NULL
guard: rolls the transaction back and clears the pointer. -/
def store_rollback_mail_trans (trans : act_store_transaction) (w : store_world) :
    act_store_transaction × store_world :=
  match trans.mail_trans with
  | none => (trans, w)
  | some t => ({ trans with mail_trans := none }, w.call (.mailbox_transaction_rollback t))

/-- Dovecot `mailbox_close(&trans->box)` behind its NULL guard: closes the
mailbox and clears the pointer. -/
def store_close_box (trans : act_store_transaction) (w : store_world) :
    act_store_transaction × store_world :=
  match trans.box with
  | none => (trans, w)
  | some b => ({ trans with box := none }, w.call (.mailbox_close b))

/-- The function `act_store_commit(action, aenv, tr_context, keep)`: the returned
`bool`, the transaction, the value of `*keep` afterwards (`keep` is its value
before) and the state. `mailbox_transaction_commit(&trans->mail_trans)` ends the
transaction whatever its result and clears the pointer; on a NULL transaction it
dereferences NULL (`none`). -/
def act_store_commit (api : mail_api) (aenv : sieve_action_exec_env)
    (tr_context : Option act_store_transaction) (keep : Bool) (w : store_world) :
    Option (Bool × Option act_store_transaction × Bool × store_world) :=
  match tr_context with
  -- Verify transaction
  | none => some (false, none, keep, w)
  | some tr =>
    match tr.namespace_ with
    -- Exit early if namespace is not available
    | none =>
      if aenv.scriptenv.namespaces = none then
        match act_store_log_status api aenv tr false true w with
        | none => none
        | some w1 => some (true, some tr, false, w1)
      else some (false, some tr, keep, w)
    | some ns =>
      match tr.box with
      | none => some (false, some tr, keep, w)
      | some _ =>
        -- Mark attempt to use storage
        let w0 : store_world :=
          { w with estatus := { w.estatus with last_storage := some ns.storage } }
        -- Free mail object for stored message
        let f := store_free_dest_mail tr w0
        -- Commit mailbox transaction
        match f.1.mail_trans with
        | none => none
        | some t =>
          let status : Bool := api.mailbox_transaction_commit f.2.calls t = 0
          let trans2 : act_store_transaction := { f.1 with mail_trans := none }
          let w2 := f.2.call (.mailbox_transaction_commit t)
          -- Note the fact that the message was stored at least once
          let w3 : store_world :=
            if status then { w2 with estatus := { w2.estatus with message_saved := true } }
            else w2
          -- Log our status
          match act_store_log_status api aenv trans2 false status w3 with
          | none => none
          | some w4 =>
            -- Cancel implicit keep if all went well; close mailbox
            let c := store_close_box trans2 w4
            some (status, some c.1, !status, c.2)

/-- The function `act_store_rollback(action, aenv, tr_context, success)`; `none`
is the dereference of a NULL pointer. -/
def act_store_rollback (api : mail_api) (aenv : sieve_action_exec_env)
    (tr_context : Option act_store_transaction) (success : Bool) (w : store_world) :
    Option (act_store_transaction × store_world) :=
  match tr_context with
  | none => none
  | some tr =>
    -- Log status
    match act_store_log_status api aenv tr true success w with
    | none => none
    | some w1 =>
      -- Free mailobject for stored message
      let f := store_free_dest_mail tr w1
      -- Rollback mailbox transaction
      let r := store_rollback_mail_trans f.1 f.2
      -- Close the mailbox
      some (store_close_box r.1 r.2)

/-- The function `act_store_check_duplicate(renv, act, act_other)`;
`default_mailbox` is the value of `SIEVE_SCRIPT_DEFAULT_MAILBOX(renv->scriptenv)`. -/
def act_store_check_duplicate (default_mailbox : List Nat)
    (act act_other : sieve_action act_store_context) : Int :=
  match act.context, act_other.context with
  | none, none => 1
  | ctx1, ctx2 =>
    let folder1 := match ctx1 with
      | none => default_mailbox
      | some c => c.folder
    let folder2 := match ctx2 with
      | none => default_mailbox
      | some c => c.folder
    if strcmp folder1 folder2 = 0 then 1
    else if strcasecmp folder1 (cstr "INBOX") = 0 ∧ strcasecmp folder2 (cstr "INBOX") = 0
      then 1 else 0

/-- The calls that release a resource held by a store transaction. -/
def is_release : mail_call → Bool
  | .mail_free _ => true
  | .mailbox_transaction_rollback _ => true
  | .mailbox_transaction_commit _ => true
  | .mailbox_close _ => true
  | _ => false

/-- The calls that open a mailbox, begin a mail transaction or copy a message. -/
def is_storage_use : mail_call → Bool
  | .sieve_result_log _ => false
  | .sieve_result_error _ => false
  | _ => true

/-- The release calls `act_store_rollback` owes a transaction: one per held
resource, in the order of the code. -/
def held_resources (trans : act_store_transaction) : List mail_call :=
  (trans.dest_mail.toList.map mail_call.mail_free) ++
  (trans.mail_trans.toList.map mail_call.mailbox_transaction_rollback) ++
  (trans.box.toList.map mail_call.mailbox_close)

/-- The transactions a run can hold: the one `act_store_start` stores in
`*tr_context`, and what `act_store_execute` and `act_store_commit` make of it. -/
inductive store_reachable (api : mail_api) (aenv : sieve_action_exec_env) :
    act_store_transaction → Prop where
  | start (context : Option act_store_context) (w w1 : store_world) (ret : Bool)
      (t : act_store_transaction) :
      act_store_start api aenv context w = some (ret, some t, w1) → store_reachable api aenv t
  | execute (t t1 : act_store_transaction) (w w1 : store_world) (ret : Bool) :
      store_reachable api aenv t →
      act_store_execute api aenv (some t) w = some (ret, some t1, w1) →
      store_reachable api aenv t1
  | commit (t t1 : act_store_transaction) (keep keep1 : Bool) (w w1 : store_world) (ret : Bool) :
      store_reachable api aenv t →
      act_store_commit api aenv (some t) keep w = some (ret, some t1, keep1, w1) →
      store_reachable api aenv t1

/-! ## Error handlers: `sieve-error.c` -/

/-- The families of message functions a handler's `verror`, `vwarning`, `vinfo`
and `vdebug` pointers can name. -/
inductive ehandler_vfunc where
  | master
  | stderr
  | strbuf
  | logfile
  | prefixed
  | varexpand
deriving DecidableEq, Repr

/-- The teardown functions a handler's `free` pointer can name. -/
inductive ehandler_free where
  | sieve_logfile_free
deriving DecidableEq, Repr

/-- The base record `struct sieve_error_handler`; `parent` is the address of the
parent handler. -/
structure sieve_error_handler where
  pool : Option Nat
  refcount : Int
  parent : Option Nat
  max_errors : Nat
  errors : Nat
  warnings : Nat
  log_master : Bool
  log_info : Bool
  log_debug : Bool
  verror : Option ehandler_vfunc
  vwarning : Option ehandler_vfunc
  vinfo : Option ehandler_vfunc
  vdebug : Option ehandler_vfunc
  free : Option ehandler_free
deriving DecidableEq, Repr

/-- The function `sieve_get_errors(ehandler)`. -/
def sieve_get_errors (ehandler : Option sieve_error_handler) : Nat :=
  match ehandler with
  | none => 0
  | some h => if h.pool = none then 0 else h.errors

/-- The function `sieve_get_warnings(ehandler)`. -/
def sieve_get_warnings (ehandler : Option sieve_error_handler) : Nat :=
  match ehandler with
  | none => 0
  | some h => if h.pool = none then 0 else h.errors

/-- The function `sieve_errors_more_allowed(ehandler)`. -/
def sieve_errors_more_allowed (ehandler : Option sieve_error_handler) : Bool :=
  match ehandler with
  | none => true
  | some h =>
    if h.pool = none then true
    else decide (h.max_errors = 0) || decide (h.errors < h.max_errors)

/-- The function `sieve_error_handler_reset(ehandler)`: the handler afterwards. -/
def sieve_error_handler_reset (ehandler : Option sieve_error_handler) :
    Option sieve_error_handler :=
  match ehandler with
  | none => none
  | some h => if h.pool = none then some h else some { h with errors := 0, warnings := 0 }

/-- The function `sieve_error_handler_init(ehandler, pool, max_errors)`. -/
def sieve_error_handler_init (ehandler : sieve_error_handler) (pool : Nat) (max_errors : Nat) :
    sieve_error_handler :=
  { ehandler with pool := some pool, refcount := 1, max_errors := max_errors,
                  errors := 0, warnings := 0 }

/-! ## Error handler chains: `sieve-error.c` -/

/-- The memory holding error handlers: the record stored at each address, `none`
where no live handler is stored. -/
abbrev ehandler_heap : Type := Nat → Option sieve_error_handler

/-- Stores record `h` at address `a`. -/
def ehandler_heap.store (heap : ehandler_heap) (a : Nat) (h : Option sieve_error_handler) :
    ehandler_heap :=
  fun x => if x = a then h else heap x

/-- The finite parent chain that starts at a pointer: the addresses visited by
following `parent` until it is NULL. -/
inductive parent_chain (heap : ehandler_heap) : Option Nat → List Nat → Prop where
  | nil : parent_chain heap none []
  | cons (a : Nat) (h : sieve_error_handler) (l : List Nat) :
      heap a = some h → parent_chain heap h.parent l → parent_chain heap (some a) (a :: l)

/-- The loop `while ( ehandler != NULL ) { <assignment>; ehandler = ehandler->parent; }`
shared by the three gate setters; `set` is the assignment. `fuel` bounds the
number of loop tests; reading through a pointer to no live handler is `none`. -/
def ehandler_gate_loop (set : sieve_error_handler → sieve_error_handler) :
    Nat → ehandler_heap → Option Nat → Option ehandler_heap
  | 0, _, _ => none
  | _ + 1, heap, none => some heap
  | fuel + 1, heap, some a =>
    match heap a with
    | none => none
    | some h => ehandler_gate_loop set fuel (heap.store a (some (set h))) h.parent

/-- The function `sieve_error_handler_accept_infolog(ehandler, enable)`. -/
def sieve_error_handler_accept_infolog (fuel : Nat) (heap : ehandler_heap)
    (ehandler : Option Nat) (enable : Bool) : Option ehandler_heap :=
  ehandler_gate_loop (fun h => { h with log_info := enable }) fuel heap ehandler

/-- The function `sieve_error_handler_accept_debuglog(ehandler, enable)`. -/
def sieve_error_handler_accept_debuglog (fuel : Nat) (heap : ehandler_heap)
    (ehandler : Option Nat) (enable : Bool) : Option ehandler_heap :=
  ehandler_gate_loop (fun h => { h with log_debug := enable }) fuel heap ehandler

/-- The function `sieve_error_handler_copy_masterlog(ehandler, enable)`. -/
def sieve_error_handler_copy_masterlog (fuel : Nat) (heap : ehandler_heap)
    (ehandler : Option Nat) (enable : Bool) : Option ehandler_heap :=
  ehandler_gate_loop (fun h => { h with log_master := enable }) fuel heap ehandler

/-- The function `sieve_error_handler_ref(ehandler)`. -/
def sieve_error_handler_ref (heap : ehandler_heap) (ehandler : Option Nat) :
    Option ehandler_heap :=
  match ehandler with
  | none => some heap
  | some a =>
    match heap a with
    | none => none
    | some h =>
      if h.pool = none then some heap
      else some (heap.store a (some { h with refcount := h.refcount + 1 }))

/-- The function `sieve_error_handler_init_from_parent(ehandler, pool, parent)`
on the handler stored at address `ehandler`; `none` is the failed
`i_assert( parent != NULL )` or a pointer to no live handler. -/
def sieve_error_handler_init_from_parent (heap : ehandler_heap) (ehandler : Nat) (pool : Nat)
    (parent : Option Nat) : Option ehandler_heap :=
  match parent with
  | none => none
  | some p =>
    match heap p, heap ehandler with
    | some ph, some eh =>
      let heap1 := heap.store ehandler
        (some { sieve_error_handler_init eh pool ph.max_errors with parent := some p })
      match sieve_error_handler_ref heap1 (some p) with
      | none => none
      | some heap2 =>
        match heap2 p, heap2 ehandler with
        | some ph2, some eh2 =>
          some (heap2.store ehandler
            (some { eh2 with log_master := ph2.log_master, log_info := ph2.log_info,
                             log_debug := ph2.log_debug }))
        | _, _ => none
    | _, _ => none

/-- What `sieve_error_handler_unref` does, in order: a reference count is
lowered, a `free` hook is called, a pool is released. -/
inductive unref_event where
  | decref (a : Nat)
  | free_call (f : ehandler_free) (a : Nat)
  | pool_unref (a : Nat) (pool : Nat)
deriving DecidableEq, Repr

/-- The address an event is about. -/
def unref_event.addr : unref_event → Nat
  | .decref a => a
  | .free_call _ a => a
  | .pool_unref a _ => a

/-- The call of the `free` hook of the handler at `a`, when the pointer is set. -/
def unref_hook (free : Option ehandler_free) (a : Nat) : List unref_event :=
  match free with
  | none => []
  | some f => [.free_call f a]

/-- The function `sieve_error_handler_unref(&ptr)` where `ptr` holds `ehandler`:
the memory afterwards, the value of `ptr` afterwards and the events. `none` is
the failed `i_assert(refcount > 0)`, a pointer to no live handler, or `fuel`
(the bound on the recursion depth) running out. Releasing the pool frees the
handler's memory. -/
def sieve_error_handler_unref :
    Nat → ehandler_heap → Option Nat → Option (ehandler_heap × Option Nat × List unref_event)
  | 0, _, _ => none
  | _ + 1, heap, none => some (heap, none, [])
  | fuel + 1, heap, some a =>
    match heap a with
    | none => none
    | some h =>
      match h.pool with
      | none => some (heap, some a, [])
      | some pool =>
        if h.refcount ≤ 0 then none
        else
          let h1 : sieve_error_handler := { h with refcount := h.refcount - 1 }
          let heap1 := heap.store a (some h1)
          if h1.refcount ≠ 0 then some (heap1, some a, [.decref a])
          else
            -- if ( (*ehandler)->parent != NULL ) sieve_error_handler_unref(&(*ehandler)->parent)
            let r : Option (ehandler_heap × Option Nat × List unref_event) :=
              match h1.parent with
              | none => some (heap1, none, [])
              | some p => sieve_error_handler_unref fuel heap1 (some p)
            match r with
            | none => none
            | some (heap2, _, ev) =>
              some ((heap2.store a none), none,
                [.decref a] ++ ev ++ unref_hook h1.free a ++ [.pool_unref a pool])



/-- Every pooled handler on the chain is referenced at least once, as
`i_assert(refcount > 0)` demands. -/
def refs_counted (heap : ehandler_heap) (l : List Nat) : Prop :=
  ∀ x ∈ l, ∀ hx, heap x = some hx → hx.pool ≠ none → 1 ≤ hx.refcount

/-- A handler record with a pool, one reference, no parent and all gates off. -/
def example_handler : sieve_error_handler :=
  { pool := some 1, refcount := 1, parent := none, max_errors := 0, errors := 0, warnings := 0,
    log_master := false, log_info := false, log_debug := false,
    verror := none, vwarning := none, vinfo := none, vdebug := none, free := none }

/-- Three handlers: a file sink at address 1 (one reference, `free` hook set)
whose parent is the handler at 2 (two references), whose parent is the root at 3. -/
def example_heap : ehandler_heap := fun x =>
  if x = 1 then some { example_handler with parent := some 2, free := some .sieve_logfile_free }
  else if x = 2 then some { example_handler with refcount := 2, parent := some 3 }
  else if x = 3 then some example_handler
  else none

/-- The zeroed record `p_new` returns. -/
def example_zeroed_handler : sieve_error_handler :=
  { pool := none, refcount := 0, parent := none, max_errors := 0, errors := 0, warnings := 0,
    log_master := false, log_info := false, log_debug := false,
    verror := none, vwarning := none, vinfo := none, vdebug := none, free := none }

/-- The example heap with a freshly allocated, zeroed record at address 4. -/
def example_fresh_heap : ehandler_heap := example_heap.store 4 (some example_zeroed_handler)

/-! ## Reporting: `sieve-error.c` -/

/-- The four report levels. -/
inductive sieve_level where
  | error
  | warning
  | info
  | debug
deriving DecidableEq, Repr

/-- The name a sink prints for a level. -/
def sieve_level.name : sieve_level → String
  | .error => "error"
  | .warning => "warning"
  | .info => "info"
  | .debug => "debug"

/-- What a report does, in order: `copy_master` is the entry into
`sieve_vcopy_master`, `direct` the call `sieve_direct_v<level>(ehandler, location,
fmt, args)`; `text` stands for the message `fmt` and `args` format to. -/
inductive report_event where
  | copy_master (level : sieve_level) (location : Option String) (text : String)
  | direct (level : sieve_level) (ehandler : Nat) (location : Option String) (text : String)
deriving DecidableEq, Repr

/-- The message text an event carries. -/
def report_event.text : report_event → String
  | .copy_master _ _ t => t
  | .direct _ _ _ t => t

/-- The functions `sieve_verror`, `sieve_vwarning`, `sieve_vinfo` and
`sieve_vdebug`, which differ in the level only. `master` is the value of
`_sieve_system_ehandler`; `sieve_vcopy_master` calls the same function on it.
The inline functions `sieve_direct_v<level>` are outside these sources; their
calls are recorded as events, and they change neither `parent` nor `log_master`.
`fuel` bounds the depth of the calls (`none` when it runs out). -/
def sieve_vreport (level : sieve_level) :
    Nat → ehandler_heap → Option Nat → Option Nat → Option String → String →
      Option (List report_event)
  | 0, _, _, _, _, _ => none
  | _ + 1, _, _, none, _, _ => some []
  | fuel + 1, heap, master, some a, location, text =>
    match heap a with
    | none => none
    | some h =>
      if h.parent = none ∧ h.log_master = true then
        match sieve_vreport level fuel heap master master location text with
        | none => none
        | some tr =>
          some ([.copy_master level location text] ++ tr ++ [.direct level a location text])
      else some [.direct level a location text]

/-- The function `sieve_verror(ehandler, location, fmt, args)`. -/
def sieve_verror (fuel : Nat) (heap : ehandler_heap) (master ehandler : Option Nat)
    (location : Option String) (text : String) : Option (List report_event) :=
  sieve_vreport .error fuel heap master ehandler location text

/-- The function `sieve_vwarning(ehandler, location, fmt, args)`. -/
def sieve_vwarning (fuel : Nat) (heap : ehandler_heap) (master ehandler : Option Nat)
    (location : Option String) (text : String) : Option (List report_event) :=
  sieve_vreport .warning fuel heap master ehandler location text

/-- The function `sieve_vinfo(ehandler, location, fmt, args)`. -/
def sieve_vinfo (fuel : Nat) (heap : ehandler_heap) (master ehandler : Option Nat)
    (location : Option String) (text : String) : Option (List report_event) :=
  sieve_vreport .info fuel heap master ehandler location text

/-- The function `sieve_vdebug(ehandler, location, fmt, args)`. -/
def sieve_vdebug (fuel : Nat) (heap : ehandler_heap) (master ehandler : Option Nat)
    (location : Option String) (text : String) : Option (List report_event) :=
  sieve_vreport .debug fuel heap master ehandler location text

/-- The text `CRITICAL_MSG`. -/
def CRITICAL_MSG : String :=
  "internal error occurred: refer to server log for more information."

/-- The text `sieve_vcritical` hands to the caller's handler:
`strftime(str, sizeof(str), CRITICAL_MSG_STAMP, tm) > 0 ? str : CRITICAL_MSG`.
`strftime` copies the ordinary characters of its format, so `str` is
`CRITICAL_MSG` followed by `stamp`, the expansion of `" [%Y-%m-%d %H:%M:%S]"` for
`localtime(&ioloop_time)`; `stamp` is `none` when `strftime` returns 0. -/
def critical_text (stamp : Option String) : String :=
  match stamp with
  | some s => CRITICAL_MSG ++ s
  | none => CRITICAL_MSG

/-- Modelled from the spec: the macro `sieve_sys_error` (declared in
`sieve-error.h`, which is not among the sources): an error report without
location on the master sink `_sieve_system_ehandler`. -/
def sieve_sys_error (fuel : Nat) (heap : ehandler_heap) (master : Option Nat) (text : String) :
    Option (List report_event) :=
  sieve_verror fuel heap master master none text

/-- The function `sieve_vcritical(ehandler, location, fmt, args)`: the events of
the `sieve_sys_error` call, then the events of the `sieve_error` call on the
caller's handler. `msg` is what `fmt` and `args` format to. -/
def sieve_vcritical (fuel : Nat) (heap : ehandler_heap) (master ehandler : Option Nat)
    (location : Option String) (msg : String) (stamp : Option String) :
    Option (List report_event × List report_event) :=
  let sys_text : String :=
    match location with
    | none => msg
    | some l => if l = "" then msg else l ++ ": " ++ msg
  match sieve_sys_error fuel heap master sys_text with
  | none => none
  | some tr1 =>
    match ehandler with
    | none => some (tr1, [])
    | some a =>
      match sieve_verror fuel heap master (some a) location (critical_text stamp) with
      | none => none
      | some tr2 => some (tr1, tr2)

/-! ## Buffer sink: `sieve-error.c` -/

/-- The record `struct sieve_strbuf_ehandler`; `errors` is the content of the
caller's buffer the sink appends to. -/
structure sieve_strbuf_ehandler where
  handler : sieve_error_handler
  errors : String
  crlf : Bool
deriving DecidableEq, Repr

/-- The function `sieve_strbuf_vmessage(ehandler, prefix, location, fmt, args)`;
`msg` is what `fmt` and `args` format to. -/
def sieve_strbuf_vmessage (ehandler : sieve_strbuf_ehandler) (pfx : String)
    (location : Option String) (msg : String) : sieve_strbuf_ehandler :=
  let b1 : String :=
    match location with
    | none => ehandler.errors
    | some l => if l = "" then ehandler.errors else ehandler.errors ++ (l ++ ": ")
  let b2 : String := b1 ++ (pfx ++ ": ")
  let b3 : String := b2 ++ msg
  let b4 : String := if !ehandler.crlf then b3 ++ ".\n" else b3 ++ ".\r\n"
  { ehandler with errors := b4 }

/-- The function `sieve_strbuf_verror`. -/
def sieve_strbuf_verror (ehandler : sieve_strbuf_ehandler) (location : Option String)
    (msg : String) : sieve_strbuf_ehandler :=
  sieve_strbuf_vmessage ehandler "error" location msg

/-- The function `sieve_strbuf_vwarning`. -/
def sieve_strbuf_vwarning (ehandler : sieve_strbuf_ehandler) (location : Option String)
    (msg : String) : sieve_strbuf_ehandler :=
  sieve_strbuf_vmessage ehandler "warning" location msg

/-- The function `sieve_strbuf_vinfo`. -/
def sieve_strbuf_vinfo (ehandler : sieve_strbuf_ehandler) (location : Option String)
    (msg : String) : sieve_strbuf_ehandler :=
  sieve_strbuf_vmessage ehandler "info" location msg

/-- The function `sieve_strbuf_vdebug`. -/
def sieve_strbuf_vdebug (ehandler : sieve_strbuf_ehandler) (location : Option String)
    (msg : String) : sieve_strbuf_ehandler :=
  sieve_strbuf_vmessage ehandler "debug" location msg

/-- The message function a buffer sink's pointer for `level` names. -/
def sieve_strbuf_vlevel (level : sieve_level) : sieve_strbuf_ehandler → Option String →
    String → sieve_strbuf_ehandler :=
  match level with
  | .error => sieve_strbuf_verror
  | .warning => sieve_strbuf_vwarning
  | .info => sieve_strbuf_vinfo
  | .debug => sieve_strbuf_vdebug

/-- The zeroed base record `p_new` returns. -/
def zeroed_handler : sieve_error_handler :=
  { pool := none, refcount := 0, parent := none, max_errors := 0, errors := 0, warnings := 0,
    log_master := false, log_info := false, log_debug := false,
    verror := none, vwarning := none, vinfo := none, vdebug := none, free := none }

/-- The function `sieve_strbuf_ehandler_create(strbuf, crlf, max_errors)`; `pool`
is the pool `pool_alloconly_create` returns. -/
def sieve_strbuf_ehandler_create (pool : Nat) (strbuf : String) (crlf : Bool)
    (max_errors : Nat) : sieve_strbuf_ehandler :=
  { handler := { sieve_error_handler_init zeroed_handler pool max_errors with
                 verror := some .strbuf, vwarning := some .strbuf,
                 vinfo := some .strbuf, vdebug := some .strbuf },
    errors := strbuf,
    crlf := crlf }

/-! ## Prefix decorator: `sieve-error.c` -/

/-- The record `struct sieve_prefix_ehandler`; its own `parent` field is never
assigned, the code reads the base record's `parent`. The field `prefix` is
spelled `prefix_text`. -/
structure sieve_prefix_ehandler where
  handler : sieve_error_handler
  parent : Option Nat
  location : Option String
  prefix_text : Option String
deriving DecidableEq, Repr

/-- The entry points through which a decorator re-emits a report into its parent. -/
inductive parent_entry where
  | sieve_error
  | sieve_warning
  | sieve_info
  | sieve_direct_info
  | sieve_direct_debug
deriving DecidableEq, Repr

/-- The level of an entry point. -/
def parent_entry.level : parent_entry → sieve_level
  | .sieve_error => .error
  | .sieve_warning => .warning
  | .sieve_info => .info
  | .sieve_direct_info => .info
  | .sieve_direct_debug => .debug

/-- One call `entry(parent, location, "%s", text)` a decorator makes. -/
structure parent_report where
  entry : parent_entry
  parent : Nat
  location : Option String
  text : String
deriving DecidableEq, Repr

/-- The function `_prefix_message(ehandler, location, fmt, args)`; `msg` is what
`fmt` and `args` format to. -/
def _prefix_message (ehandler : sieve_prefix_ehandler) (location : Option String)
    (msg : String) : String :=
  let s1 : String :=
    match ehandler.prefix_text with
    | some p => p ++ ": "
    | none => ""
  let s2 : String :=
    match location with
    | some l => s1 ++ (l ++ ": ")
    | none => s1
  s2 ++ msg

/-- The function `sieve_prefix_verror`. -/
def sieve_prefix_verror (ehandler : sieve_prefix_ehandler) (location : Option String)
    (msg : String) : List parent_report :=
  match ehandler.handler.parent with
  | none => []
  | some p => [{ entry := .sieve_error, parent := p, location := ehandler.location,
                 text := _prefix_message ehandler location msg }]

/-- The function `sieve_prefix_vwarning`. -/
def sieve_prefix_vwarning (ehandler : sieve_prefix_ehandler) (location : Option String)
    (msg : String) : List parent_report :=
  match ehandler.handler.parent with
  | none => []
  | some p => [{ entry := .sieve_warning, parent := p, location := ehandler.location,
                 text := _prefix_message ehandler location msg }]

/-- The function `sieve_prefix_vinfo`. -/
def sieve_prefix_vinfo (ehandler : sieve_prefix_ehandler) (location : Option String)
    (msg : String) : List parent_report :=
  match ehandler.handler.parent with
  | none => []
  | some p => [{ entry := .sieve_direct_info, parent := p, location := ehandler.location,
                 text := _prefix_message ehandler location msg }]

/-- The function `sieve_prefix_vdebug`. -/
def sieve_prefix_vdebug (ehandler : sieve_prefix_ehandler) (location : Option String)
    (msg : String) : List parent_report :=
  match ehandler.handler.parent with
  | none => []
  | some p => [{ entry := .sieve_direct_debug, parent := p, location := ehandler.location,
                 text := _prefix_message ehandler location msg }]

/-- The message function a prefix decorator's pointer for `level` names. -/
def sieve_prefix_vlevel (level : sieve_level) : sieve_prefix_ehandler → Option String →
    String → List parent_report :=
  match level with
  | .error => sieve_prefix_verror
  | .warning => sieve_prefix_vwarning
  | .info => sieve_prefix_vinfo
  | .debug => sieve_prefix_vdebug

/-- The function `sieve_prefix_ehandler_create(parent, location, prefix)`: the
memory afterwards and the decorator (`none` for the returned NULL). `e` is the
address of the zeroed record `p_new` returns and `pool` its pool; the outer
`none` is a pointer to no live handler. -/
def sieve_prefix_ehandler_create (heap : ehandler_heap) (e pool : Nat) (parent : Option Nat)
    (location pfx : Option String) :
    Option (ehandler_heap × Option sieve_prefix_ehandler) :=
  match parent with
  | none => some (heap, none)
  | some p =>
    match sieve_error_handler_init_from_parent (heap.store e (some zeroed_handler)) e pool
        (some p) with
    | none => none
    | some heap1 =>
      match heap1 e with
      | none => none
      | some h =>
        let h1 : sieve_error_handler :=
          { h with verror := some .prefixed, vwarning := some .prefixed,
                   vinfo := some .prefixed, vdebug := some .prefixed }
        some (heap1.store e (some h1),
          some { handler := h1, parent := none, location := location, prefix_text := pfx })



/-- Two parentless handlers with master mirroring enabled: a sink at address 7
(to be installed as the master sink) and a user handler at address 1. -/
def example_mirror_heap : ehandler_heap := fun x =>
  if x = 7 then some { example_handler with log_master := true }
  else if x = 1 then some { example_handler with log_master := true }
  else none

/-! ## File sink: `sieve-error.c` -/

/-- The constant `LOGFILE_MAX_SIZE`. -/
def LOGFILE_MAX_SIZE : Int := 10 * 1024

/-- The descriptor `STDERR_FILENO`. -/
def STDERR_FILENO : Int := 2

/-- The record `struct sieve_logfile_ehandler`. -/
structure sieve_logfile_ehandler where
  handler : sieve_error_handler
  logfile : String
  started : Bool
  fd : Int
  stream : Option Nat
deriving DecidableEq, Repr

/-- The errors `sieve_logfile_start` and `sieve_logfile_free` report through
`sieve_sys_error`. -/
inductive logfile_error where
  | open_failed_eacces
  | open_failed
  | fstat_failed
  | close_failed_after_error
  | close_failed
  | rotate_failed
  | stream_failed
deriving DecidableEq, Repr

/-- The calls the file sink makes, in the order they happen. `open_append` is
`open(path, O_CREAT | O_APPEND | O_WRONLY, 0600)`, `open_trunc` is
`open(path, O_CREAT | O_WRONLY | O_TRUNC, 0600)`, `logfile_printf` is the call of
`sieve_logfile_printf` that writes the "started log at" line. -/
inductive file_call where
  | open_append (path : String)
  | fstat (fd : Int)
  | close (fd : Int)
  | rename (oldpath newpath : String)
  | open_trunc (path : String)
  | o_stream_create_fd (fd : Int)
  | o_stream_destroy (stream : Nat)
  | logfile_printf (stream : Nat) (time : String)
  | sieve_sys_error (err : logfile_error)
deriving DecidableEq, Repr

/-- The results of the system and library calls of the file sink, taken as
parameters; each may depend on all calls made so far. `open_append` and
`open_trunc` give the descriptor (`-1` on failure) and whether `errno` is `EACCES`;
`fstat` gives `st_size`, or `none` when it fails; `st_size_unset` is what the
uninitialised `st.st_size` holds after a failed `fstat`; `strftime` gives the
formatted time, `none` when it returns 0. -/
structure file_api where
  open_append : List file_call → String → Int × Bool
  open_trunc : List file_call → String → Int × Bool
  fstat : List file_call → Int → Option Int
  st_size_unset : Int
  close : List file_call → Int → Int
  rename : List file_call → String → String → Int
  o_stream_create_fd : List file_call → Int → Option Nat
  strftime : List file_call → Option String

/-- The error branch after a failed `open`: the report and the fallback to
`STDERR_FILENO`. -/
def logfile_open_failed (eacces : Bool) (calls : List file_call) : List file_call :=
  calls ++ [.sieve_sys_error (if eacces then .open_failed_eacces else .open_failed)]

/-- The first part of `sieve_logfile_start`, up to the call of
`o_stream_create_fd`: the descriptor `fd` to be used and the calls made. -/
def sieve_logfile_open (api : file_api) (logfile : String) (calls : List file_call) :
    Int × List file_call :=
  -- Open the logfile
  let o := api.open_append calls logfile
  let c1 := calls ++ [.open_append logfile]
  if o.1 = -1 then (STDERR_FILENO, logfile_open_failed o.2 c1)
  else
    -- Stat the log file to obtain size information
    let st := api.fstat c1 o.1
    let c2 := c1 ++ [.fstat o.1]
    let s : Int × Int × List file_call :=
      match st with
      | some size => (o.1, size, c2)
      | none =>
        let c3 := c2 ++ [.sieve_sys_error .fstat_failed]
        let cl := api.close c3 o.1
        let c4 := c3 ++ [.close o.1]
        let c5 := if cl < 0 then c4 ++ [.sieve_sys_error .close_failed_after_error] else c4
        (STDERR_FILENO, api.st_size_unset, c5)
    -- Rotate log when it has grown too large
    if s.2.1 ≥ LOGFILE_MAX_SIZE then
      -- Close open file
      let cl := api.close s.2.2 s.1
      let c6 := s.2.2 ++ [.close s.1]
      let c7 := if cl < 0 then c6 ++ [.sieve_sys_error .close_failed] else c6
      -- Rotate logfile
      let rotated := logfile ++ ".0"
      let rn := api.rename c7 logfile rotated
      let c8 := c7 ++ [.rename logfile rotated]
      let c9 := if rn < 0 then c8 ++ [.sieve_sys_error .rotate_failed] else c8
      -- Open clean logfile (overwrites existing if rename() failed earlier)
      let o2 := api.open_trunc c9 logfile
      let c10 := c9 ++ [.open_trunc logfile]
      if o2.1 = -1 then (STDERR_FILENO, logfile_open_failed o2.2 c10)
      else (o2.1, c10)
    else (s.1, s.2.2)

/-- The function `sieve_logfile_start(ehandler)`: the sink and the calls
afterwards. -/
def sieve_logfile_start (api : file_api) (ehandler : sieve_logfile_ehandler)
    (calls : List file_call) : sieve_logfile_ehandler × List file_call :=
  let o := sieve_logfile_open api ehandler.logfile calls
  let ostream := api.o_stream_create_fd o.2 o.1
  let c1 := o.2 ++ [.o_stream_create_fd o.1]
  let c2 := match ostream with
    | none => c1 ++ [.sieve_sys_error .stream_failed]
    | some _ => c1
  let e1 : sieve_logfile_ehandler :=
    { ehandler with fd := o.1, stream := ostream, started := true }
  match ostream with
  | none => (e1, c2)
  | some s =>
    match api.strftime c2 with
    | none => (e1, c2)
    | some t => (e1, c2 ++ [.logfile_printf s t])

/-- The function `sieve_logfile_free(ehandler)`; `o_stream_destroy(&stream)` clears
the pointer. -/
def sieve_logfile_free (api : file_api) (ehandler : sieve_logfile_ehandler)
    (calls : List file_call) : sieve_logfile_ehandler × List file_call :=
  match ehandler.stream with
  | none => (ehandler, calls)
  | some s =>
    let c1 := calls ++ [.o_stream_destroy s]
    let e1 : sieve_logfile_ehandler := { ehandler with stream := none }
    if ehandler.fd ≠ STDERR_FILENO then
      let cl := api.close c1 ehandler.fd
      let c2 := c1 ++ [.close ehandler.fd]
      (e1, if cl < 0 then c2 ++ [.sieve_sys_error .close_failed] else c2)
    else (e1, c1)

/-- The function `sieve_logfile_ehandler_create(logfile, max_errors)`; `pool` is
the pool `pool_alloconly_create` returns. -/
def sieve_logfile_ehandler_create (pool : Nat) (logfile : String) (max_errors : Nat) :
    sieve_logfile_ehandler :=
  { handler := { sieve_error_handler_init zeroed_handler pool max_errors with
                 verror := some .logfile, vwarning := some .logfile,
                 vinfo := some .logfile, vdebug := some .logfile,
                 free := some .sieve_logfile_free },
    logfile := logfile,
    started := false,
    stream := none,
    fd := -1 }

/-- The start of each of `sieve_logfile_verror`, `sieve_logfile_vwarning`,
`sieve_logfile_vinfo` and `sieve_logfile_vdebug`:
`if ( !handler->started ) sieve_logfile_start(handler);`. -/
def sieve_logfile_first_write (api : file_api) (ehandler : sieve_logfile_ehandler)
    (calls : List file_call) : sieve_logfile_ehandler × List file_call :=
  if !ehandler.started then sieve_logfile_start api ehandler calls else (ehandler, calls)

/-- A file system in which every call succeeds: `open` returns descriptor 5
(6 for the truncating open), the existing log file has `size` bytes, and
`o_stream_create_fd` returns `ostream`. -/
def example_file_api (size : Int) (ostream : Option Nat) : file_api where
  open_append := fun _ _ => (5, false)
  open_trunc := fun _ _ => (6, false)
  fstat := fun _ _ => some size
  st_size_unset := 0
  close := fun _ _ => 0
  rename := fun _ _ _ => 0
  o_stream_create_fd := fun _ _ => ostream
  strftime := fun _ => some "Jan 01 00:00:00"

/-! ## Relational extension: `ext-relational.c` -/

/-- The constant `RELATIONAL_VALUE` of `enum ext_relational_match_type`. -/
def RELATIONAL_VALUE : Nat := 0

/-- The constant `RELATIONAL_COUNT` of `enum ext_relational_match_type`. -/
def RELATIONAL_COUNT : Nat := 1

/-- The constant `REL_MATCH_GREATER` of `enum relational_match`. -/
def REL_MATCH_GREATER : Nat := 0

/-- The constant `REL_MATCH_GREATER_EQUAL` of `enum relational_match`. -/
def REL_MATCH_GREATER_EQUAL : Nat := 1

/-- The constant `REL_MATCH_LESS` of `enum relational_match`. -/
def REL_MATCH_LESS : Nat := 2

/-- The constant `REL_MATCH_LESS_EQUAL` of `enum relational_match`. -/
def REL_MATCH_LESS_EQUAL : Nat := 3

/-- The constant `REL_MATCH_EQUAL` of `enum relational_match`. -/
def REL_MATCH_EQUAL : Nat := 4

/-- The constant `REL_MATCH_NOT_EQUAL` of `enum relational_match`. -/
def REL_MATCH_NOT_EQUAL : Nat := 5

/-- The constant `REL_MATCH_INVALID` of `enum relational_match`. -/
def REL_MATCH_INVALID : Nat := 6

/-- The macro `REL_MATCH_INDEX(type, match)`. -/
def REL_MATCH_INDEX (type rel_match : Nat) : Nat := type * REL_MATCH_INVALID + rel_match

/-- The macro `REL_MATCH_TYPE(index)`. -/
def REL_MATCH_TYPE (index : Nat) : Nat := index / REL_MATCH_INVALID

/-- The macro `REL_MATCH(index)`. -/
def REL_MATCH (index : Nat) : Nat := index % REL_MATCH_INVALID

/-- The functions of `ext-relational.c` that the match type objects point to. -/
inductive relational_func where
  | mtch_relational_validate
  | mtch_value_match
  | mtch_count_match_init
  | mtch_count_match
  | mtch_count_match_deinit
deriving DecidableEq, Repr

/-- The fields of `struct sieve_match_type` as the initialisers of
`ext-relational.c` fill them (the `type` field is `SIEVE_MATCH_TYPE_CUSTOM` and
the `extension` field `&relational_match_extension` in all of them). -/
structure sieve_match_type where
  identifier : String
  is_iterative : Bool
  ext_code : Nat
  validate : Option relational_func
  validate_context : Option relational_func
  match_init : Option relational_func
  match_ : Option relational_func
  match_deinit : Option relational_func
deriving DecidableEq, Repr

/-- The object `value_match_type`, only used during validation. -/
def value_match_type : sieve_match_type :=
  { identifier := "value", is_iterative := true, ext_code := RELATIONAL_VALUE,
    validate := some .mtch_relational_validate, validate_context := none,
    match_init := none, match_ := none, match_deinit := none }

/-- The object `count_match_type`, only used during validation. -/
def count_match_type : sieve_match_type :=
  { identifier := "count", is_iterative := false, ext_code := RELATIONAL_COUNT,
    validate := some .mtch_relational_validate, validate_context := none,
    match_init := none, match_ := none, match_deinit := none }

/-- The macro `VALUE_MATCH_TYPE(name, rel_match, func)`. -/
def VALUE_MATCH_TYPE (name : String) (rel_match : Nat) : sieve_match_type :=
  { identifier := "value-" ++ name, is_iterative := true,
    ext_code := REL_MATCH_INDEX RELATIONAL_VALUE rel_match,
    validate := none, validate_context := none, match_init := none,
    match_ := some .mtch_value_match, match_deinit := none }

/-- The macro `COUNT_MATCH_TYPE(name, rel_match, func)`. -/
def COUNT_MATCH_TYPE (name : String) (rel_match : Nat) : sieve_match_type :=
  { identifier := "count-" ++ name, is_iterative := false,
    ext_code := REL_MATCH_INDEX RELATIONAL_COUNT rel_match,
    validate := none, validate_context := none,
    match_init := some .mtch_count_match_init,
    match_ := some .mtch_count_match, match_deinit := some .mtch_count_match_deinit }

/-- The table `rel_match_types[]`. -/
def rel_match_types : List sieve_match_type :=
  [ VALUE_MATCH_TYPE "gt" REL_MATCH_GREATER,
    VALUE_MATCH_TYPE "ge" REL_MATCH_GREATER_EQUAL,
    VALUE_MATCH_TYPE "lt" REL_MATCH_LESS,
    VALUE_MATCH_TYPE "le" REL_MATCH_LESS_EQUAL,
    VALUE_MATCH_TYPE "eq" REL_MATCH_EQUAL,
    VALUE_MATCH_TYPE "ne" REL_MATCH_NOT_EQUAL,
    COUNT_MATCH_TYPE "gt" REL_MATCH_GREATER,
    COUNT_MATCH_TYPE "ge" REL_MATCH_GREATER_EQUAL,
    COUNT_MATCH_TYPE "lt" REL_MATCH_LESS,
    COUNT_MATCH_TYPE "le" REL_MATCH_LESS_EQUAL,
    COUNT_MATCH_TYPE "eq" REL_MATCH_EQUAL,
    COUNT_MATCH_TYPE "ne" REL_MATCH_NOT_EQUAL ]

/-- The function `ext_relational_get_match(code)`; a pointer into the table is
the entry it points to, NULL is `none`. -/
def ext_relational_get_match (code : Nat) : Option sieve_match_type :=
  if code < rel_match_types.length then rel_match_types[code]?
  else none

/-- An AST argument as `mtch_relational_validate` reads it: a constant string
(`SAAT_STRING`) with its bytes, or an argument of another type with the name
`sieve_ast_argument_name` gives it. -/
inductive sieve_ast_argument where
  | string (strc : List Nat)
  | other (name : String)
deriving DecidableEq, Repr

/-- The fields of `struct sieve_match_type_context` the validation writes. -/
structure sieve_match_type_context where
  match_type : sieve_match_type
  ctx_data : Option Nat
deriving DecidableEq, Repr

/-- The two calls of `sieve_command_validate_error` in
`mtch_relational_validate`, with their `%s` arguments. -/
inductive relational_validate_error where
  | not_a_string (identifier : String) (argument_name : String)
  | not_a_relational_match (identifier : String) (rel_match_id : List Nat)
deriving DecidableEq, Repr

/-- What a call of `mtch_relational_validate` leaves behind: the returned
`bool`, the validation errors it reported, the context, and whether the argument
was deleted from the AST. -/
structure relational_validate_result where
  result : Bool
  errors : List relational_validate_error
  ctx : sieve_match_type_context
  arg_deleted : Bool
deriving DecidableEq, Repr

/-- The byte `s[k]` of a C string: the terminating NUL is read at index
`s.length`. -/
def cstr_at (s : List Nat) (k : Nat) : Nat := s.getD k 0

/-- The two nested `switch` statements of `mtch_relational_validate` on
`rel_match_id[0]` and `rel_match_id[1]`. -/
def relational_match_of_id (rel_match_id : List Nat) : Nat :=
  -- "gt" or "ge"
  if cstr_at rel_match_id 0 = 'g'.toNat then
    if cstr_at rel_match_id 1 = 't'.toNat then REL_MATCH_GREATER
    else if cstr_at rel_match_id 1 = 'e'.toNat then REL_MATCH_GREATER_EQUAL
    else REL_MATCH_INVALID
  -- "lt" or "le"
  else if cstr_at rel_match_id 0 = 'l'.toNat then
    if cstr_at rel_match_id 1 = 't'.toNat then REL_MATCH_LESS
    else if cstr_at rel_match_id 1 = 'e'.toNat then REL_MATCH_LESS_EQUAL
    else REL_MATCH_INVALID
  -- "eq"
  else if cstr_at rel_match_id 0 = 'e'.toNat then
    if cstr_at rel_match_id 1 = 'q'.toNat then REL_MATCH_EQUAL
    else REL_MATCH_INVALID
  -- "ne"
  else if cstr_at rel_match_id 0 = 'n'.toNat then
    if cstr_at rel_match_id 1 = 'e'.toNat then REL_MATCH_NOT_EQUAL
    else REL_MATCH_INVALID
  -- invalid
  else REL_MATCH_INVALID

/-- The function `mtch_relational_validate(validator, arg, ctx)`. Reading
`rel_match_types` outside the table is `none`. -/
def mtch_relational_validate (arg : sieve_ast_argument) (ctx : sieve_match_type_context) :
    Option relational_validate_result :=
  match arg with
  | .other name =>
    -- Did we get a string in the first place ?
    some { result := false,
           errors := [.not_a_string ctx.match_type.identifier name],
           ctx := ctx, arg_deleted := false }
  | .string rel_match_id =>
    -- Check the relational match id
    let rel_match := relational_match_of_id rel_match_id
    if REL_MATCH_INVALID ≤ rel_match then
      some { result := false,
             errors := [.not_a_relational_match ctx.match_type.identifier rel_match_id],
             ctx := ctx, arg_deleted := false }
    else
      -- Override the actual match type with a parameter-specific one
      match rel_match_types[REL_MATCH_INDEX ctx.match_type.ext_code rel_match]? with
      | none => none
      | some mtch =>
        some { result := true, errors := [],
               ctx := { match_type := mtch, ctx_data := some rel_match },
               arg_deleted := true }

/-- The function `mtch_value_match(mctx, val, val_size, key, key_size, key_index)`
for the match type `mtch` of the context; `compare` is the comparator of the
context. -/
def mtch_value_match {V K : Type} (compare : V → K → Int) (mtch : sieve_match_type)
    (val : V) (key : K) : Bool :=
  let rel_match := REL_MATCH mtch.ext_code
  let cmp_result := compare val key
  if rel_match = REL_MATCH_GREATER then decide (cmp_result > 0)
  else if rel_match = REL_MATCH_GREATER_EQUAL then decide (cmp_result ≥ 0)
  else if rel_match = REL_MATCH_LESS then decide (cmp_result < 0)
  else if rel_match = REL_MATCH_LESS_EQUAL then decide (cmp_result ≤ 0)
  else if rel_match = REL_MATCH_EQUAL then decide (cmp_result = 0)
  else if rel_match = REL_MATCH_NOT_EQUAL then decide (cmp_result ≠ 0)
  else false

/-- The six relational operators in the order of `enum relational_match`, as
the syntax comment of `ext-relational.c` lists them. -/
def relational_match_ids : List (List Nat) :=
  [cstr "gt", cstr "ge", cstr "lt", cstr "le", cstr "eq", cstr "ne"]

/-- The folder `act_store_check_duplicate` compares for an action: the expression
`ctx == NULL ? SIEVE_SCRIPT_DEFAULT_MAILBOX(renv->scriptenv) : ctx->folder`. -/
def act_store_folder (default_mailbox : List Nat) (act : sieve_action act_store_context) :
    List Nat :=
  match act.context with
  | none => default_mailbox
  | some c => c.folder

/-- The states the outer loop of `act_notify_check_duplicate` passes through at
its loop test `i < new_count`, starting from the state `s0`. -/
inductive notify_loop_reaches {Addr : Type} (smtp_address_equals : Addr → Addr → Bool)
    (old_rcpts : List (ext_notify_recipient Addr)) (s0 : notify_loop_state Addr) :
    notify_loop_state Addr → Prop where
  | start : notify_loop_reaches smtp_address_equals old_rcpts s0 s0
  | step (s s1 : notify_loop_state Addr) :
      notify_loop_reaches smtp_address_equals old_rcpts s0 s →
      s.i < s.new_count →
      notify_loop_body smtp_address_equals old_rcpts s = some s1 →
      notify_loop_reaches smtp_address_equals old_rcpts s0 s1

/-- The maximal runs of consecutive elements of a list that satisfy `dup`, in
order, each as the pair of the run's first index in the array that is left when
all earlier runs are removed (the number of elements before the run that do not
satisfy `dup`) and the run's length. `kept` counts the elements passed that do
not satisfy `dup`, `run` is the length of the run in progress. -/
def duplicate_runs {α : Type} (dup : α → Bool) : List α → Nat → Nat → List (Nat × Nat)
  | [], kept, run => if 0 < run then [(kept, run)] else []
  | x :: xs, kept, run =>
    if dup x then duplicate_runs dup xs kept (run + 1)
    else (if 0 < run then [(kept, run)] else []) ++ duplicate_runs dup xs (kept + 1) 0

/-! ## Notify command: `cmd-notify.c`, `cmd_notify_operation_execute` -/

/-- The collaborators of `cmd_notify_operation_execute` that are outside these
sources, taken as parameters: the result codes, the limit
`EXT_NOTIFY_MAX_RECIPIENTS`, the address parser, the address comparison, the
message composer (its return value and the text it writes) and the return value
of `sieve_result_add_action` for the action it is handed. -/
structure notify_api (Addr : Type) where
  SIEVE_EXEC_OK : Int
  SIEVE_EXEC_FAILURE : Int
  SIEVE_EXEC_BIN_CORRUPT : Int
  EXT_NOTIFY_MAX_RECIPIENTS : Nat
  sieve_address_parse_str : String → Option Addr
  smtp_address_equals : Addr → Addr → Bool
  ext_notify_construct_message : Option String → Int × String
  sieve_result_add_action : ext_notify_action Addr → Int

/-- The runtime messages of `cmd_notify_operation_execute`. -/
inductive notify_runtime_message where
  | warning_duplicate (raw_address : String)
  | warning_maximum (max : Nat)
  | error_invalid (raw_address : String)
  | trace_error_stringlist
deriving DecidableEq, Repr

/-- How the `while` loop over the `:options` list was left: the list ended, the
`break` at the recipient limit, or the `return` at an invalid address. -/
inductive notify_options_exit where
  | finished
  | limit
  | invalid
deriving DecidableEq, Repr

/-- The state after the `while` loop over the `:options` list: how it was left,
`act->recipients`, the messages reported, and the number of list items read by
`sieve_stringlist_next_item`. -/
structure notify_options_result (Addr : Type) where
  exit : notify_options_exit
  recipients : List (ext_notify_recipient Addr)
  messages : List notify_runtime_message
  processed : Nat
deriving DecidableEq, Repr

/-- The loop `for ( i = 0; i < rcpt_count; i++ )` of
`cmd_notify_operation_execute` ("Prevent duplicates"), started at index `i` with
the not yet visited part of `rcpts`: it stops at the first recipient whose
address equals `address` and yields the value of `i` after the loop. -/
def notify_rcpt_search {Addr : Type} (smtp_address_equals : Addr → Addr → Bool) (address : Addr) :
    List (ext_notify_recipient Addr) → Nat → Nat
  | [], i => i
  | r :: rs, i =>
    if smtp_address_equals r.address address then i
    else notify_rcpt_search smtp_address_equals address rs (i + 1)

/-- The loop `while ( (ret=sieve_stringlist_next_item(options, &raw_address)) > 0 )`
of `cmd_notify_operation_execute` over the items the string list yields, with
the recipients collected, the messages reported and the number of items read so
far. -/
def notify_options_loop {Addr : Type} (api : notify_api Addr) :
    List String → List (ext_notify_recipient Addr) → List notify_runtime_message → Nat →
    notify_options_result Addr
  | [], rcpts, msgs, n =>
    { exit := .finished, recipients := rcpts, messages := msgs, processed := n }
  | raw_address :: rest, rcpts, msgs, n =>
    -- Add if valid address
    match api.sieve_address_parse_str raw_address with
    | some address =>
      -- Prevent duplicates
      let i := notify_rcpt_search api.smtp_address_equals address rcpts 0
      -- Add only if unique
      if i ≠ rcpts.length then
        notify_options_loop api rest rcpts (msgs ++ [.warning_duplicate raw_address]) (n + 1)
      else if api.EXT_NOTIFY_MAX_RECIPIENTS ≤ rcpts.length then
        { exit := .limit, recipients := rcpts,
          messages := msgs ++ [.warning_maximum api.EXT_NOTIFY_MAX_RECIPIENTS],
          processed := n + 1 }
      else
        notify_options_loop api rest
          (rcpts ++ [{ full := raw_address, address := address }]) msgs (n + 1)
    | none =>
      { exit := .invalid, recipients := rcpts,
        messages := msgs ++ [.error_invalid raw_address], processed := n + 1 }

/-- What a call of `cmd_notify_operation_execute` leaves behind: the returned
code, the action handed to `sieve_result_add_action` (if that call is reached),
the messages reported and the number of `:options` items read. -/
structure notify_execute_result (Addr : Type) where
  status : Int
  action : Option (ext_notify_action Addr)
  messages : List notify_runtime_message
  processed : Nat
deriving DecidableEq, Repr

/-- The function `cmd_notify_operation_execute(renv, address)` from "Perform
operation" on, for the operands read before: `importance`, `id`, `message` and
`options` (NULL is `none`). The string list `options` yields the items
`options_items`; `options_ret` is what `sieve_stringlist_next_item` returns
after the last of them (0 at the end of the list, negative for a list that
cannot be read further). -/
def cmd_notify_operation_execute {Addr : Type} (api : notify_api Addr)
    (importance : Nat) (id message : Option String) (options : Option (List String))
    (options_ret : Int) : notify_execute_result Addr :=
  -- Enforce 0 < importance < 4 (just to be sure)
  let importance := if importance < 1 then 1 else if 3 < importance then 3 else importance
  -- Compose action
  match options with
  | none => { status := api.SIEVE_EXEC_OK, action := none, messages := [], processed := 0 }
  | some options_items =>
    -- Process message
    let m := api.ext_notify_construct_message message
    if m.1 ≤ 0 then { status := m.1, action := none, messages := [], processed := 0 }
    else
      -- Normalize and verify all :options addresses
      let l := notify_options_loop api options_items [] [] 0
      match l.exit with
      | .invalid =>
        { status := api.SIEVE_EXEC_FAILURE, action := none, messages := l.messages,
          processed := l.processed }
      | e =>
        if e = .finished ∧ options_ret < 0 then
          { status := api.SIEVE_EXEC_BIN_CORRUPT, action := none,
            messages := l.messages ++ [.trace_error_stringlist], processed := l.processed }
        else
          let act : ext_notify_action Addr :=
            { id := id, message := some m.2, importance := importance,
              recipients := l.recipients }
          if api.sieve_result_add_action act < 0 then
            { status := api.SIEVE_EXEC_FAILURE, action := some act, messages := l.messages,
              processed := l.processed }
          else
            { status := api.SIEVE_EXEC_OK, action := some act, messages := l.messages,
              processed := l.processed }

/-- The recipient read from a list item that parses as an address. -/
def notify_parsed_recipient {Addr : Type} (api : notify_api Addr) (raw_address : String) :
    Option (ext_notify_recipient Addr) :=
  (api.sieve_address_parse_str raw_address).map
    (fun a => { full := raw_address, address := a })

/-- The recipients of a list with distinct addresses, in order of first
occurrence: each recipient is appended to `acc` unless the address of a
recipient already in `acc` equals its address. -/
def distinct_recipients {Addr : Type} (smtp_address_equals : Addr → Addr → Bool) :
    List (ext_notify_recipient Addr) → List (ext_notify_recipient Addr) →
    List (ext_notify_recipient Addr)
  | [], acc => acc
  | r :: rs, acc =>
    if acc.any (fun o => smtp_address_equals o.address r.address)
    then distinct_recipients smtp_address_equals rs acc
    else distinct_recipients smtp_address_equals rs (acc ++ [r])

/-- A notify environment for examples: addresses are strings, an item parses as
an address when it contains `@`, two recipients are allowed, composing the
message and adding the action succeed. -/
def example_notify_api : notify_api String where
  SIEVE_EXEC_OK := 1
  SIEVE_EXEC_FAILURE := 0
  SIEVE_EXEC_BIN_CORRUPT := -1
  EXT_NOTIFY_MAX_RECIPIENTS := 2
  sieve_address_parse_str := fun s => if '@' ∈ s.toList then some s else none
  smtp_address_equals := fun a b => decide (a = b)
  ext_notify_construct_message := fun m => (1, m.getD "")
  sieve_result_add_action := fun _ => 0

/-! ## Master sink: `sieve-error.c` -/

/-- The object `_sieve_system_ehandler_object`, the built-in default master sink. -/
def _sieve_system_ehandler_object : sieve_error_handler :=
  { pool := none, refcount := 0, parent := none, max_errors := 0, errors := 0, warnings := 0,
    log_master := false, log_info := true, log_debug := true,
    verror := some .master, vwarning := some .master, vinfo := some .master,
    vdebug := some .master, free := none }

/-- The function `sieve_system_ehandler_set(ehandler)`; `master` is the value of
`_sieve_system_ehandler` before the call. The result is the memory, the value of
`_sieve_system_ehandler` and the events of the `sieve_error_handler_unref` call;
`none` is as for `sieve_error_handler_unref` and `sieve_error_handler_ref` (in
particular a `sieve_error_handler_ref` on a handler whose memory was freed). -/
def sieve_system_ehandler_set (fuel : Nat) (heap : ehandler_heap) (master ehandler : Option Nat) :
    Option (ehandler_heap × Option Nat × List unref_event) :=
  match sieve_error_handler_unref fuel heap master with
  | none => none
  | some (heap1, _, ev) =>
    -- _sieve_system_ehandler = ehandler
    match sieve_error_handler_ref heap1 ehandler with
    | none => none
    | some heap2 => some (heap2, ehandler, ev)

/-- The function `sieve_system_ehandler_reset()`; `master` is the value of
`_sieve_system_ehandler` before the call and `object` the address of
`_sieve_system_ehandler_object`. -/
def sieve_system_ehandler_reset (fuel : Nat) (heap : ehandler_heap) (master : Option Nat)
    (object : Nat) : Option (ehandler_heap × Option Nat × List unref_event) :=
  match sieve_error_handler_unref fuel heap master with
  | none => none
  | some (heap1, _, ev) => some (heap1, some object, ev)

/-- The memory at program start plus one handler: `_sieve_system_ehandler_object`
at address 0 and, at address 5, a handler as `sieve_master_ehandler_create`
returns it (pool, one reference, no parent, the master message functions). -/
def example_system_heap : ehandler_heap := fun x =>
  if x = 0 then some _sieve_system_ehandler_object
  else if x = 5 then
    some { example_handler with verror := some .master, vwarning := some .master,
                                vinfo := some .master, vdebug := some .master }
  else none

/-- A decorator as master sink: the handler at address 1 has the handler at
address 2 as parent and one reference (held by `_sieve_system_ehandler`); the
handler at address 2 has two references (held by its child and by its creator). -/
def example_decorated_heap : ehandler_heap := fun x =>
  if x = 1 then some { example_handler with parent := some 2 }
  else if x = 2 then some { example_handler with refcount := 2 }
  else none

/-- The handler a report event is a call on: the handler of a `direct` event,
none for the entry into `sieve_vcopy_master`. -/
def report_event.handler : report_event → Option Nat
  | .copy_master _ _ _ => none
  | .direct _ a _ _ => some a

/-- The handlers whose reference count one call of `sieve_error_handler_unref` on
the head of the parent chain `l` lowers: the head when it has a pool, and after a
handler whose count was 1 (it is torn down and releases its reference on its
parent) the next handler of the chain, under the same rule. -/
def unref_lowered (heap : ehandler_heap) : List Nat → List Nat
  | [] => []
  | a :: l =>
    match heap a with
    | none => []
    | some h =>
      if h.pool = none then []
      else if h.refcount = 1 then a :: unref_lowered heap l
      else [a]

/-! ## Example inputs -/

/-- A notify recipient with address `n` (addresses are numbers in the examples). -/
def example_recipient (n : Nat) : ext_notify_recipient Nat := { full := "", address := n }

/-- A notify context whose recipients have the given addresses. -/
def example_notify_action (l : List Nat) : ext_notify_action Nat :=
  { id := none, message := none, importance := 1, recipients := l.map example_recipient }

/-- A notify action whose recipients have the given addresses. -/
def example_notify (l : List Nat) : sieve_action (ext_notify_action Nat) :=
  { location := none, context := some (example_notify_action l) }

/-- A mail storage in which every call succeeds. -/
def example_api : mail_api where
  SIEVE_SCRIPT_DEFAULT_MAILBOX := fun _ => cstr "INBOX"
  mail_namespace_find := fun _ _ f => (some { storage := 7, list := 8 }, f)
  mailbox_open := fun _ s _ _ => (some 11, s)
  mail_storage_get_last_error := fun _ _ => (none, mail_error.other 1)
  mail_storage_mailbox_create := fun _ _ _ => 0
  mailbox_sync := fun _ _ => 0
  mailbox_transaction_begin := fun _ _ => 21
  mail_alloc := fun _ _ => 31
  mailbox_keywords_create := fun _ _ _ => (0, some 5)
  mailbox_copy := fun _ _ _ _ _ _ => 0
  mailbox_transaction_commit := fun _ _ => 0

/-- The script environment the test suite composes (`testsuite_result_execute`):
default mailbox "INBOX", `namespaces = NULL`, everything else zeroed. -/
def testsuite_env : sieve_action_exec_env :=
  { scriptenv := { default_mailbox := some (cstr "INBOX"), namespaces := none,
                   mailbox_autocreate := false, mailbox_autosubscribe := false },
    mail := 1 }

/-- An environment with namespaces. -/
def example_env : sieve_action_exec_env :=
  { scriptenv := { default_mailbox := some (cstr "INBOX"), namespaces := some 3,
                   mailbox_autocreate := false, mailbox_autosubscribe := false },
    mail := 1 }

/-- A fresh state: no calls yet, nothing saved. -/
def example_world : store_world :=
  { calls := [], estatus := { message_saved := false, tried_default_save := false,
                              last_storage := none } }

/-- The transaction `act_store_start` creates for folder "Archive" when the
environment has no namespaces. -/
def example_skipped_trans : act_store_transaction :=
  { context := some { folder := cstr "Archive" }, namespace_ := none, box := none,
    mail_trans := none, dest_mail := none, error := none, flags := 0, keywords := none }

/-- A transaction after a successful `act_store_execute`. -/
def example_executed_trans : act_store_transaction :=
  { context := some { folder := cstr "Archive" }, namespace_ := some { storage := 7, list := 8 },
    box := some 11, mail_trans := some 21, dest_mail := some 31, error := none, flags := 0,
    keywords := none }

/-! ## Theorems: notify duplicate check -/

theorem uint_sub_of_le (a b : Nat) (hb : b ≤ a) (ha : a < 2 ^ 32) : uint_sub a b = a - b := by
  unfold uint_sub
  have hb2 : b % 2 ^ 32 = b := Nat.mod_eq_of_lt (by omega)
  rw [hb2]
  have : a + 2 ^ 32 - b = (a - b) + 2 ^ 32 := by omega
  rw [this, Nat.add_mod_right]
  exact Nat.mod_eq_of_lt (by omega)

theorem array_delete_append {α : Type} (kept pend rest : List α) :
    array_delete (kept ++ pend ++ rest) kept.length pend.length = kept ++ rest := by
  unfold array_delete
  rw [List.append_assoc, List.take_left]
  have : kept.length + pend.length = (kept ++ pend).length := by simp
  rw [this, ← List.append_assoc, List.drop_left]

theorem notify_inner_loop_le {Addr : Type} (eq : Addr → Addr → Bool) (a : Addr)
    (old : List (ext_notify_recipient Addr)) (j : Nat) :
    notify_inner_loop eq a old j ≤ j + old.length := by
  induction old generalizing j with
  | nil => simp [notify_inner_loop]
  | cons r rs ih =>
    unfold notify_inner_loop
    split
    · simp
    · have := ih (j + 1)
      simp only [List.length_cons]
      omega

theorem notify_inner_loop_eq_iff {Addr : Type} (eq : Addr → Addr → Bool) (a : Addr)
    (old : List (ext_notify_recipient Addr)) (j : Nat) :
    notify_inner_loop eq a old j = j + old.length ↔
      old.any (fun o => eq a o.address) = false := by
  induction old generalizing j with
  | nil => simp [notify_inner_loop]
  | cons r rs ih =>
    unfold notify_inner_loop
    by_cases h : eq a r.address = true
    · simp [h]
    · have h2 : eq a r.address = false := by simpa using h
      have := ih (j + 1)
      simp only [h2, Bool.false_eq_true, if_false, List.length_cons, List.any_cons, Bool.false_or]
      rw [← this]
      omega

theorem notify_inner_loop_zero {Addr : Type} (eq : Addr → Addr → Bool)
    (old : List (ext_notify_recipient Addr)) (r : ext_notify_recipient Addr) :
    notify_inner_loop eq r.address old 0 = old.length ↔ is_old_recipient eq old r = false := by
  have := notify_inner_loop_eq_iff eq r.address old 0
  simpa [is_old_recipient] using this

theorem notify_loop_spec {Addr : Type} (eq : Addr → Addr → Bool)
    (old : List (ext_notify_recipient Addr)) (rest : List (ext_notify_recipient Addr)) :
    ∀ (kept pend : List (ext_notify_recipient Addr)) (fuel : Nat) (s : notify_loop_state Addr),
      rest.length < fuel →
      s.recipients = kept ++ pend ++ rest →
      s.new_count = s.recipients.length →
      s.i = kept.length + pend.length →
      s.del_len = pend.length →
      (pend ≠ [] → s.del_start = kept.length) →
      s.recipients.length < 2 ^ 32 →
      ∃ s1, notify_loop eq old fuel s = some s1 ∧
        notify_final s1 = kept ++ rest.filter (fun r => !is_old_recipient eq old r) := by
  induction rest with
  | nil =>
    intro kept pend fuel s hfuel hrec hcnt hi hlen hds _
    obtain ⟨f, rfl⟩ : ∃ f, fuel = f + 1 := ⟨fuel - 1, by omega⟩
    refine ⟨s, ?_, ?_⟩
    · unfold notify_loop
      have : ¬ s.i < s.new_count := by
        rw [hcnt, hrec, hi]; simp
      simp [this]
    · unfold notify_final
      by_cases hp : 0 < s.del_len
      · have hne : pend ≠ [] := by
          intro h; rw [h] at hlen; simp at hlen; omega
        rw [if_pos hp, hrec, hds hne, hlen]
        simpa using array_delete_append kept pend []
      · have : pend = [] := by
          apply List.eq_nil_of_length_eq_zero; omega
        rw [if_neg hp, hrec, this]; simp
  | cons x xs ih =>
    intro kept pend fuel s hfuel hrec hcnt hi hlen hds hbound
    obtain ⟨f, rfl⟩ : ∃ f, fuel = f + 1 := ⟨fuel - 1, by omega⟩
    have hf : xs.length < f := by simp at hfuel; omega
    have hlt : s.i < s.new_count := by
      rw [hcnt, hrec, hi]; simp
    have hget : s.recipients[s.i]? = some x := by
      rw [hrec, hi]
      have : kept.length + pend.length = (kept ++ pend).length := by simp
      rw [this, List.getElem?_append_right (le_refl _)]
      simp
    unfold notify_loop
    rw [if_pos hlt]
    by_cases hx : is_old_recipient eq old x = true
    · -- duplicate: mark deletion
      have hj : ¬ notify_inner_loop eq x.address old 0 = old.length := by
        rw [notify_inner_loop_zero]; simp [hx]
      obtain ⟨s2, hbody, e1, e2, e3, e4, e5⟩ : ∃ s2, notify_loop_body eq old s = some s2 ∧
          s2.recipients = s.recipients ∧ s2.new_count = s.new_count ∧ s2.i = s.i + 1 ∧
          s2.del_start = (if s.del_len = 0 then s.i else s.del_start) ∧
          s2.del_len = s.del_len + 1 := by
        unfold notify_loop_body
        rw [hget]
        simp only [hj, if_false]
        exact ⟨_, rfl, rfl, rfl, rfl, rfl, rfl⟩
      rw [hbody]
      simp only
      have := ih kept (pend ++ [x]) f s2 hf
        (by simp [e1, hrec]) (by rw [e2, e1, hcnt]) (by simp [e3, hi]; omega) (by simp [e5, hlen])
        (by
          intro _
          rw [e4]
          by_cases h0 : s.del_len = 0
          · have : pend = [] := by
              apply List.eq_nil_of_length_eq_zero; omega
            simp [h0, hi, this]
          · have hne : pend ≠ [] := by
              intro h; rw [h] at hlen; simp at hlen; omega
            simp [h0, hds hne])
        (by rw [e1]; exact hbound)
      obtain ⟨s1, h1, h2⟩ := this
      refine ⟨s1, h1, ?_⟩
      rw [h2]
      simp [List.filter_cons, hx]
    · -- not a duplicate
      have hx2 : is_old_recipient eq old x = false := by simpa using hx
      have hj : notify_inner_loop eq x.address old 0 = old.length := by
        rw [notify_inner_loop_zero]; exact hx2
      by_cases hp : 0 < s.del_len
      · have hne : pend ≠ [] := by
          intro h; rw [h] at hlen; simp at hlen; omega
        have hbody : notify_loop_body eq old s = some
            { recipients := array_delete s.recipients s.del_start s.del_len,
              new_count := (array_delete s.recipients s.del_start s.del_len).length,
              i := uint_sub s.i s.del_len + 1,
              del_start := s.del_start, del_len := 0,
              deletions := s.deletions ++ [(s.del_start, s.del_len)] } := by
          unfold notify_loop_body
          rw [hget]
          simp only [hj, if_true, hp]
        rw [hbody]
        simp only
        have hdel : array_delete s.recipients s.del_start s.del_len = kept ++ x :: xs := by
          rw [hrec, hds hne, hlen]; exact array_delete_append kept pend (x :: xs)
        have hsub : uint_sub s.i s.del_len = kept.length := by
          rw [uint_sub_of_le _ _ (by omega)]
          · omega
          · have : s.i < s.recipients.length := by rw [← hcnt]; exact hlt
            omega
        have := ih (kept ++ [x]) [] f
            { recipients := array_delete s.recipients s.del_start s.del_len,
              new_count := (array_delete s.recipients s.del_start s.del_len).length,
              i := uint_sub s.i s.del_len + 1,
              del_start := s.del_start, del_len := 0,
              deletions := s.deletions ++ [(s.del_start, s.del_len)] } hf
          (by simp [hdel]) (by simp) (by simp [hsub]) (by simp) (by simp)
          (by
            simp only [hdel]
            have : (kept ++ x :: xs).length ≤ s.recipients.length := by
              rw [hrec]; simp
            omega)
        obtain ⟨s1, h1, h2⟩ := this
        refine ⟨s1, h1, ?_⟩
        rw [h2]
        simp [List.filter_cons, hx2]
      · have hpe : pend = [] := by
          apply List.eq_nil_of_length_eq_zero; omega
        have hbody : notify_loop_body eq old s = some { s with i := s.i + 1, del_len := 0 } := by
          unfold notify_loop_body
          rw [hget]
          simp only [hj, if_true, hp, if_false]
        rw [hbody]
        simp only
        have := ih (kept ++ [x]) [] f { s with i := s.i + 1, del_len := 0 } hf
          (by simp [hrec, hpe]) (by simp [hcnt]) (by simp [hi, hpe]) (by simp) (by simp)
          (by simpa using hbound)
        obtain ⟨s1, h1, h2⟩ := this
        refine ⟨s1, h1, ?_⟩
        rw [h2]
        simp [List.filter_cons, hx2]

theorem act_notify_check_duplicate_eq {Addr : Type} (eq : Addr → Addr → Bool)
    (act act_other : sieve_action (ext_notify_action Addr))
    (new_nact old_nact : ext_notify_action Addr)
    (hnew : act.context = some new_nact) (hold : act_other.context = some old_nact)
    (hlen : new_nact.recipients.length < 2 ^ 32) :
    act_notify_check_duplicate eq act act_other =
      some (if 0 < (new_nact.recipients.filter
                (fun r => !is_old_recipient eq old_nact.recipients r)).length then 0 else 1,
            { act with context := some { new_nact with recipients :=
                (new_nact.recipients.filter
                  (fun r => !is_old_recipient eq old_nact.recipients r)) } },
            act_other) := by
  obtain ⟨s1, h1, h2⟩ := notify_loop_spec eq old_nact.recipients new_nact.recipients [] []
    (new_nact.recipients.length + 1)
    { recipients := new_nact.recipients, new_count := new_nact.recipients.length, i := 0,
      del_start := 0, del_len := 0, deletions := [] }
    (by omega) (by simp) rfl (by simp) (by simp) (by simp) hlen
  unfold notify_final at h2
  simp only [List.nil_append] at h2
  unfold act_notify_check_duplicate
  rw [hnew, hold]
  simp only [h1, h2]

/-- C1: for notify actions with non-null contexts, `act_notify_check_duplicate`
leaves in the new action exactly the recipients whose address equals no address
of the old action, in their original order (`n - k` of them when `k` of the `n`
overlap), and leaves the old action unchanged. -/
theorem act_notify_check_duplicate_compacts {Addr : Type} (eq : Addr → Addr → Bool)
    (act act_other : sieve_action (ext_notify_action Addr))
    (new_nact old_nact : ext_notify_action Addr)
    (hnew : act.context = some new_nact) (hold : act_other.context = some old_nact)
    (hlen : new_nact.recipients.length < 2 ^ 32) :
    ∃ ret survivors,
      act_notify_check_duplicate eq act act_other =
        some (ret, { act with context := some { new_nact with recipients := survivors } },
              act_other) ∧
      survivors = new_nact.recipients.filter
        (fun r => !(old_nact.recipients.any (fun o => eq r.address o.address))) ∧
      List.Sublist survivors new_nact.recipients ∧
      (∀ r, r ∈ survivors ↔
        r ∈ new_nact.recipients ∧ ∀ o ∈ old_nact.recipients, eq r.address o.address = false) ∧
      survivors.length = new_nact.recipients.length -
        new_nact.recipients.countP
          (fun r => old_nact.recipients.any (fun o => eq r.address o.address)) := by
  refine ⟨_, _, act_notify_check_duplicate_eq eq act act_other new_nact old_nact hnew hold hlen,
    rfl, List.filter_sublist _, ?_, ?_⟩
  · intro r
    simp [is_old_recipient, List.mem_filter]
  · have h := List.length_eq_countP_add_countP
      (fun r => old_nact.recipients.any (fun o => eq r.address o.address)) new_nact.recipients
    have h2 : (new_nact.recipients.filter
        (fun r => !is_old_recipient eq old_nact.recipients r)).length =
        new_nact.recipients.countP
          (fun r => !(old_nact.recipients.any (fun o => eq r.address o.address))) := by
      rw [List.countP_eq_length_filter]; rfl
    rw [h2]
    have h3 : List.countP (fun r => !(old_nact.recipients.any (fun o => eq r.address o.address)))
        new_nact.recipients =
        List.countP (fun a => decide (¬ (old_nact.recipients.any (fun o => eq a.address o.address)) = true))
        new_nact.recipients := by
      congr 1; funext a
      generalize (old_nact.recipients.any (fun o => eq a.address o.address)) = b
      cases b <;> simp
    omega

/-- Witness for C1: addresses `[1, 2, 3, 1, 1, 4]` checked against `[1, 2]`. -/
theorem act_notify_check_duplicate_compacts_witness :
    ((example_notify [1, 2, 3, 1, 1, 4]).context =
        some (example_notify_action [1, 2, 3, 1, 1, 4]) ∧
      (example_notify [1, 2]).context = some (example_notify_action [1, 2]) ∧
      (example_notify_action [1, 2, 3, 1, 1, 4]).recipients.length < 2 ^ 32) ∧
    ∃ ret survivors,
      act_notify_check_duplicate (fun a b : Nat => a == b)
          (example_notify [1, 2, 3, 1, 1, 4]) (example_notify [1, 2]) =
        some (ret,
              { location := none,
                context := some { id := none, message := none, importance := 1,
                                  recipients := survivors } },
              example_notify [1, 2]) ∧
      survivors = (example_notify_action [1, 2, 3, 1, 1, 4]).recipients.filter
        (fun r => !((example_notify_action [1, 2]).recipients.any
          (fun o => r.address == o.address))) ∧
      List.Sublist survivors (example_notify_action [1, 2, 3, 1, 1, 4]).recipients ∧
      (∀ r, r ∈ survivors ↔
        r ∈ (example_notify_action [1, 2, 3, 1, 1, 4]).recipients ∧
          ∀ o ∈ (example_notify_action [1, 2]).recipients, (r.address == o.address) = false) ∧
      survivors.length = (example_notify_action [1, 2, 3, 1, 1, 4]).recipients.length -
        (example_notify_action [1, 2, 3, 1, 1, 4]).recipients.countP
          (fun r => (example_notify_action [1, 2]).recipients.any
            (fun o => r.address == o.address)) :=
  ⟨⟨rfl, rfl, by decide⟩,
    act_notify_check_duplicate_compacts (fun a b : Nat => a == b)
      (example_notify [1, 2, 3, 1, 1, 4]) (example_notify [1, 2])
      (example_notify_action [1, 2, 3, 1, 1, 4]) (example_notify_action [1, 2])
      rfl rfl (by decide)⟩

/-- C2: `act_notify_check_duplicate` returns 0 or 1, never a negative value; it
returns 0 when either context is NULL; for non-null contexts it returns 1
exactly when the new action's recipient list is empty after the compaction,
which is exactly when every recipient of the new action has the address of some
recipient of the old action. -/
theorem act_notify_check_duplicate_return {Addr : Type} (eq : Addr → Addr → Bool)
    (act act_other : sieve_action (ext_notify_action Addr))
    (hlen : ∀ n, act.context = some n → n.recipients.length < 2 ^ 32) :
    ∃ ret act1 other1,
      act_notify_check_duplicate eq act act_other = some (ret, act1, other1) ∧
      (ret = 0 ∨ ret = 1) ∧
      (act.context = none ∨ act_other.context = none → ret = 0) ∧
      (∀ new_nact old_nact, act.context = some new_nact → act_other.context = some old_nact →
        ∃ nact1, act1.context = some nact1 ∧
          (ret = 1 ↔ nact1.recipients = []) ∧
          (ret = 1 ↔ ∀ r ∈ new_nact.recipients,
            ∃ o ∈ old_nact.recipients, eq r.address o.address = true)) := by
  cases hnew : act.context with
  | none =>
    refine ⟨0, act, act_other, ?_, Or.inl rfl, fun _ => rfl, ?_⟩
    · simp [act_notify_check_duplicate, hnew]
    · intro n o h; cases h
  | some new_nact =>
    cases hold : act_other.context with
    | none =>
      refine ⟨0, act, act_other, ?_, Or.inl rfl, fun _ => rfl, ?_⟩
      · simp [act_notify_check_duplicate, hnew, hold]
      · intro n o _ h; cases h
    | some old_nact =>
      have h := act_notify_check_duplicate_eq eq act act_other new_nact old_nact hnew hold
        (hlen new_nact hnew)
      refine ⟨_, _, _, h, ?_, ?_, ?_⟩
      · split
        · exact Or.inl rfl
        · exact Or.inr rfl
      · rintro (h1 | h1) <;> cases h1
      · intro n o hn ho
        cases hn; cases ho
        refine ⟨_, rfl, ?_, ?_⟩
        · simp only
          split
          · rename_i hpos
            constructor
            · intro h01; exact absurd h01 (by decide)
            · intro hnil; rw [hnil] at hpos; simp at hpos
          · rename_i hpos
            constructor
            · intro _; exact List.eq_nil_of_length_eq_zero (by omega)
            · intro _; rfl
        · split
          · rename_i hpos
            constructor
            · intro h01; exact absurd h01 (by decide)
            · intro hall
              exfalso
              obtain ⟨r, hr⟩ := List.exists_mem_of_length_pos hpos
              rw [List.mem_filter] at hr
              obtain ⟨o, ho, hro⟩ := hall r hr.1
              have : is_old_recipient eq old_nact.recipients r = true := by
                unfold is_old_recipient
                exact List.any_eq_true.mpr ⟨o, ho, hro⟩
              simp [this] at hr
          · rename_i hpos
            constructor
            · intro _ r hr
              have hnil : new_nact.recipients.filter
                  (fun r => !is_old_recipient eq old_nact.recipients r) = [] :=
                List.eq_nil_of_length_eq_zero (by omega)
              have hnot : r ∉ new_nact.recipients.filter
                  (fun r => !is_old_recipient eq old_nact.recipients r) := by
                rw [hnil]; simp
              rw [List.mem_filter] at hnot
              have : is_old_recipient eq old_nact.recipients r = true := by
                by_contra hc
                apply hnot
                exact ⟨hr, by simpa using hc⟩
              unfold is_old_recipient at this
              exact List.any_eq_true.mp this
            · intro _; rfl

/-- Witness for C2: addresses `[1, 2, 1]` checked against `[1, 2]`. -/
theorem act_notify_check_duplicate_return_witness :
    (∀ n, (example_notify [1, 2, 1]).context = some n → n.recipients.length < 2 ^ 32) ∧
    ∃ ret act1 other1,
      act_notify_check_duplicate (fun a b : Nat => a == b)
          (example_notify [1, 2, 1]) (example_notify [1, 2]) = some (ret, act1, other1) ∧
      (ret = 0 ∨ ret = 1) ∧
      (∃ nact1, act1.context = some nact1 ∧ (ret = 1 ↔ nact1.recipients = [])) :=
  have hyp : ∀ n, (example_notify [1, 2, 1]).context = some n → n.recipients.length < 2 ^ 32 := by
    intro n hn; cases hn; decide
  ⟨hyp,
    match act_notify_check_duplicate_return (fun a b : Nat => a == b)
        (example_notify [1, 2, 1]) (example_notify [1, 2]) hyp with
    | ⟨ret, act1, other1, h, h01, _, hctx⟩ =>
      match hctx _ _ rfl rfl with
      | ⟨nact1, h1, h2, _⟩ => ⟨ret, act1, other1, h, h01, nact1, h1, h2⟩⟩

/-! ## Theorems: store action -/

theorem tolower_eq_zero (b : Nat) : tolower b = 0 ↔ b = 0 := by
  unfold tolower
  split <;> omega

theorem is_cstring_cons (a : Nat) (as : List Nat) (h : is_cstring (a :: as) = true) :
    0 < a ∧ is_cstring as = true := by
  unfold is_cstring at h ⊢
  simp only [List.all_cons, Bool.and_eq_true, decide_eq_true_eq] at h
  exact ⟨h.1.1, h.2⟩

theorem strcmp_eq_zero_iff (a b : List Nat) (ha : is_cstring a = true)
    (hb : is_cstring b = true) : strcmp a b = 0 ↔ a = b := by
  induction a generalizing b with
  | nil =>
    cases b with
    | nil => simp [strcmp]
    | cons y ys =>
      have := (is_cstring_cons y ys hb).1
      simp only [strcmp]
      constructor
      · intro h; omega
      · intro h; cases h
  | cons x xs ih =>
    have hx := is_cstring_cons x xs ha
    cases b with
    | nil =>
      simp only [strcmp]
      constructor
      · intro h; omega
      · intro h; cases h
    | cons y ys =>
      have hy := is_cstring_cons y ys hb
      simp only [strcmp]
      by_cases hxy : x = y
      · subst hxy
        simp only [if_true, List.cons.injEq, true_and]
        exact ih ys hx.2 hy.2
      · simp only [hxy, if_false, List.cons.injEq, false_and, iff_false]
        omega

theorem strcasecmp_eq_zero_iff (a b : List Nat) (ha : is_cstring a = true)
    (hb : is_cstring b = true) :
    strcasecmp a b = 0 ↔ a.map tolower = b.map tolower := by
  induction a generalizing b with
  | nil =>
    cases b with
    | nil => simp [strcasecmp]
    | cons y ys =>
      have := (is_cstring_cons y ys hb).1
      have h0 := tolower_eq_zero y
      simp only [strcasecmp, List.map_nil, List.map_cons]
      constructor
      · intro h; omega
      · intro h; cases h
  | cons x xs ih =>
    have hx := is_cstring_cons x xs ha
    cases b with
    | nil =>
      have h0 := tolower_eq_zero x
      simp only [strcasecmp, List.map_nil, List.map_cons]
      constructor
      · intro h; omega
      · intro h; cases h
    | cons y ys =>
      have hy := is_cstring_cons y ys hb
      simp only [strcasecmp, List.map_cons]
      by_cases hxy : tolower x = tolower y
      · simp only [hxy, if_true, List.cons.injEq, true_and]
        exact ih ys hx.2 hy.2
      · simp only [hxy, if_false, List.cons.injEq, false_and, iff_false]
        omega

/-- C3: for store actions with target folders `f1` and `f2` (C strings),
`act_store_check_duplicate` returns 1 (duplicate) exactly when `f1` and `f2` are
byte-equal or both equal "INBOX" ignoring case, and 0 otherwise, never a
negative (conflict) value; "INBOX" after "Inbox" is a duplicate and "Archive"
after "INBOX" is not. -/
theorem act_store_check_duplicate_iff (default_mailbox f1 f2 : List Nat)
    (loc1 loc2 : Option String)
    (h1 : is_cstring f1 = true) (h2 : is_cstring f2 = true) :
    (act_store_check_duplicate default_mailbox
        { location := loc1, context := some { folder := f1 } }
        { location := loc2, context := some { folder := f2 } } = 1 ↔
      (f1 = f2 ∨
        (f1.map tolower = (cstr "INBOX").map tolower ∧
          f2.map tolower = (cstr "INBOX").map tolower))) ∧
    (act_store_check_duplicate default_mailbox
        { location := loc1, context := some { folder := f1 } }
        { location := loc2, context := some { folder := f2 } } = 0 ∨
      act_store_check_duplicate default_mailbox
        { location := loc1, context := some { folder := f1 } }
        { location := loc2, context := some { folder := f2 } } = 1) ∧
    act_store_check_duplicate default_mailbox
        { location := loc1, context := some { folder := cstr "INBOX" } }
        { location := loc2, context := some { folder := cstr "Inbox" } } = 1 ∧
    act_store_check_duplicate default_mailbox
        { location := loc1, context := some { folder := cstr "Archive" } }
        { location := loc2, context := some { folder := cstr "INBOX" } } = 0 := by
  have hI : is_cstring (cstr "INBOX") = true := by decide
  have e1 := strcmp_eq_zero_iff f1 f2 h1 h2
  have e2 := strcasecmp_eq_zero_iff f1 (cstr "INBOX") h1 hI
  have e3 := strcasecmp_eq_zero_iff f2 (cstr "INBOX") h2 hI
  refine ⟨?_, ?_, ?_, ?_⟩
  · simp only [act_store_check_duplicate]
    rw [← e1, ← e2, ← e3]
    by_cases c1 : strcmp f1 f2 = 0
    · simp [c1]
    · by_cases c2 : strcasecmp f1 (cstr "INBOX") = 0 ∧ strcasecmp f2 (cstr "INBOX") = 0
      · simp [c1, c2]
      · simp [c1, c2]
  · simp only [act_store_check_duplicate]
    by_cases c1 : strcmp f1 f2 = 0
    · simp [c1]
    · by_cases c2 : strcasecmp f1 (cstr "INBOX") = 0 ∧ strcasecmp f2 (cstr "INBOX") = 0
      · simp [c1, c2]
      · simp [c1, c2]
  · rfl
  · rfl

/-- Witness for C3: folders "inbox" and "INBOX". -/
theorem act_store_check_duplicate_iff_witness :
    (is_cstring (cstr "inbox") = true ∧ is_cstring (cstr "INBOX") = true) ∧
    (act_store_check_duplicate (cstr "INBOX")
        { location := none, context := some { folder := cstr "inbox" } }
        { location := none, context := some { folder := cstr "INBOX" } } = 1 ↔
      (cstr "inbox" = cstr "INBOX" ∨
        ((cstr "inbox").map tolower = (cstr "INBOX").map tolower ∧
          (cstr "INBOX").map tolower = (cstr "INBOX").map tolower))) :=
  ⟨⟨by decide, by decide⟩,
    (act_store_check_duplicate_iff (cstr "INBOX") (cstr "inbox") (cstr "INBOX") none none
      (by decide) (by decide)).1⟩

/-- Counterexample to C4 as stated: in the test suite's environment (namespaces
NULL) commit of a skipped store returns success with keep cancelled but
`message_saved` still FALSE. -/
theorem act_store_commit_saved_counterexample :
    ¬ (∀ (api : mail_api) (aenv : sieve_action_exec_env) (tr tr1 : Option act_store_transaction)
        (keep keep1 : Bool) (w w1 : store_world),
        act_store_commit api aenv tr keep w = some (true, tr1, keep1, w1) →
        keep1 = false ∧ w1.estatus.message_saved = true) := by
  intro h
  have h1 := h example_api testsuite_env (some example_skipped_trans)
    (some example_skipped_trans) true false example_world
    (example_world.call (.sieve_result_log (.skipped (cstr "Archive")))) rfl
  exact absurd h1.2 (by decide)

theorem act_store_log_status_estatus (api : mail_api) (aenv : sieve_action_exec_env)
    (trans : act_store_transaction) (rb st : Bool) (w w1 : store_world)
    (h : act_store_log_status api aenv trans rb st w = some w1) :
    w1.estatus = w.estatus := by
  unfold act_store_log_status at h
  cases hc : trans.context with
  | none => rw [hc] at h; cases h
  | some ctx =>
    rw [hc] at h
    cases hn : trans.namespace_ with
    | none =>
      rw [hn] at h
      simp only at h
      split at h <;> (cases h; rfl)
    | some ns =>
      rw [hn] at h
      simp only at h
      split at h
      · cases h; rfl
      · cases he : trans.error with
        | none =>
          rw [he] at h
          simp only at h
          split at h <;> (cases h; rfl)
        | some e =>
          rw [he] at h
          simp only at h
          split at h <;> (cases h; rfl)

theorem store_close_box_estatus (t : act_store_transaction) (w : store_world) :
    (store_close_box t w).2.estatus = w.estatus := by
  unfold store_close_box
  cases t.box <;> rfl

theorem store_free_dest_mail_estatus (t : act_store_transaction) (w : store_world) :
    (store_free_dest_mail t w).2.estatus = w.estatus := by
  unfold store_free_dest_mail
  cases t.dest_mail <;> rfl

/-- C4 (amended): if `act_store_commit` returns success then `*keep` is FALSE;
`ExecStatus.message_saved` is TRUE when the transaction has a namespace, and when
it has none (store skipped because the environment's namespaces are NULL) the
execution status is left as it was. -/
theorem act_store_commit_success (api : mail_api) (aenv : sieve_action_exec_env)
    (t : act_store_transaction) (tr1 : Option act_store_transaction)
    (keep keep1 : Bool) (w w1 : store_world)
    (h : act_store_commit api aenv (some t) keep w = some (true, tr1, keep1, w1)) :
    keep1 = false ∧
    (t.namespace_ ≠ none → w1.estatus.message_saved = true) ∧
    (t.namespace_ = none → aenv.scriptenv.namespaces = none ∧ w1.estatus = w.estatus) := by
  unfold act_store_commit at h
  simp only at h
  cases hn : t.namespace_ with
  | none =>
    rw [hn] at h
    simp only at h
    split at h
    · rename_i hns
      cases hl : act_store_log_status api aenv t false true w with
      | none => rw [hl] at h; cases h
      | some w2 =>
        rw [hl] at h
        simp only [Option.some.injEq, Prod.mk.injEq] at h
        obtain ⟨-, -, hk, hw⟩ := h
        subst hw
        exact ⟨hk.symm, fun hne => absurd rfl hne,
          fun _ => ⟨hns, act_store_log_status_estatus api aenv t false true w w2 hl⟩⟩
    · simp at h
  | some ns =>
    rw [hn] at h
    simp only at h
    cases hb : t.box with
    | none => rw [hb] at h; simp at h
    | some b =>
      rw [hb] at h
      simp only at h
      split at h
      · cases h
      · rename_i tt ht
        split at h
        · cases h
        · rename_i w4 hl
          simp only [Option.some.injEq, Prod.mk.injEq] at h
          obtain ⟨hst, -, hk, hw⟩ := h
          refine ⟨?_, ?_, fun hc => by cases hc⟩
          · rw [← hk, hst]; rfl
          · intro _
            rw [← hw, store_close_box_estatus]
            rw [act_store_log_status_estatus _ _ _ _ _ _ _ hl]
            rw [hst]
            rfl

/-- Witness for C4 (amended): commit of an executed transaction on a storage
where every call succeeds. -/
theorem act_store_commit_success_witness :
    act_store_commit example_api example_env (some example_executed_trans) true example_world =
      some (true,
        some { example_executed_trans with dest_mail := none, mail_trans := none, box := none },
        false,
        { calls := [.mail_free 31, .mailbox_transaction_commit 21,
                    .sieve_result_log (.stored (cstr "Archive")), .mailbox_close 11],
          estatus := { message_saved := true, tried_default_save := false,
                       last_storage := some 7 } }) ∧
    (false = false ∧
      (example_executed_trans.namespace_ ≠ none → true = true) ∧
      (example_executed_trans.namespace_ = none →
        example_env.scriptenv.namespaces = none ∧
          ({ message_saved := true, tried_default_save := false,
             last_storage := some 7 } : sieve_exec_status) = example_world.estatus)) :=
  ⟨rfl, act_store_commit_success example_api example_env example_executed_trans _ true false
    example_world _ rfl⟩

theorem act_store_log_status_isSome (api : mail_api) (aenv : sieve_action_exec_env)
    (trans : act_store_transaction) (ctx : act_store_context) (hc : trans.context = some ctx)
    (rb st : Bool) (w : store_world) :
    ∃ w1, act_store_log_status api aenv trans rb st w = some w1 ∧
      (∃ added, w1.calls = w.calls ++ added ∧ added.filter is_release = []) := by
  unfold act_store_log_status
  rw [hc]
  cases hn : trans.namespace_ with
  | none =>
    simp only
    split
    · exact ⟨_, rfl, [_], rfl, rfl⟩
    · exact ⟨_, rfl, [_], rfl, rfl⟩
  | some ns =>
    simp only
    split
    · exact ⟨_, rfl, [_], rfl, rfl⟩
    · cases he : trans.error with
      | none =>
        simp only
        split
        · exact ⟨_, rfl, [.mail_storage_get_last_error ns.storage,
            .sieve_result_log (.aborted ctx.folder)], by simp [store_world.call], rfl⟩
        · exact ⟨_, rfl, [.mail_storage_get_last_error ns.storage,
            .sieve_result_error (.failed ctx.folder
              (api.mail_storage_get_last_error w.calls ns.storage).1)],
            by simp [store_world.call], rfl⟩
      | some e =>
        simp only
        split
        · exact ⟨_, rfl, [_], rfl, rfl⟩
        · exact ⟨_, rfl, [_], rfl, rfl⟩

theorem act_store_rollback_isSome (api : mail_api) (aenv : sieve_action_exec_env)
    (trans : act_store_transaction) (ctx : act_store_context) (hc : trans.context = some ctx)
    (success : Bool) (w : store_world) :
    (act_store_rollback api aenv (some trans) success w).isSome = true := by
  obtain ⟨w1, h1, -⟩ := act_store_log_status_isSome api aenv trans ctx hc true success w
  unfold act_store_rollback
  simp only [h1]
  rfl

theorem act_store_start_eq (api : mail_api) (aenv : sieve_action_exec_env)
    (context : Option act_store_context) (w : store_world) :
    ∃ ret trans ctx w1,
      act_store_start api aenv context w = some (ret, some trans, w1) ∧
      trans.context = some ctx ∧
      ret = (aenv.scriptenv.namespaces.isNone || trans.box.isSome) ∧
      trans.mail_trans = none ∧ trans.dest_mail = none ∧
      (aenv.scriptenv.namespaces = none →
        trans.namespace_ = none ∧ trans.box = none ∧ w1 = w ∧ trans.error = none ∧
          trans.flags = 0 ∧ trans.keywords = none ∧
          ctx = (match context with
            | none => { folder := api.SIEVE_SCRIPT_DEFAULT_MAILBOX aenv.scriptenv }
            | some c => c)) := by
  unfold act_store_start
  cases hns : aenv.scriptenv.namespaces with
  | none =>
    simp only [Option.isSome_none, Option.isNone_none, Bool.false_eq_true, false_and, if_false]
    exact ⟨_, _, _, _, rfl, rfl, rfl, rfl, rfl, fun _ => ⟨rfl, rfl, rfl, rfl, rfl, rfl, rfl⟩⟩
  | some nss =>
    simp only
    split
    · rename_i hcond
      simp only [Option.isSome_iff_exists] at hcond
      obtain ⟨⟨ns, hns2⟩, hbox⟩ := hcond
      unfold act_store_get_storage_error
      simp only [hns2]
      exact ⟨_, _, _, _, rfl, rfl, by simp [Option.isNone_iff_eq_none.mp hbox], rfl, rfl,
        fun h => by cases h⟩
    · exact ⟨_, _, _, _, rfl, rfl, rfl, rfl, rfl, fun h => by cases h⟩

/-- C5: for every action context (NULL included) and every environment,
`act_store_start` returns and stores a non-null transaction in `*tr_context`
whose `context` is non-null, whatever it returns (success exactly when the
namespaces are NULL or the mailbox was opened); on such a transaction
`act_store_rollback` and `act_store_log_status` never dereference NULL. -/
theorem act_store_start_context_nonnull (api : mail_api) (aenv : sieve_action_exec_env)
    (context : Option act_store_context) (w : store_world) :
    ∃ ret trans ctx w1,
      act_store_start api aenv context w = some (ret, some trans, w1) ∧
      trans.context = some ctx ∧
      ret = (aenv.scriptenv.namespaces.isNone || trans.box.isSome) ∧
      (∀ success w2, (act_store_rollback api aenv (some trans) success w2).isSome = true) ∧
      (∀ rolled_back status w2,
        (act_store_log_status api aenv trans rolled_back status w2).isSome = true) := by
  obtain ⟨ret, trans, ctx, w1, h, hc, hr, -⟩ := act_store_start_eq api aenv context w
  refine ⟨ret, trans, ctx, w1, h, hc, hr, ?_, ?_⟩
  · intro success w2
    exact act_store_rollback_isSome api aenv trans ctx hc success w2
  · intro rb st w2
    obtain ⟨w3, h3, -⟩ := act_store_log_status_isSome api aenv trans ctx hc rb st w2
    rw [h3]; rfl

theorem act_store_get_storage_error_context (api : mail_api) (t : act_store_transaction)
    (w : store_world) (tw : act_store_transaction × store_world)
    (h : act_store_get_storage_error api t w = some tw) :
    tw.1.context = t.context := by
  unfold act_store_get_storage_error at h
  split at h
  · cases h
  · cases h; rfl

theorem act_store_collect_keywords_context (api : mail_api) (box : Nat)
    (t : act_store_transaction) (w : store_world) :
    (act_store_collect_keywords api box t w).2.1.context = t.context := by
  unfold act_store_collect_keywords
  split
  · rfl
  · split
    · simp only
      split <;> rfl
    · rfl

theorem act_store_execute_context (api : mail_api) (aenv : sieve_action_exec_env)
    (t t1 : act_store_transaction) (w w1 : store_world) (ret : Bool)
    (h : act_store_execute api aenv (some t) w = some (ret, some t1, w1)) :
    t1.context = t.context := by
  unfold act_store_execute at h
  simp only at h
  repeat' split at h
  all_goals first
    | (cases h; done)
    | (cases h; rfl)
    | (cases h; rw [act_store_collect_keywords_context])
    | (cases h; rename_i heq
       rw [act_store_get_storage_error_context api _ _ _ heq,
         act_store_collect_keywords_context])

theorem store_close_box_context (t : act_store_transaction) (w : store_world) :
    (store_close_box t w).1.context = t.context := by
  unfold store_close_box
  cases t.box <;> rfl

theorem store_free_dest_mail_context (t : act_store_transaction) (w : store_world) :
    (store_free_dest_mail t w).1.context = t.context := by
  unfold store_free_dest_mail
  cases t.dest_mail <;> rfl

theorem act_store_commit_context (api : mail_api) (aenv : sieve_action_exec_env)
    (t t1 : act_store_transaction) (keep keep1 : Bool) (w w1 : store_world) (ret : Bool)
    (h : act_store_commit api aenv (some t) keep w = some (ret, some t1, keep1, w1)) :
    t1.context = t.context := by
  unfold act_store_commit at h
  simp only at h
  split at h
  · split at h
    · split at h
      · cases h
      · cases h; rfl
    · cases h; rfl
  · split at h
    · cases h; rfl
    · split at h
      · cases h
      · split at h
        · cases h
        · cases h
          rw [store_close_box_context]
          exact store_free_dest_mail_context _ _

theorem store_reachable_context (api : mail_api) (aenv : sieve_action_exec_env)
    (t : act_store_transaction) (h : store_reachable api aenv t) :
    ∃ ctx, t.context = some ctx := by
  induction h with
  | start context w w1 ret t hs =>
    obtain ⟨ret2, trans, ctx, w2, h2, hc, -⟩ := act_store_start_eq api aenv context w
    rw [hs] at h2
    cases h2
    exact ⟨ctx, hc⟩
  | execute t t1 w w1 ret _ he ih =>
    rw [act_store_execute_context api aenv t t1 w w1 ret he]; exact ih
  | commit t t1 keep keep1 w w1 ret _ hcm ih =>
    rw [act_store_commit_context api aenv t t1 keep keep1 w w1 ret hcm]; exact ih

theorem act_store_rollback_eq (api : mail_api) (aenv : sieve_action_exec_env)
    (trans : act_store_transaction) (ctx : act_store_context) (hc : trans.context = some ctx)
    (success : Bool) (w : store_world) :
    ∃ w1 added,
      act_store_rollback api aenv (some trans) success w =
        some ({ trans with dest_mail := none, mail_trans := none, box := none }, w1) ∧
      w1.calls = w.calls ++ added ∧
      added.filter is_release = held_resources trans ∧
      w1.estatus = w.estatus := by
  obtain ⟨w0, h0, added0, ha0, hf0⟩ := act_store_log_status_isSome api aenv trans ctx hc true success w
  have he0 := act_store_log_status_estatus api aenv trans true success w w0 h0
  unfold act_store_rollback
  simp only [h0]
  refine ⟨(store_close_box
      (store_rollback_mail_trans (store_free_dest_mail trans w0).1
        (store_free_dest_mail trans w0).2).1
      (store_rollback_mail_trans (store_free_dest_mail trans w0).1
        (store_free_dest_mail trans w0).2).2).2,
    added0 ++ held_resources trans, ?_, ?_, ?_, ?_⟩
  · obtain ⟨c, n, b, m, d, e, f, k⟩ := trans
    cases d <;> cases m <;> cases b <;>
      simp [store_free_dest_mail, store_rollback_mail_trans, store_close_box]
  · obtain ⟨c, n, b, m, d, e, f, k⟩ := trans
    cases d <;> cases m <;> cases b <;>
      simp [store_free_dest_mail, store_rollback_mail_trans, store_close_box, held_resources,
        store_world.call, ha0]
  · obtain ⟨c, n, b, m, d, e, f, k⟩ := trans
    cases d <;> cases m <;> cases b <;>
      simp [held_resources, List.filter_append, hf0, is_release]
  · obtain ⟨c, n, b, m, d, e, f, k⟩ := trans
    cases d <;> cases m <;> cases b <;>
      simp [store_free_dest_mail, store_rollback_mail_trans, store_close_box,
        store_world.call, he0]

/-- C6: on every transaction produced by `act_store_start`, with or without
`act_store_execute` and `act_store_commit` having run on it, `act_store_rollback`
returns, makes exactly one release call per held resource (destination mail
object, mail transaction, open mailbox) and leaves all three absent; a second
`act_store_rollback` makes no release call and leaves the transaction unchanged. -/
theorem act_store_rollback_releases_once (api : mail_api) (aenv : sieve_action_exec_env)
    (trans : act_store_transaction) (hr : store_reachable api aenv trans)
    (success : Bool) (w : store_world) :
    ∃ t1 w1 added,
      act_store_rollback api aenv (some trans) success w = some (t1, w1) ∧
      w1.calls = w.calls ++ added ∧
      added.filter is_release = held_resources trans ∧
      t1.dest_mail = none ∧ t1.mail_trans = none ∧ t1.box = none ∧
      (∀ success2 w2, ∃ w3 added2,
        act_store_rollback api aenv (some t1) success2 w2 = some (t1, w3) ∧
        w3.calls = w2.calls ++ added2 ∧
        added2.filter is_release = []) := by
  obtain ⟨ctx, hc⟩ := store_reachable_context api aenv trans hr
  obtain ⟨w1, added, h1, ha, hf, -⟩ := act_store_rollback_eq api aenv trans ctx hc success w
  refine ⟨_, w1, added, h1, ha, hf, rfl, rfl, rfl, ?_⟩
  intro success2 w2
  obtain ⟨w3, added2, h3, ha2, hf2, -⟩ := act_store_rollback_eq api aenv
    { trans with dest_mail := none, mail_trans := none, box := none } ctx hc success2 w2
  exact ⟨w3, added2, h3, ha2, hf2⟩

/-- Witness for C6: the transaction of a store into "Archive" after start and
execute on a storage where every call succeeds. -/
theorem act_store_rollback_releases_once_witness :
    store_reachable example_api example_env example_executed_trans ∧
    ∃ t1 w1 added,
      act_store_rollback example_api example_env (some example_executed_trans) true
        example_world = some (t1, w1) ∧
      w1.calls = example_world.calls ++ added ∧
      added.filter is_release = [.mail_free 31, .mailbox_transaction_rollback 21,
        .mailbox_close 11] ∧
      t1.dest_mail = none ∧ t1.mail_trans = none ∧ t1.box = none ∧
      (∀ success2 w2, ∃ w3 added2,
        act_store_rollback example_api example_env (some t1) success2 w2 = some (t1, w3) ∧
        w3.calls = w2.calls ++ added2 ∧
        added2.filter is_release = []) :=
  have hreach : store_reachable example_api example_env example_executed_trans :=
    store_reachable.execute _ _ example_world _ true
      (store_reachable.start (some { folder := cstr "Archive" }) example_world _ true _ rfl)
      rfl
  ⟨hreach,
    act_store_rollback_releases_once example_api example_env example_executed_trans hreach
      true example_world⟩

/-- C7: when the script environment's namespaces are NULL, for every context
(every target folder, or NULL for implicit keep) start, execute and commit of the
store action all return success; start and execute make no call at all and leave
the execution status unchanged, no mailbox, mail transaction or mail object is
held, and commit only logs that the store was skipped and sets `*keep` to FALSE. -/
theorem act_store_skips_without_namespaces (api : mail_api) (aenv : sieve_action_exec_env)
    (context : Option act_store_context) (w : store_world) (keep : Bool)
    (hns : aenv.scriptenv.namespaces = none) :
    ∃ trans ctx,
      act_store_start api aenv context w = some (true, some trans, w) ∧
      trans.context = some ctx ∧
      (∀ c, context = some c → ctx = c) ∧
      trans.namespace_ = none ∧ trans.box = none ∧
      trans.mail_trans = none ∧ trans.dest_mail = none ∧
      act_store_execute api aenv (some trans) w = some (true, some trans, w) ∧
      act_store_commit api aenv (some trans) keep w =
        some (true, some trans, false,
          { calls := w.calls ++ [.sieve_result_log (.skipped ctx.folder)],
            estatus := w.estatus }) := by
  obtain ⟨ret, trans, ctx, w1, h, hc, hr, hm, hd, hskip⟩ := act_store_start_eq api aenv context w
  obtain ⟨hn, hb, hw, -, -, -, hctx⟩ := hskip hns
  subst hw
  have hret : ret = true := by rw [hr, hns]; rfl
  subst hret
  refine ⟨trans, ctx, h, hc, ?_, hn, hb, hm, hd, ?_, ?_⟩
  · intro c hcc
    rw [hctx, hcc]
  · unfold act_store_execute
    simp [hn, hns]
  · unfold act_store_commit
    simp [hn, hns, act_store_log_status, hc, store_world.call]

/-- Witness for C7: the test suite's environment and a store into "Archive". -/
theorem act_store_skips_without_namespaces_witness :
    testsuite_env.scriptenv.namespaces = none ∧
    ∃ trans ctx,
      act_store_start example_api testsuite_env (some { folder := cstr "Archive" })
        example_world = some (true, some trans, example_world) ∧
      trans.context = some ctx ∧
      (∀ c, some { folder := cstr "Archive" } = some c → ctx = c) ∧
      trans.namespace_ = none ∧ trans.box = none ∧
      trans.mail_trans = none ∧ trans.dest_mail = none ∧
      act_store_execute example_api testsuite_env (some trans) example_world =
        some (true, some trans, example_world) ∧
      act_store_commit example_api testsuite_env (some trans) true example_world =
        some (true, some trans, false,
          { calls := example_world.calls ++ [.sieve_result_log (.skipped ctx.folder)],
            estatus := example_world.estatus }) :=
  ⟨rfl, act_store_skips_without_namespaces example_api testsuite_env
    (some { folder := cstr "Archive" }) example_world true rfl⟩

/-! ## Theorems: error handler statistics -/

/-- C8: for a handler with a pool, `sieve_errors_more_allowed` is false exactly
when `max_errors` is non-zero and `errors >= max_errors`; with `max_errors = 0`
it is true for every counter value; for a NULL handler and for a handler without
a pool it is true. -/
theorem sieve_errors_more_allowed_iff (h : sieve_error_handler) (pool : Nat) :
    (sieve_errors_more_allowed (some { h with pool := some pool }) = false ↔
      h.max_errors ≠ 0 ∧ h.max_errors ≤ h.errors) ∧
    (∀ errors, sieve_errors_more_allowed
      (some { h with pool := some pool, max_errors := 0, errors := errors }) = true) ∧
    sieve_errors_more_allowed none = true ∧
    sieve_errors_more_allowed (some { h with pool := none }) = true := by
  refine ⟨?_, ?_, rfl, ?_⟩
  · simp [sieve_errors_more_allowed]
  · intro e; simp [sieve_errors_more_allowed]
  · simp [sieve_errors_more_allowed]

/-- C9: for a handler with a pool, whatever `max_errors` and the counters are,
`sieve_error_handler_reset` sets `errors` and `warnings` to 0 and changes no
other field, and afterwards `sieve_errors_more_allowed` is true; in particular a
handler with `max_errors = 3` whose error counter has reached 3 allows no more
errors before the reset and allows them again after it. -/
theorem sieve_error_handler_reset_allows (h : sieve_error_handler) (pool : Nat) :
    sieve_error_handler_reset (some { h with pool := some pool }) =
      some { h with pool := some pool, errors := 0, warnings := 0 } ∧
    sieve_get_errors (sieve_error_handler_reset (some { h with pool := some pool })) = 0 ∧
    sieve_errors_more_allowed
      (sieve_error_handler_reset (some { h with pool := some pool })) = true ∧
    sieve_errors_more_allowed
      (some { h with pool := some pool, max_errors := 3, errors := 3 }) = false ∧
    sieve_errors_more_allowed
      (sieve_error_handler_reset
        (some { h with pool := some pool, max_errors := 3, errors := 3 })) = true := by
  refine ⟨?_, ?_, ?_, ?_, ?_⟩
  · simp [sieve_error_handler_reset]
  · simp [sieve_error_handler_reset, sieve_get_errors]
  · simp only [sieve_error_handler_reset, sieve_errors_more_allowed]
    simp
    omega
  · simp [sieve_errors_more_allowed]
  · simp [sieve_error_handler_reset, sieve_errors_more_allowed]

/-- C10: `sieve_get_warnings` returns what `sieve_get_errors` returns, for every
handler pointer; for a handler with a pool that is the error counter, whatever
the `warnings` field holds; both return 0 for a NULL handler and for a handler
without a pool. -/
theorem sieve_get_warnings_eq_errors (ehandler : Option sieve_error_handler)
    (h : sieve_error_handler) (pool warnings : Nat) :
    sieve_get_warnings ehandler = sieve_get_errors ehandler ∧
    sieve_get_warnings (some { h with pool := some pool, warnings := warnings }) = h.errors ∧
    sieve_get_errors (some { h with pool := some pool, warnings := warnings }) = h.errors ∧
    sieve_get_warnings none = 0 ∧ sieve_get_errors none = 0 ∧
    sieve_get_warnings (some { h with pool := none }) = 0 ∧
    sieve_get_errors (some { h with pool := none }) = 0 := by
  refine ⟨?_, ?_, ?_, rfl, rfl, ?_, ?_⟩
  · cases ehandler <;> rfl
  · simp [sieve_get_warnings]
  · simp [sieve_get_errors]
  · simp [sieve_get_warnings]
  · simp [sieve_get_errors]

/-! ## Theorems: error handler chains -/

theorem ehandler_heap_store_same (heap : ehandler_heap) (a : Nat)
    (h : Option sieve_error_handler) : heap.store a h a = h := by
  simp [ehandler_heap.store]

theorem ehandler_heap_store_other (heap : ehandler_heap) (a x : Nat)
    (h : Option sieve_error_handler) (hx : x ≠ a) : heap.store a h x = heap x := by
  simp [ehandler_heap.store, hx]

theorem parent_chain_store (heap : ehandler_heap) (a : Nat) (h h1 : sieve_error_handler)
    (ha : heap a = some h) (hp : h1.parent = h.parent) (p : Option Nat) (l : List Nat)
    (hc : parent_chain heap p l) : parent_chain (heap.store a (some h1)) p l := by
  induction hc with
  | nil => exact parent_chain.nil
  | cons x hx l hxe _ ih =>
    by_cases hxa : x = a
    · subst hxa
      rw [ha] at hxe
      cases hxe
      refine parent_chain.cons x h1 l (ehandler_heap_store_same heap x _) ?_
      rw [hp]; exact ih
    · exact parent_chain.cons x hx l
        ((ehandler_heap_store_other heap a x _ hxa).trans hxe) ih

theorem ehandler_gate_loop_spec (set : sieve_error_handler → sieve_error_handler)
    (hidem : ∀ h, set (set h) = set h) (hpar : ∀ h, (set h).parent = h.parent)
    (l : List Nat) :
    ∀ (heap : ehandler_heap) (p : Option Nat) (fuel : Nat),
      parent_chain heap p l → l.length < fuel →
      ehandler_gate_loop set fuel heap p =
        some (fun x => if x ∈ l then (heap x).map set else heap x) := by
  induction l with
  | nil =>
    intro heap p fuel hc hf
    cases hc
    obtain ⟨f, rfl⟩ : ∃ f, fuel = f + 1 := ⟨fuel - 1, by omega⟩
    simp [ehandler_gate_loop]
  | cons a l ih =>
    intro heap p fuel hc hf
    cases hc with
    | cons _ h _ ha hc1 =>
      obtain ⟨f, rfl⟩ : ∃ f, fuel = f + 1 := ⟨fuel - 1, by omega⟩
      have hf1 : l.length < f := by simp at hf; omega
      simp only [ehandler_gate_loop, ha]
      rw [ih (heap.store a (some (set h))) h.parent f
        (parent_chain_store heap a h (set h) ha (hpar h) _ _ hc1) hf1]
      congr 1
      funext x
      by_cases hxa : x = a
      · subst hxa
        simp only [List.mem_cons, true_or, if_true, ehandler_heap_store_same, ha, Option.map_some']
        split
        · rw [hidem]
        · rfl
      · simp only [List.mem_cons, hxa, false_or, ehandler_heap_store_other heap a x _ hxa]

theorem parent_chain_head_mem (heap : ehandler_heap) (a : Nat) (l : List Nat)
    (hc : parent_chain heap (some a) l) : a ∈ l := by
  cases hc; simp

theorem parent_chain_live (heap : ehandler_heap) (p : Option Nat) (l : List Nat)
    (hc : parent_chain heap p l) : ∀ x ∈ l, ∃ h, heap x = some h := by
  induction hc with
  | nil => intro x hx; cases hx
  | cons a h l ha _ ih =>
    intro x hx
    rcases List.mem_cons.mp hx with rfl | hx
    · exact ⟨h, ha⟩
    · exact ih x hx

theorem ehandler_gate_loop_frame (set : sieve_error_handler → sieve_error_handler)
    (hidem : ∀ h, set (set h) = set h) (hpar : ∀ h, (set h).parent = h.parent)
    (heap : ehandler_heap) (a : Nat) (l : List Nat) (fuel : Nat)
    (hc : parent_chain heap (some a) l) (hf : l.length < fuel) :
    ∃ heap1, ehandler_gate_loop set fuel heap (some a) = some heap1 ∧
      (∀ x ∈ l, ∃ h, heap x = some h ∧ heap1 x = some (set h)) ∧
      (∀ x, x ∉ l → heap1 x = heap x) := by
  refine ⟨_, ehandler_gate_loop_spec set hidem hpar l heap (some a) fuel hc hf, ?_, ?_⟩
  · intro x hx
    obtain ⟨h, hh⟩ := parent_chain_live heap _ l hc x hx
    exact ⟨h, hh, by simp [hx, hh]⟩
  · intro x hx
    simp [hx]

/-- C11: on every finite parent chain and for every boolean `b`, each of
`sieve_error_handler_accept_infolog`, `sieve_error_handler_accept_debuglog` and
`sieve_error_handler_copy_masterlog` called on a node terminates (fuel above the
chain length suffices) and sets its gate (`log_info`, `log_debug`, `log_master`)
to `b` on the node and on every ancestor up to the root. -/
theorem sieve_error_handler_gates_propagate (heap : ehandler_heap) (a : Nat) (l : List Nat)
    (b : Bool) (fuel : Nat) (hc : parent_chain heap (some a) l) (hf : l.length < fuel) :
    a ∈ l ∧
    (∃ heap1, sieve_error_handler_accept_infolog fuel heap (some a) b = some heap1 ∧
      ∀ x ∈ l, ∃ h, heap x = some h ∧ heap1 x = some { h with log_info := b }) ∧
    (∃ heap1, sieve_error_handler_accept_debuglog fuel heap (some a) b = some heap1 ∧
      ∀ x ∈ l, ∃ h, heap x = some h ∧ heap1 x = some { h with log_debug := b }) ∧
    (∃ heap1, sieve_error_handler_copy_masterlog fuel heap (some a) b = some heap1 ∧
      ∀ x ∈ l, ∃ h, heap x = some h ∧ heap1 x = some { h with log_master := b }) := by
  refine ⟨parent_chain_head_mem heap a l hc, ?_, ?_, ?_⟩
  · obtain ⟨heap1, h1, h2, -⟩ := ehandler_gate_loop_frame (fun h => { h with log_info := b })
      (fun _ => rfl) (fun _ => rfl) heap a l fuel hc hf
    exact ⟨heap1, h1, h2⟩
  · obtain ⟨heap1, h1, h2, -⟩ := ehandler_gate_loop_frame (fun h => { h with log_debug := b })
      (fun _ => rfl) (fun _ => rfl) heap a l fuel hc hf
    exact ⟨heap1, h1, h2⟩
  · obtain ⟨heap1, h1, h2, -⟩ := ehandler_gate_loop_frame (fun h => { h with log_master := b })
      (fun _ => rfl) (fun _ => rfl) heap a l fuel hc hf
    exact ⟨heap1, h1, h2⟩

theorem example_heap_chain : parent_chain example_heap (some 1) [1, 2, 3] :=
  parent_chain.cons 1 _ _ rfl
    (parent_chain.cons 2 _ _ rfl
      (parent_chain.cons 3 _ _ rfl parent_chain.nil))

/-- Witness for C11: the chain `1 → 2 → 3` of the example heap, gate value TRUE. -/
theorem sieve_error_handler_gates_propagate_witness :
    (parent_chain example_heap (some 1) [1, 2, 3] ∧ [1, 2, 3].length < 4) ∧
    (1 ∈ [1, 2, 3] ∧
    (∃ heap1, sieve_error_handler_accept_infolog 4 example_heap (some 1) true = some heap1 ∧
      ∀ x ∈ [1, 2, 3], ∃ h, example_heap x = some h ∧
        heap1 x = some { h with log_info := true }) ∧
    (∃ heap1, sieve_error_handler_accept_debuglog 4 example_heap (some 1) true = some heap1 ∧
      ∀ x ∈ [1, 2, 3], ∃ h, example_heap x = some h ∧
        heap1 x = some { h with log_debug := true }) ∧
    (∃ heap1, sieve_error_handler_copy_masterlog 4 example_heap (some 1) true = some heap1 ∧
      ∀ x ∈ [1, 2, 3], ∃ h, example_heap x = some h ∧
        heap1 x = some { h with log_master := true })) :=
  ⟨⟨example_heap_chain, by decide⟩,
    sieve_error_handler_gates_propagate example_heap 1 [1, 2, 3] true 4 example_heap_chain
      (by decide)⟩

theorem sieve_error_handler_init_from_parent_eq (heap : ehandler_heap) (e p pool : Nat)
    (eh ph : sieve_error_handler) (he : heap e = some eh) (hp : heap p = some ph)
    (hne : e ≠ p) :
    ∃ heap1, sieve_error_handler_init_from_parent heap e pool (some p) = some heap1 ∧
      heap1 e = some { eh with pool := some pool, refcount := 1, max_errors := ph.max_errors,
                               errors := 0, warnings := 0, parent := some p,
                               log_master := ph.log_master, log_info := ph.log_info,
                               log_debug := ph.log_debug } ∧
      heap1 p = some (if ph.pool = none then ph
                      else { ph with refcount := ph.refcount + 1 }) ∧
      (∀ x, x ≠ e → x ≠ p → heap1 x = heap x) := by
  have hpe : p ≠ e := fun h => hne h.symm
  unfold sieve_error_handler_init_from_parent
  simp only [he, hp, sieve_error_handler_ref, ehandler_heap_store_other _ e p _ hpe]
  by_cases hpool : ph.pool = none
  · simp only [hpool, if_true, ehandler_heap_store_other _ e p _ hpe, hp,
      ehandler_heap_store_same]
    refine ⟨_, rfl, ?_, ?_, ?_⟩
    · simp [ehandler_heap_store_same, sieve_error_handler_init]
    · simp [ehandler_heap_store_other _ e p _ hpe, hp]
    · intro x hxe hxp
      simp [ehandler_heap_store_other _ e x _ hxe]
  · simp only [hpool, if_false, ehandler_heap_store_other _ p e _ hne,
      ehandler_heap_store_same]
    refine ⟨_, rfl, ?_, ?_, ?_⟩
    · simp [ehandler_heap_store_same, sieve_error_handler_init]
    · simp [ehandler_heap_store_other _ e p _ hpe, ehandler_heap_store_same]
    · intro x hxe hxp
      simp [ehandler_heap_store_other _ e x _ hxe, ehandler_heap_store_other _ p x _ hxp]

/-- C12: a node initialised by `sieve_error_handler_init_from_parent` starts with
copies of its parent's `log_master`, `log_info`, `log_debug` and `max_errors`,
counters 0 and reference count 1 (the parent gains one reference when it has a
pool); a gate setter called later on a node whose parent chain does not contain
the child leaves the child's record unchanged, and on the nodes of the chain
each setter changes only the gate it names. -/
theorem sieve_error_handler_init_from_parent_gates (heap : ehandler_heap) (e p pool : Nat)
    (eh ph : sieve_error_handler) (he : heap e = some eh) (hp : heap p = some ph)
    (hne : e ≠ p) :
    (∃ heap1, sieve_error_handler_init_from_parent heap e pool (some p) = some heap1 ∧
      heap1 e = some { eh with pool := some pool, refcount := 1, max_errors := ph.max_errors,
                               errors := 0, warnings := 0, parent := some p,
                               log_master := ph.log_master, log_info := ph.log_info,
                               log_debug := ph.log_debug } ∧
      heap1 p = some (if ph.pool = none then ph
                      else { ph with refcount := ph.refcount + 1 })) ∧
    (∀ (heap2 : ehandler_heap) (q : Nat) (l : List Nat) (b : Bool) (fuel : Nat),
      parent_chain heap2 (some q) l → l.length < fuel →
      (∃ heap3, sieve_error_handler_accept_infolog fuel heap2 (some q) b = some heap3 ∧
        (e ∉ l → heap3 e = heap2 e) ∧ (∀ x, x ∉ l → heap3 x = heap2 x) ∧
        (∀ x ∈ l, ∃ h, heap2 x = some h ∧ heap3 x = some { h with log_info := b })) ∧
      (∃ heap3, sieve_error_handler_accept_debuglog fuel heap2 (some q) b = some heap3 ∧
        (e ∉ l → heap3 e = heap2 e) ∧ (∀ x, x ∉ l → heap3 x = heap2 x) ∧
        (∀ x ∈ l, ∃ h, heap2 x = some h ∧ heap3 x = some { h with log_debug := b })) ∧
      (∃ heap3, sieve_error_handler_copy_masterlog fuel heap2 (some q) b = some heap3 ∧
        (e ∉ l → heap3 e = heap2 e) ∧ (∀ x, x ∉ l → heap3 x = heap2 x) ∧
        (∀ x ∈ l, ∃ h, heap2 x = some h ∧ heap3 x = some { h with log_master := b }))) := by
  constructor
  · obtain ⟨heap1, h1, h2, h3, -⟩ :=
      sieve_error_handler_init_from_parent_eq heap e p pool eh ph he hp hne
    exact ⟨heap1, h1, h2, h3⟩
  · intro heap2 q l b fuel hc hf
    refine ⟨?_, ?_, ?_⟩
    · obtain ⟨heap3, h1, h2, h3⟩ := ehandler_gate_loop_frame
        (fun h => { h with log_info := b }) (fun _ => rfl) (fun _ => rfl) heap2 q l fuel hc hf
      exact ⟨heap3, h1, h3 e, h3, h2⟩
    · obtain ⟨heap3, h1, h2, h3⟩ := ehandler_gate_loop_frame
        (fun h => { h with log_debug := b }) (fun _ => rfl) (fun _ => rfl) heap2 q l fuel hc hf
      exact ⟨heap3, h1, h3 e, h3, h2⟩
    · obtain ⟨heap3, h1, h2, h3⟩ := ehandler_gate_loop_frame
        (fun h => { h with log_master := b }) (fun _ => rfl) (fun _ => rfl) heap2 q l fuel hc hf
      exact ⟨heap3, h1, h3 e, h3, h2⟩

/-- Witness for C12: a new node at address 4 (zeroed) created from the handler at
address 2 of the example heap. -/
theorem sieve_error_handler_init_from_parent_gates_witness :
    (example_fresh_heap 4 = some example_zeroed_handler ∧
      example_fresh_heap 2 = some { example_handler with refcount := 2, parent := some 3 } ∧
      (4 : Nat) ≠ 2) ∧
    ∃ heap1, sieve_error_handler_init_from_parent example_fresh_heap 4 9 (some 2) = some heap1 ∧
      heap1 4 = some { example_zeroed_handler with
                       pool := some 9, refcount := 1, parent := some 2 } ∧
      heap1 2 = some { example_handler with refcount := 3, parent := some 3 } :=
  ⟨⟨rfl, rfl, by decide⟩,
    (sieve_error_handler_init_from_parent_gates example_fresh_heap 4 2 9
      example_zeroed_handler { example_handler with refcount := 2, parent := some 3 }
      rfl rfl (by decide)).1⟩

theorem parent_chain_unique (heap : ehandler_heap) (p : Option Nat) (l1 l2 : List Nat)
    (h1 : parent_chain heap p l1) (h2 : parent_chain heap p l2) : l1 = l2 := by
  induction h1 generalizing l2 with
  | nil => cases h2; rfl
  | cons a h l ha _ ih =>
    cases h2 with
    | cons _ h' l' ha' hc' =>
      rw [ha] at ha'
      cases ha'
      rw [ih l' hc']

theorem parent_chain_suffix (heap : ehandler_heap) (p : Option Nat) (l : List Nat)
    (hc : parent_chain heap p l) :
    ∀ x ∈ l, ∃ l2, parent_chain heap (some x) l2 ∧ l2.length ≤ l.length := by
  induction hc with
  | nil => intro x hx; cases hx
  | cons a h l ha hc1 ih =>
    intro x hx
    rcases List.mem_cons.mp hx with rfl | hx
    · exact ⟨x :: l, parent_chain.cons x h l ha hc1, le_refl _⟩
    · obtain ⟨l2, h2, hlen⟩ := ih x hx
      exact ⟨l2, h2, by simp; omega⟩

theorem parent_chain_nodup (heap : ehandler_heap) (p : Option Nat) (l : List Nat)
    (hc : parent_chain heap p l) : l.Nodup := by
  induction hc with
  | nil => exact List.nodup_nil
  | cons a h l ha hc1 ih =>
    refine List.nodup_cons.mpr ⟨?_, ih⟩
    intro hmem
    obtain ⟨l2, h2, hlen⟩ := parent_chain_suffix heap _ l hc1 a hmem
    have := parent_chain_unique heap _ _ _ h2 (parent_chain.cons a h l ha hc1)
    rw [this] at hlen
    simp at hlen

theorem parent_chain_parent (heap : ehandler_heap) (a : Nat) (h : sieve_error_handler)
    (l : List Nat) (ha : heap a = some h) (hc : parent_chain heap (some a) (a :: l)) :
    parent_chain heap h.parent l := by
  cases hc with
  | cons _ h' _ ha' hc' =>
    rw [ha] at ha'
    cases ha'
    exact hc'

theorem sieve_error_handler_unref_step (fuel : Nat) (heap : ehandler_heap) (a pool : Nat)
    (h : sieve_error_handler) (ha : heap a = some h) (hpool : h.pool = some pool)
    (hr : 1 ≤ h.refcount) :
    sieve_error_handler_unref (fuel + 1) heap (some a) =
      if h.refcount ≠ 1 then
        some (heap.store a (some { h with refcount := h.refcount - 1 }), some a, [.decref a])
      else
        match (match h.parent with
          | none => some (heap.store a (some { h with refcount := h.refcount - 1 }), none, [])
          | some p => sieve_error_handler_unref fuel
              (heap.store a (some { h with refcount := h.refcount - 1 })) (some p)) with
        | none => none
        | some r => some (r.1.store a none, none,
            [.decref a] ++ r.2.2 ++ unref_hook h.free a ++ [.pool_unref a pool]) := by
  have hnot : ¬ h.refcount ≤ 0 := by omega
  rw [sieve_error_handler_unref]
  simp only [ha, hpool, hnot, if_false]
  by_cases h1 : h.refcount = 1
  · have h0 : h.refcount - 1 = 0 := by omega
    simp only [h1, ne_eq, not_true_eq_false, if_false, sub_self, not_false_eq_true]
    cases hp : h.parent with
    | none => simp
    | some p =>
      simp only
      cases sieve_error_handler_unref fuel _ (some p) with
      | none => rfl
      | some r => rfl
  · have h0 : ¬ h.refcount - 1 = 0 := by omega
    simp [h1, h0]

theorem sieve_error_handler_unref_returns (l : List Nat) :
    ∀ (heap : ehandler_heap) (p : Option Nat) (fuel : Nat),
      parent_chain heap p l → refs_counted heap l → l.length < fuel →
      ∃ heap1 p1 ev, sieve_error_handler_unref fuel heap p = some (heap1, p1, ev) ∧
        (∀ x, x ∉ l → heap1 x = heap x) ∧ (∀ e ∈ ev, e.addr ∈ l) := by
  induction l with
  | nil =>
    intro heap p fuel hc _ hf
    cases hc
    obtain ⟨f, rfl⟩ : ∃ f, fuel = f + 1 := ⟨fuel - 1, by omega⟩
    exact ⟨heap, none, [], by simp [sieve_error_handler_unref], fun _ _ => rfl,
      fun e he => by cases he⟩
  | cons a l ih =>
    intro heap p fuel hc hok hf
    have hnd := parent_chain_nodup heap p _ hc
    cases hc with
    | cons _ h _ ha hc1 =>
      obtain ⟨f, rfl⟩ : ∃ f, fuel = f + 1 := ⟨fuel - 1, by omega⟩
      have hf1 : l.length < f := by simp at hf; omega
      have hal : a ∉ l := (List.nodup_cons.mp hnd).1
      cases hpool : h.pool with
      | none =>
        refine ⟨heap, some a, [], ?_, fun _ _ => rfl, fun e he => by cases he⟩
        rw [sieve_error_handler_unref]
        simp [ha, hpool]
      | some pool =>
        have hr : 1 ≤ h.refcount := hok a (by simp) h ha (by simp [hpool])
        rw [sieve_error_handler_unref_step f heap a pool h ha hpool hr]
        by_cases h1 : h.refcount = 1
        · simp only [h1, ne_eq, not_true_eq_false, if_false]
          have hc2 : parent_chain (heap.store a (some { h with refcount := 1 - 1 })) h.parent l :=
            parent_chain_store heap a h { h with refcount := 1 - 1 } ha rfl _ _ hc1
          have hok2 : refs_counted (heap.store a (some { h with refcount := 1 - 1 })) l := by
            intro x hx hxr hxe hxp
            have hxa : x ≠ a := fun e => hal (e ▸ hx)
            rw [ehandler_heap_store_other _ _ _ _ hxa] at hxe
            exact hok x (List.mem_cons_of_mem _ hx) hxr hxe hxp
          obtain ⟨heap1, p1, ev, hrec, hfr, hev⟩ := ih _ h.parent f hc2 hok2 hf1
          cases hp : h.parent with
          | none =>
            refine ⟨_, none, _, rfl, ?_, ?_⟩
            · intro x hx
              have hxa : x ≠ a := fun e => hx (e ▸ List.mem_cons_self _ _)
              simp [ehandler_heap_store_other _ _ _ _ hxa]
            · intro e he
              simp only [List.append_nil, List.mem_append, List.mem_singleton,
                List.mem_cons, List.not_mem_nil, or_false, unref_hook] at he
              rcases he with (rfl | he) | rfl
              · simp [unref_event.addr]
              · cases hfree : h.free with
                | none => rw [hfree] at he; cases he
                | some fr =>
                  rw [hfree] at he
                  simp only [List.mem_singleton] at he
                  subst he
                  simp [unref_event.addr]
              · simp [unref_event.addr]
          | some q =>
            rw [hp] at hrec
            simp only [hrec]
            refine ⟨_, none, _, rfl, ?_, ?_⟩
            · intro x hx
              have hxa : x ≠ a := fun e => hx (e ▸ List.mem_cons_self _ _)
              have hxl : x ∉ l := fun e => hx (List.mem_cons_of_mem _ e)
              rw [ehandler_heap_store_other _ _ _ _ hxa, hfr x hxl,
                ehandler_heap_store_other _ _ _ _ hxa]
            · intro e he
              simp only [List.mem_append, List.mem_singleton, List.mem_cons,
                List.not_mem_nil, or_false, unref_hook] at he
              rcases he with ((rfl | he) | he) | rfl
              · simp [unref_event.addr]
              · exact List.mem_cons_of_mem _ (hev e he)
              · cases hfree : h.free with
                | none => rw [hfree] at he; cases he
                | some fr =>
                  rw [hfree] at he
                  simp only [List.mem_singleton] at he
                  subst he
                  simp [unref_event.addr]
              · simp [unref_event.addr]
        · simp only [h1, ne_eq, not_false_eq_true, if_true]
          refine ⟨_, some a, _, rfl, ?_, ?_⟩
          · intro x hx
            have hxa : x ≠ a := fun e => hx (e ▸ List.mem_cons_self _ _)
            exact ehandler_heap_store_other _ _ _ _ hxa
          · intro e he
            simp only [List.mem_singleton] at he
            subst he
            simp [unref_event.addr]

theorem parent_chain_ptr (heap : ehandler_heap) (q : Option Nat) (p : Nat) (l : List Nat)
    (hc : parent_chain heap q (p :: l)) : q = some p := by
  cases hc; rfl

theorem parent_chain_ptr_eq (heap : ehandler_heap) (q q1 : Option Nat) (l : List Nat)
    (hc : parent_chain heap q l) (e : q = q1) : parent_chain heap q1 l := e ▸ hc

theorem sieve_error_handler_unref_last (fuel : Nat) (hpos : 0 < fuel) (heap : ehandler_heap)
    (a pool : Nat) (h : sieve_error_handler) (ha : heap a = some h)
    (hpool : h.pool = some pool) (hr : h.refcount = 1) :
    sieve_error_handler_unref (fuel + 1) heap (some a) =
      match sieve_error_handler_unref fuel
          (heap.store a (some { h with refcount := 0 })) h.parent with
      | none => none
      | some r => some (r.1.store a none, none,
          [.decref a] ++ r.2.2 ++ unref_hook h.free a ++ [.pool_unref a pool]) := by
  obtain ⟨f, rfl⟩ : ∃ f, fuel = f + 1 := ⟨fuel - 1, by omega⟩
  rw [sieve_error_handler_unref_step (f + 1) heap a pool h ha hpool (by omega)]
  simp only [hr, ne_eq, not_true_eq_false, if_false, sub_self]
  cases hp : h.parent with
  | none => simp [sieve_error_handler_unref]
  | some p => rfl

theorem sieve_error_handler_unref_more (fuel : Nat) (heap : ehandler_heap) (a pool : Nat)
    (h : sieve_error_handler) (ha : heap a = some h) (hpool : h.pool = some pool)
    (hr : 1 < h.refcount) :
    sieve_error_handler_unref (fuel + 1) heap (some a) =
      some (heap.store a (some { h with refcount := h.refcount - 1 }), some a, [.decref a]) := by
  rw [sieve_error_handler_unref_step fuel heap a pool h ha hpool (by omega)]
  have : h.refcount ≠ 1 := by omega
  simp [this]

/-- The release of one reference on a pooled handler `p` with ancestors `l`:
what `sieve_error_handler_unref` returns and how often it lowers the count. -/
theorem sieve_error_handler_unref_parent (fuel : Nat) (heap : ehandler_heap) (p ppool : Nat)
    (ph : sieve_error_handler) (l : List Nat) (hp : heap p = some ph)
    (hppool : ph.pool = some ppool) (hc : parent_chain heap (some p) (p :: l))
    (hok : refs_counted heap (p :: l)) (hf : l.length < fuel + 1) :
    ∃ heap1 p1 ev, sieve_error_handler_unref (fuel + 2) heap (some p) = some (heap1, p1, ev) ∧
      ev.head? = some (.decref p) ∧
      ev.count (.decref p) = 1 ∧
      (unref_event.pool_unref p ppool ∈ ev ↔ ph.refcount = 1) ∧
      heap1 p = (if ph.refcount = 1 then none
                 else some { ph with refcount := ph.refcount - 1 }) ∧
      p1 = (if ph.refcount = 1 then none else some p) ∧
      (∀ x, x ∉ p :: l → heap1 x = heap x) ∧
      (1 < ph.refcount → ev = [.decref p] ∧ ∀ x, x ≠ p → heap1 x = heap x) := by
  have hr : 1 ≤ ph.refcount := hok p (by simp) ph hp (by simp [hppool])
  have hnd := parent_chain_nodup heap _ _ hc
  have hpl : p ∉ l := (List.nodup_cons.mp hnd).1
  have hc1 := parent_chain_parent heap p ph l hp hc
  by_cases h1 : ph.refcount = 1
  · rw [show fuel + 2 = (fuel + 1) + 1 from rfl,
      sieve_error_handler_unref_last (fuel + 1) (by omega) heap p ppool ph hp hppool h1]
    have hc2 : parent_chain (heap.store p (some { ph with refcount := 0 })) ph.parent l :=
      parent_chain_store heap p ph { ph with refcount := 0 } hp rfl _ _ hc1
    have hok2 : refs_counted (heap.store p (some { ph with refcount := 0 })) l := by
      intro x hx hxr hxe hxp
      have hxa : x ≠ p := fun e => hpl (e ▸ hx)
      rw [ehandler_heap_store_other _ _ _ _ hxa] at hxe
      exact hok x (List.mem_cons_of_mem _ hx) hxr hxe hxp
    obtain ⟨heap2, p2, ev2, hrec, hfr, hev⟩ :=
      sieve_error_handler_unref_returns l _ ph.parent (fuel + 1) hc2 hok2 hf
    simp only [hrec]
    have hno : unref_event.decref p ∉ ev2 := fun hm => hpl (hev _ hm)
    have hcount : List.count (unref_event.decref p) ev2 = 0 := List.count_eq_zero.mpr hno
    refine ⟨_, _, _, rfl, rfl, ?_, ?_, ?_, ?_, ?_, ?_⟩
    · cases hfree : ph.free <;>
        simp [unref_hook, List.count_cons, List.count_append, hcount]
    · simp [h1]
    · simp [h1, ehandler_heap_store_same]
    · simp [h1]
    · intro x hx
      have hxa : x ≠ p := fun e => hx (e ▸ List.mem_cons_self _ _)
      have hxl : x ∉ l := fun e => hx (List.mem_cons_of_mem _ e)
      rw [ehandler_heap_store_other _ _ _ _ hxa, hfr x hxl,
        ehandler_heap_store_other _ _ _ _ hxa]
    · intro hlt; omega
  · have hlt : 1 < ph.refcount := by omega
    rw [show fuel + 2 = (fuel + 1) + 1 from rfl,
      sieve_error_handler_unref_more (fuel + 1) heap p ppool ph hp hppool hlt]
    refine ⟨_, _, _, rfl, rfl, by simp, ?_, ?_, ?_, ?_, ?_⟩
    · simp [h1]
    · simp [h1, ehandler_heap_store_same]
    · simp [h1]
    · intro x hx
      have hxa : x ≠ p := fun e => hx (e ▸ List.mem_cons_self _ _)
      exact ehandler_heap_store_other _ _ _ _ hxa
    · intro _
      exact ⟨rfl, fun x hx => ehandler_heap_store_other _ _ _ _ hx⟩

/-- The last release of a pooled child `a` of a pooled parent `p`: first the
child's count is lowered, then one reference on the parent is released, then the
child's `free` hook is called and its pool released. -/
theorem sieve_error_handler_unref_child (fuel : Nat) (heap : ehandler_heap)
    (a p pool ppool : Nat) (h ph : sieve_error_handler) (l : List Nat)
    (ha : heap a = some h) (hpool : h.pool = some pool) (hr : h.refcount = 1)
    (hp : heap p = some ph) (hppool : ph.pool = some ppool)
    (hc : parent_chain heap (some a) (a :: p :: l)) (hok : refs_counted heap (p :: l))
    (hf : l.length < fuel + 1) :
    ∃ heap1 ev, sieve_error_handler_unref (fuel + 3) heap (some a) =
        some (heap1, none, [.decref a] ++ ev ++ unref_hook h.free a ++ [.pool_unref a pool]) ∧
      heap1 a = none ∧
      ev.head? = some (.decref p) ∧
      ev.count (.decref p) = 1 ∧
      (unref_event.pool_unref p ppool ∈ ev ↔ ph.refcount = 1) ∧
      heap1 p = (if ph.refcount = 1 then none
                 else some { ph with refcount := ph.refcount - 1 }) ∧
      (1 < ph.refcount → ev = [.decref p] ∧ ∀ x, x ≠ a → x ≠ p → heap1 x = heap x) := by
  have hnd := parent_chain_nodup heap _ _ hc
  have hap : a ≠ p := by
    intro e
    have := (List.nodup_cons.mp hnd).1
    exact this (e ▸ List.mem_cons_self _ _)
  have hpa : p ≠ a := fun e => hap e.symm
  have hc1 := parent_chain_parent heap a h _ ha hc
  have hpar : h.parent = some p := parent_chain_ptr heap _ p l hc1
  rw [show fuel + 3 = (fuel + 2) + 1 from rfl,
    sieve_error_handler_unref_last (fuel + 2) (by omega) heap a pool h ha hpool hr]
  have hp2 : (heap.store a (some { h with refcount := 0 })) p = some ph := by
    rw [ehandler_heap_store_other _ _ _ _ hpa, hp]
  have hc2 : parent_chain (heap.store a (some { h with refcount := 0 })) (some p) (p :: l) := by
    exact parent_chain_ptr_eq _ _ _ _
      (parent_chain_store heap a h { h with refcount := 0 } ha rfl _ _ hc1) hpar
  have hok2 : refs_counted (heap.store a (some { h with refcount := 0 })) (p :: l) := by
    intro x hx hxr hxe hxp
    have hxa : x ≠ a := by
      intro e
      exact (List.nodup_cons.mp hnd).1 (e ▸ hx)
    rw [ehandler_heap_store_other _ _ _ _ hxa] at hxe
    exact hok x hx hxr hxe hxp
  obtain ⟨heap2, p2, ev, hrec, hhead, hcount, hpu, hhp, -, hfr, hmore⟩ :=
    sieve_error_handler_unref_parent fuel _ p ppool ph l hp2 hppool hc2 hok2 hf
  rw [← hpar] at hrec
  simp only [hrec]
  refine ⟨_, ev, rfl, ehandler_heap_store_same _ _ _, hhead, hcount, hpu, ?_, ?_⟩
  · rw [ehandler_heap_store_other _ _ _ _ hpa, hhp]
  · intro hlt
    obtain ⟨hev, hx⟩ := hmore hlt
    refine ⟨hev, ?_⟩
    intro x hxa hxp
    rw [ehandler_heap_store_other _ _ _ _ hxa, hx x hxp,
      ehandler_heap_store_other _ _ _ _ hxa]

/-- Counterexample to C13 as stated: releasing the last reference to the file
sink at address 1 of the example heap (teardown hook set, parent at address 2)
lowers the parent's count before the hook is called. -/
theorem sieve_error_handler_unref_order_counterexample :
    (sieve_error_handler_unref 3 example_heap (some 1)).map (fun r => r.2.2) =
      some [.decref 1, .decref 2, .free_call .sieve_logfile_free 1, .pool_unref 1 1] ∧
    ¬ (List.indexOf (unref_event.free_call .sieve_logfile_free 1)
          [unref_event.decref 1, .decref 2, .free_call .sieve_logfile_free 1, .pool_unref 1 1] <
        List.indexOf (unref_event.decref 2)
          [unref_event.decref 1, .decref 2, .free_call .sieve_logfile_free 1, .pool_unref 1 1]) :=
  ⟨by rfl, by decide⟩

/-- C13 (amended): when `sieve_error_handler_unref` releases the last reference to
a pooled node that has a teardown hook `f` and a pooled parent `p`, the reference
on the parent is released first (the events `ev`, which begin with lowering the
parent's count) and the node's teardown hook is called after it, followed by the
release of the node's pool. -/
theorem sieve_error_handler_unref_order (fuel : Nat) (heap : ehandler_heap)
    (a p pool ppool : Nat) (h ph : sieve_error_handler) (l : List Nat) (f : ehandler_free)
    (ha : heap a = some h) (hpool : h.pool = some pool) (hr : h.refcount = 1)
    (hfree : h.free = some f)
    (hp : heap p = some ph) (hppool : ph.pool = some ppool)
    (hc : parent_chain heap (some a) (a :: p :: l)) (hok : refs_counted heap (p :: l))
    (hf : l.length < fuel + 1) :
    ∃ heap1 ev, sieve_error_handler_unref (fuel + 3) heap (some a) =
        some (heap1, none,
          [.decref a] ++ ev ++ [.free_call f a, .pool_unref a pool]) ∧
      ev.head? = some (.decref p) ∧
      (∀ e ∈ ev, e.addr ∈ p :: l) := by
  have hnd := parent_chain_nodup heap _ _ hc
  have hpa : p ≠ a := by
    intro e
    exact (List.nodup_cons.mp hnd).1 (e ▸ List.mem_cons_self _ _)
  have hc1 := parent_chain_parent heap a h _ ha hc
  have hpar : h.parent = some p := parent_chain_ptr heap _ p l hc1
  have hc2 : parent_chain (heap.store a (some { h with refcount := 0 })) (some p) (p :: l) := by
    exact parent_chain_ptr_eq _ _ _ _
      (parent_chain_store heap a h { h with refcount := 0 } ha rfl _ _ hc1) hpar
  have hok2 : refs_counted (heap.store a (some { h with refcount := 0 })) (p :: l) := by
    intro x hx hxr hxe hxp
    have hxa : x ≠ a := by
      intro e
      exact (List.nodup_cons.mp hnd).1 (e ▸ hx)
    rw [ehandler_heap_store_other _ _ _ _ hxa] at hxe
    exact hok x hx hxr hxe hxp
  have hp2 : (heap.store a (some { h with refcount := 0 })) p = some ph := by
    rw [ehandler_heap_store_other _ _ _ _ hpa, hp]
  obtain ⟨heap2, p2, ev, hrec, hhead, -⟩ :=
    sieve_error_handler_unref_parent fuel _ p ppool ph l hp2 hppool hc2 hok2 hf
  obtain ⟨heap3, p3, ev3, hrec3, -, hev3⟩ :=
    sieve_error_handler_unref_returns (p :: l) _ (some p) (fuel + 2) hc2 hok2
      (by simp; omega)
  rw [hrec] at hrec3
  cases hrec3
  rw [show fuel + 3 = (fuel + 2) + 1 from rfl,
    sieve_error_handler_unref_last (fuel + 2) (by omega) heap a pool h ha hpool hr]
  rw [← hpar] at hrec
  simp only [hrec]
  simp only [hfree, unref_hook]
  exact ⟨heap2.store a none, ev, by simp, hhead, hev3⟩

/-- C14: for a pooled node `a` created from a pooled parent `p` (ancestors `l`,
every pooled handler on the chain referenced at least once),
`sieve_error_handler_unref` with a count above 1 only lowers the node's count by
one and leaves the caller's pointer; with count 1 it tears the node down (hook,
pool release, memory freed), sets the caller's pointer to NULL and lowers the
parent's count exactly once, the parent being torn down in turn exactly when its
count was 1. -/
theorem sieve_error_handler_unref_counts (heap : ehandler_heap) (a p pool ppool : Nat)
    (h ph : sieve_error_handler) (l : List Nat) (fuel : Nat)
    (ha : heap a = some h) (hpool : h.pool = some pool)
    (hp : heap p = some ph) (hppool : ph.pool = some ppool)
    (hc : parent_chain heap (some a) (a :: p :: l)) (hok : refs_counted heap (p :: l))
    (hf : l.length + 2 < fuel) :
    (1 < h.refcount →
      sieve_error_handler_unref fuel heap (some a) =
        some (heap.store a (some { h with refcount := h.refcount - 1 }), some a,
          [.decref a])) ∧
    (h.refcount = 1 →
      ∃ heap1 ev, sieve_error_handler_unref fuel heap (some a) =
          some (heap1, none,
            [.decref a] ++ ev ++ unref_hook h.free a ++ [.pool_unref a pool]) ∧
        heap1 a = none ∧
        ev.count (.decref p) = 1 ∧
        (unref_event.pool_unref p ppool ∈ ev ↔ ph.refcount = 1) ∧
        heap1 p = (if ph.refcount = 1 then none
                   else some { ph with refcount := ph.refcount - 1 }) ∧
        (1 < ph.refcount → ev = [.decref p] ∧ ∀ x, x ≠ a → x ≠ p → heap1 x = heap x)) := by
  obtain ⟨f, rfl⟩ : ∃ f, fuel = f + 3 := ⟨fuel - 3, by omega⟩
  constructor
  · intro hlt
    exact sieve_error_handler_unref_more (f + 2) heap a pool h ha hpool hlt
  · intro h1
    obtain ⟨heap1, ev, hrec, hfreed, -, hcount, hpu, hhp, hmore⟩ :=
      sieve_error_handler_unref_child f heap a p pool ppool h ph l ha hpool h1 hp hppool hc hok
        (by omega)
    exact ⟨heap1, ev, hrec, hfreed, hcount, hpu, hhp, hmore⟩

theorem example_heap_refs : refs_counted example_heap [2, 3] := by
  intro x hx h he _
  simp only [List.mem_cons, List.mem_singleton, List.not_mem_nil, or_false] at hx
  rcases hx with rfl | rfl
  · have e : some { example_handler with refcount := 2, parent := some 3 } = some h := he
    cases e
    decide
  · have e : some example_handler = some h := he
    cases e
    decide

/-- Witness for C14: the last reference to the node at address 1 of the example
heap, whose parent at address 2 holds two references. -/
theorem sieve_error_handler_unref_counts_witness :
    (parent_chain example_heap (some 1) [1, 2, 3] ∧ refs_counted example_heap [2, 3] ∧
      [3].length + 2 < 4) ∧
    ∃ heap1 ev, sieve_error_handler_unref 4 example_heap (some 1) =
        some (heap1, none,
          [.decref 1] ++ ev ++ [.free_call .sieve_logfile_free 1] ++ [.pool_unref 1 1]) ∧
      heap1 1 = none ∧
      ev.count (.decref 2) = 1 ∧
      heap1 2 = some { example_handler with refcount := 1, parent := some 3 } :=
  ⟨⟨example_heap_chain, example_heap_refs, by decide⟩,
    match (sieve_error_handler_unref_counts example_heap 1 2 1 1 _ _ [3] 4 rfl rfl rfl rfl
      example_heap_chain example_heap_refs (by decide)).2 rfl with
    | ⟨heap1, ev, h1, h2, h3, _, h5, _⟩ => ⟨heap1, ev, h1, h2, h3, h5⟩⟩

/-- Witness for C13 (amended): the file sink at address 1 of the example heap. -/
theorem sieve_error_handler_unref_order_witness :
    (parent_chain example_heap (some 1) [1, 2, 3] ∧ refs_counted example_heap [2, 3] ∧
      [3].length < 1 + 1) ∧
    ∃ heap1 ev, sieve_error_handler_unref (1 + 3) example_heap (some 1) =
        some (heap1, none,
          [.decref 1] ++ ev ++ [.free_call .sieve_logfile_free 1, .pool_unref 1 1]) ∧
      ev.head? = some (.decref 2) ∧
      (∀ e ∈ ev, e.addr ∈ [2, 3]) :=
  ⟨⟨example_heap_chain, example_heap_refs, by decide⟩,
    sieve_error_handler_unref_order 1 example_heap 1 2 1 1 _ _ [3] .sieve_logfile_free
      rfl rfl rfl rfl rfl rfl example_heap_chain example_heap_refs (by decide)⟩

/-! ## Theorems: sinks and reporting -/

/-- C17: for every level, location and message, the message function of a buffer
sink appends to the caller's buffer exactly the location followed by ": " (when
the location is non-null and non-empty), the level name followed by ": ", the
message, a full stop and then CR LF when `crlf` is set and LF otherwise; the
previous content stays as a prefix and nothing else of the sink changes;
`sieve_strbuf_ehandler_create` stores the given buffer and `crlf` flag and installs
the four buffer message functions. -/
theorem sieve_strbuf_report_appends (level : sieve_level) (e : sieve_strbuf_ehandler)
    (location : Option String) (msg : String) (pool : Nat) (strbuf : String) (crlf : Bool)
    (max_errors : Nat) :
    (sieve_strbuf_vlevel level e location msg).errors =
      e.errors ++
        ((match location with
          | none => ""
          | some l => if l = "" then "" else l ++ ": ") ++
         (level.name ++ ": " ++ (msg ++ ("." ++ (if e.crlf then "\r\n" else "\n"))))) ∧
    (sieve_strbuf_vlevel level e location msg).crlf = e.crlf ∧
    (sieve_strbuf_vlevel level e location msg).handler = e.handler ∧
    (sieve_strbuf_ehandler_create pool strbuf crlf max_errors).errors = strbuf ∧
    (sieve_strbuf_ehandler_create pool strbuf crlf max_errors).crlf = crlf ∧
    (sieve_strbuf_ehandler_create pool strbuf crlf max_errors).handler.verror = some .strbuf ∧
    (sieve_strbuf_ehandler_create pool strbuf crlf max_errors).handler.vwarning = some .strbuf ∧
    (sieve_strbuf_ehandler_create pool strbuf crlf max_errors).handler.vinfo = some .strbuf ∧
    (sieve_strbuf_ehandler_create pool strbuf crlf max_errors).handler.vdebug = some .strbuf := by
  have e1 : (".\n" : String) = "." ++ "\n" := by decide
  have e2 : (".\r\n" : String) = "." ++ "\r\n" := by decide
  refine ⟨?_, ?_, ?_, rfl, rfl, rfl, rfl, rfl, rfl⟩
  · cases level <;> cases location <;> cases hc : e.crlf <;>
      simp only [sieve_strbuf_vlevel, sieve_strbuf_verror, sieve_strbuf_vwarning,
        sieve_strbuf_vinfo, sieve_strbuf_vdebug, sieve_strbuf_vmessage, sieve_level.name, hc,
        Bool.not_false, Bool.not_true, if_true, if_false, Bool.false_eq_true, e1, e2] <;>
      (try split) <;>
      simp only [String.append_assoc, String.append_empty, String.empty_append]
  · cases level <;> rfl
  · cases level <;> rfl

/-- C18: a prefix decorator created by `sieve_prefix_ehandler_create` with parent
`p` re-emits, for each of the four levels and every report, exactly one report of
the same level into `p`, whose location is the decorator's configured location
(whatever the report's own location is) and whose text is the prefix followed by
": " (when a prefix is set), then the report's location followed by ": " (when it
is non-null), then the message. -/
theorem sieve_prefix_reemits (heap : ehandler_heap) (e pool p : Nat)
    (ph : sieve_error_handler) (location pfx : Option String)
    (hp : heap p = some ph) (hne : e ≠ p) :
    ∃ heap1 d, sieve_prefix_ehandler_create heap e pool (some p) location pfx =
        some (heap1, some d) ∧
      d.handler.parent = some p ∧
      ∀ (level : sieve_level) (loc : Option String) (msg : String),
        ∃ r, sieve_prefix_vlevel level d loc msg = [r] ∧
          r.entry.level = level ∧ r.parent = p ∧ r.location = location ∧
          r.text =
            (match pfx with
              | some s => s ++ ": "
              | none => "") ++
            ((match loc with
              | some l => l ++ ": "
              | none => "") ++ msg) := by
  have hpe : p ≠ e := fun h => hne h.symm
  obtain ⟨heap1, h1, h2, -⟩ := sieve_error_handler_init_from_parent_eq
    (heap.store e (some zeroed_handler)) e p pool zeroed_handler ph
    (ehandler_heap_store_same _ _ _)
    ((ehandler_heap_store_other _ _ _ _ hpe).trans hp) hne
  unfold sieve_prefix_ehandler_create
  simp only [h1, h2]
  refine ⟨_, _, rfl, rfl, ?_⟩
  intro level loc msg
  cases level <;> cases pfx <;> cases loc <;>
    simp only [sieve_prefix_vlevel, sieve_prefix_verror, sieve_prefix_vwarning,
      sieve_prefix_vinfo, sieve_prefix_vdebug, _prefix_message] <;>
    exact ⟨_, rfl, rfl, rfl, rfl, by
      simp only [String.append_assoc, String.append_empty, String.empty_append]⟩

/-- Witness for C18: a decorator at address 4 created from the handler at
address 2 of the example heap, with location "script" and prefix "include". -/
theorem sieve_prefix_reemits_witness :
    (example_heap 2 = some { example_handler with refcount := 2, parent := some 3 } ∧
      (4 : Nat) ≠ 2) ∧
    ∃ heap1 d, sieve_prefix_ehandler_create example_heap 4 9 (some 2) (some "script")
        (some "include") = some (heap1, some d) ∧
      sieve_prefix_vlevel .error d (some "line 3") "unknown command" =
        [{ entry := .sieve_error, parent := 2, location := some "script",
           text := "include: line 3: unknown command" }] :=
  ⟨⟨rfl, by decide⟩,
    match sieve_prefix_reemits example_heap 4 9 2 _ (some "script") (some "include") rfl
      (by decide) with
    | ⟨heap1, d, h1, _, h3⟩ =>
      ⟨heap1, d, h1,
        match h3 .error (some "line 3") "unknown command" with
        | ⟨r, hr, _, hpar, hloc, htext⟩ => by
          rw [hr]
          have hent : r.entry = .sieve_error := by
            have h := hr
            simp only [sieve_prefix_vlevel, sieve_prefix_verror] at h
            split at h
            · cases h
            · cases h; rfl
          obtain ⟨en, pa, lo, te⟩ := r
          simp only at hent hpar hloc htext
          subst hent hpar hloc htext
          rfl⟩⟩

theorem sieve_vreport_unfold (level : sieve_level) (fuel : Nat) (heap : ehandler_heap)
    (master : Option Nat) (a : Nat) (h : sieve_error_handler) (ha : heap a = some h)
    (location : Option String) (text : String) :
    sieve_vreport level (fuel + 1) heap master (some a) location text =
      if h.parent = none ∧ h.log_master = true then
        (sieve_vreport level fuel heap master master location text).map
          (fun tr => [.copy_master level location text] ++ tr ++
            [.direct level a location text])
      else some [.direct level a location text] := by
  rw [sieve_vreport]
  simp only [ha]
  split
  · cases sieve_vreport level fuel heap master master location text <;> rfl
  · rfl

/-- What the four report functions do when the master sink does not itself mirror
to the master sink: the report is copied to the master sink exactly when the
handler has no parent and has `log_master` set, and is passed to the handler in
every case. -/
theorem sieve_vreport_plain_master (level : sieve_level) (fuel : Nat) (heap : ehandler_heap)
    (m a : Nat) (mh h : sieve_error_handler) (hm : heap m = some mh) (ha : heap a = some h)
    (hplain : ¬ (mh.parent = none ∧ mh.log_master = true))
    (location : Option String) (text : String) :
    sieve_vreport level (fuel + 2) heap (some m) (some a) location text =
      some ((if h.parent = none ∧ h.log_master = true then
              [.copy_master level location text, .direct level m location text]
             else []) ++ [.direct level a location text]) := by
  rw [sieve_vreport_unfold level (fuel + 1) heap (some m) a h ha,
    sieve_vreport_unfold level fuel heap (some m) m mh hm]
  simp only [hplain, if_false]
  split <;> rfl

/-- C19 fails on the code at this input: with a parentless master sink that has
`log_master` set (the sink at address 7 of the example), a report at any level on
a parentless handler with `log_master` set never returns, whatever the depth
allowed, so the report is never passed to the handler itself. -/
theorem sieve_vreport_mirroring_master_diverges (level : sieve_level) (fuel : Nat)
    (location : Option String) (text : String) :
    sieve_vreport level fuel example_mirror_heap (some 7) (some 7) location text = none ∧
    sieve_vreport level fuel example_mirror_heap (some 7) (some 1) location text = none ∧
    sieve_verror fuel example_mirror_heap (some 7) (some 1) location text = none ∧
    sieve_vwarning fuel example_mirror_heap (some 7) (some 1) location text = none ∧
    sieve_vinfo fuel example_mirror_heap (some 7) (some 1) location text = none ∧
    sieve_vdebug fuel example_mirror_heap (some 7) (some 1) location text = none := by
  have h7 : ∀ (lv : sieve_level) (f : Nat),
      sieve_vreport lv f example_mirror_heap (some 7) (some 7) location text = none := by
    intro lv f
    induction f with
    | zero => rfl
    | succ f ih =>
      rw [sieve_vreport_unfold lv f example_mirror_heap (some 7) 7 _ rfl, ih]
      rfl
  have h1 : ∀ (lv : sieve_level) (f : Nat),
      sieve_vreport lv f example_mirror_heap (some 7) (some 1) location text = none := by
    intro lv f
    cases f with
    | zero => rfl
    | succ f =>
      rw [sieve_vreport_unfold lv f example_mirror_heap (some 7) 1 _ rfl, h7]
      rfl
  exact ⟨h7 level fuel, h1 level fuel, h1 .error fuel, h1 .warning fuel, h1 .info fuel,
    h1 .debug fuel⟩

/-- What `sieve_logfile_free` closes: when the sink holds a stream on a descriptor
other than `STDERR_FILENO` it destroys the stream and closes that descriptor
exactly once; otherwise it closes nothing. In both cases no stream is left. -/
theorem sieve_logfile_free_closes (api : file_api) (e : sieve_logfile_ehandler)
    (calls : List file_call) :
    ∃ added, (sieve_logfile_free api e calls).2 = calls ++ added ∧
      (sieve_logfile_free api e calls).1.stream = none ∧
      (∀ fd, added.count (.close fd) =
        if e.stream ≠ none ∧ e.fd ≠ STDERR_FILENO ∧ fd = e.fd then 1 else 0) := by
  unfold sieve_logfile_free
  cases hs : e.stream with
  | none =>
    refine ⟨[], by simp, hs, ?_⟩
    intro fd; simp
  | some s =>
    simp only
    by_cases hfd : e.fd = STDERR_FILENO
    · refine ⟨[.o_stream_destroy s], by simp [hfd], by simp [hfd], ?_⟩
      intro fd
      simp [hfd]
    · by_cases hcl : api.close (calls ++ [.o_stream_destroy s]) e.fd < 0
      · refine ⟨[.o_stream_destroy s, .close e.fd, .sieve_sys_error .close_failed],
          by simp [hfd, hcl], by simp [hfd], ?_⟩
        intro fd
        by_cases hh : fd = e.fd
        · subst hh; simp [hfd, List.count_cons]
        · have hh2 : ¬ e.fd = fd := fun x => hh x.symm
          simp [hfd, hh, hh2, List.count_cons]
      · refine ⟨[.o_stream_destroy s, .close e.fd], by simp [hfd, hcl], by simp [hfd], ?_⟩
        intro fd
        by_cases hh : fd = e.fd
        · subst hh; simp [hfd, List.count_cons]
        · have hh2 : ¬ e.fd = fd := fun x => hh x.symm
          simp [hfd, hh, hh2, List.count_cons]

/-- C15 fails on the code at this input: a file sink whose `open` succeeds with
descriptor 5 and whose `o_stream_create_fd` returns NULL on the first write. The
sink is started on descriptor 5 without a stream; releasing its last reference
calls `sieve_logfile_free` once, which closes nothing, so descriptor 5 is never
closed. -/
theorem sieve_logfile_free_leaks_descriptor :
    (sieve_logfile_first_write (example_file_api 0 none)
        (sieve_logfile_ehandler_create 1 "log" 0) []).1 =
      { sieve_logfile_ehandler_create 1 "log" 0 with started := true, fd := 5 } ∧
    (sieve_logfile_first_write (example_file_api 0 none)
        (sieve_logfile_ehandler_create 1 "log" 0) []).2 =
      [.open_append "log", .fstat 5, .o_stream_create_fd 5,
        .sieve_sys_error .stream_failed] ∧
    (sieve_error_handler_unref 2
        (fun x => if x = 1 then some (sieve_logfile_ehandler_create 1 "log" 0).handler
                  else none)
        (some 1)).map (fun r => r.2.2) =
      some [.decref 1, .free_call .sieve_logfile_free 1, .pool_unref 1 1] ∧
    (sieve_logfile_free (example_file_api 0 none)
        { sieve_logfile_ehandler_create 1 "log" 0 with started := true, fd := 5 }
        [.open_append "log", .fstat 5, .o_stream_create_fd 5,
          .sieve_sys_error .stream_failed]).2 =
      [.open_append "log", .fstat 5, .o_stream_create_fd 5,
        .sieve_sys_error .stream_failed] := by
  refine ⟨by rfl, by rfl, by rfl, by rfl⟩

/-- When `open` and `fstat` succeed, `sieve_logfile_start` renames the log file to
the ".0" path exactly when `st_size >= LOGFILE_MAX_SIZE`. -/
theorem sieve_logfile_open_rotates_iff (api : file_api) (logfile : String) (fd size : Int)
    (b : Bool) (ho : api.open_append [] logfile = (fd, b)) (hfd : fd ≠ -1)
    (hst : api.fstat [.open_append logfile] fd = some size) :
    file_call.rename logfile (logfile ++ ".0") ∈ (sieve_logfile_open api logfile []).2 ↔
      LOGFILE_MAX_SIZE ≤ size := by
  unfold sieve_logfile_open
  simp only [ho, hfd, if_false, List.nil_append, hst, ge_iff_le]
  by_cases hsz : LOGFILE_MAX_SIZE ≤ size
  · simp only [hsz, if_true, iff_true]
    split <;> split <;> split <;> simp [logfile_open_failed]
  · simp [hsz]

/-- C16 fails on the code at this input: an existing log file of exactly
`10 * 1024` bytes, which does not exceed the threshold. The first write closes
the descriptor just opened, renames the file to the ".0" path and reopens the
path truncated, while a file of `10 * 1024 - 1` bytes is kept open for append. -/
theorem sieve_logfile_start_rotates_at_threshold :
    ¬ ((10 * 1024 : Int) > LOGFILE_MAX_SIZE) ∧
    sieve_logfile_first_write (example_file_api (10 * 1024) (some 1))
        (sieve_logfile_ehandler_create 1 "log" 0) [] =
      ({ sieve_logfile_ehandler_create 1 "log" 0 with
         started := true, fd := 6, stream := some 1 },
       [.open_append "log", .fstat 5, .close 5, .rename "log" "log.0", .open_trunc "log",
        .o_stream_create_fd 6, .logfile_printf 1 "Jan 01 00:00:00"]) ∧
    sieve_logfile_first_write (example_file_api (10 * 1024 - 1) (some 1))
        (sieve_logfile_ehandler_create 1 "log" 0) [] =
      ({ sieve_logfile_ehandler_create 1 "log" 0 with
         started := true, fd := 5, stream := some 1 },
       [.open_append "log", .fstat 5, .o_stream_create_fd 5,
        .logfile_printf 1 "Jan 01 00:00:00"]) := by
  refine ⟨by decide, by rfl, by rfl⟩

/-! ## Theorems: relational extension -/

/-- C23 (code at the failing input): `mtch_relational_validate` reads only the
first two bytes of the argument, so the string "gtx", which is none of the six
relational operators, is accepted for `:value` and selects the entry `value-gt`. -/
theorem mtch_relational_validate_accepts_longer_id :
    cstr "gtx" ∉ relational_match_ids ∧
    mtch_relational_validate (.string (cstr "gtx"))
        { match_type := value_match_type, ctx_data := none }
      = some { result := true, errors := [],
               ctx := { match_type := VALUE_MATCH_TYPE "gt" REL_MATCH_GREATER,
                        ctx_data := some REL_MATCH_GREATER },
               arg_deleted := true } := by
  constructor
  · decide
  · rfl

/-- C30: for each match type `t` (value or count) and operator `m`, the table
entry validation selects is the entry `ext_relational_get_match` returns for the
code `REL_MATCH_INDEX t m`, its code decodes back to `(t, m)`, and
`mtch_value_match` with that entry is true exactly when the comparator result
satisfies the operator; codes from 12 on have no entry. -/
theorem rel_match_types_roundtrip (t m : Nat) (ht : t < 2) (hm : m < 6) :
    (∃ e id,
      relational_match_ids[m]? = some id ∧
      rel_match_types[REL_MATCH_INDEX t m]? = some e ∧
      (∀ ctx : sieve_match_type_context, ctx.match_type.ext_code = t →
        mtch_relational_validate (.string id) ctx
          = some { result := true, errors := [],
                   ctx := { match_type := e, ctx_data := some m },
                   arg_deleted := true }) ∧
      ext_relational_get_match (REL_MATCH_INDEX t m) = some e ∧
      REL_MATCH_TYPE e.ext_code = t ∧ REL_MATCH e.ext_code = m ∧
      (∀ (V K : Type) (compare : V → K → Int) (val : V) (key : K),
        mtch_value_match compare e val key = true ↔
          (m = REL_MATCH_GREATER ∧ compare val key > 0) ∨
          (m = REL_MATCH_GREATER_EQUAL ∧ compare val key ≥ 0) ∨
          (m = REL_MATCH_LESS ∧ compare val key < 0) ∨
          (m = REL_MATCH_LESS_EQUAL ∧ compare val key ≤ 0) ∨
          (m = REL_MATCH_EQUAL ∧ compare val key = 0) ∨
          (m = REL_MATCH_NOT_EQUAL ∧ compare val key ≠ 0))) ∧
    rel_match_types.Nodup ∧
    (∀ code, 12 ≤ code → ext_relational_get_match code = none) := by
  refine ⟨?_, by decide, ?_⟩
  · interval_cases t <;> interval_cases m <;>
      refine ⟨_, _, rfl, rfl, ?_, rfl, rfl, rfl, ?_⟩ <;>
      first
      | (intro ctx hctx
         simp only [mtch_relational_validate, hctx]
         rfl)
      | (intro V K compare val key
         simp [mtch_value_match, rel_match_types, REL_MATCH, REL_MATCH_INDEX, REL_MATCH_INVALID,
           RELATIONAL_VALUE, RELATIONAL_COUNT, VALUE_MATCH_TYPE, COUNT_MATCH_TYPE,
           REL_MATCH_GREATER, REL_MATCH_GREATER_EQUAL, REL_MATCH_LESS,
           REL_MATCH_LESS_EQUAL, REL_MATCH_EQUAL, REL_MATCH_NOT_EQUAL])
  · intro code hcode
    have : ¬ code < rel_match_types.length := by
      simp [rel_match_types]; omega
    simp [ext_relational_get_match, this]

/-- Witness for C30 at the count match type and the operator "le". -/
theorem rel_match_types_roundtrip_witness :
    (∃ e id,
      relational_match_ids[3]? = some id ∧
      rel_match_types[REL_MATCH_INDEX 1 3]? = some e ∧
      (∀ ctx : sieve_match_type_context, ctx.match_type.ext_code = 1 →
        mtch_relational_validate (.string id) ctx
          = some { result := true, errors := [],
                   ctx := { match_type := e, ctx_data := some 3 },
                   arg_deleted := true }) ∧
      ext_relational_get_match (REL_MATCH_INDEX 1 3) = some e ∧
      REL_MATCH_TYPE e.ext_code = 1 ∧ REL_MATCH e.ext_code = 3 ∧
      (∀ (V K : Type) (compare : V → K → Int) (val : V) (key : K),
        mtch_value_match compare e val key = true ↔
          (3 = REL_MATCH_GREATER ∧ compare val key > 0) ∨
          (3 = REL_MATCH_GREATER_EQUAL ∧ compare val key ≥ 0) ∨
          (3 = REL_MATCH_LESS ∧ compare val key < 0) ∨
          (3 = REL_MATCH_LESS_EQUAL ∧ compare val key ≤ 0) ∨
          (3 = REL_MATCH_EQUAL ∧ compare val key = 0) ∨
          (3 = REL_MATCH_NOT_EQUAL ∧ compare val key ≠ 0))) ∧
    rel_match_types.Nodup ∧
    (∀ code, 12 ≤ code → ext_relational_get_match code = none) :=
  rel_match_types_roundtrip 1 3 (by decide) (by decide)

/-! ## Theorems: store action and the default mailbox -/

theorem act_store_check_duplicate_folder (default_mailbox : List Nat)
    (a b : sieve_action act_store_context)
    (ha : is_cstring (act_store_folder default_mailbox a) = true)
    (hb : is_cstring (act_store_folder default_mailbox b) = true) :
    act_store_check_duplicate default_mailbox a b = 1 ↔
      (act_store_folder default_mailbox a = act_store_folder default_mailbox b ∨
        ((act_store_folder default_mailbox a).map tolower = (cstr "INBOX").map tolower ∧
          (act_store_folder default_mailbox b).map tolower = (cstr "INBOX").map tolower)) := by
  have hI : is_cstring (cstr "INBOX") = true := by decide
  obtain ⟨la, ca⟩ := a
  obtain ⟨lb, cb⟩ := b
  cases ca <;> cases cb <;> simp only [act_store_folder] at ha hb ⊢ <;>
    simp only [act_store_check_duplicate]
  · simp
  all_goals
    rw [← strcmp_eq_zero_iff _ _ ha hb, ← strcasecmp_eq_zero_iff _ (cstr "INBOX") ha hI,
      ← strcasecmp_eq_zero_iff _ (cstr "INBOX") hb hI]
    split_ifs <;> simp_all

/-- C27: on folder names (a null context standing for the default mailbox) the
duplicate relation of `act_store_check_duplicate` is reflexive, symmetric and
transitive. -/
theorem act_store_check_duplicate_equivalence (default_mailbox : List Nat)
    (a b c : sieve_action act_store_context)
    (ha : is_cstring (act_store_folder default_mailbox a) = true)
    (hb : is_cstring (act_store_folder default_mailbox b) = true)
    (hc : is_cstring (act_store_folder default_mailbox c) = true) :
    act_store_check_duplicate default_mailbox a a = 1 ∧
    (act_store_check_duplicate default_mailbox a b = 1 →
      act_store_check_duplicate default_mailbox b a = 1) ∧
    (act_store_check_duplicate default_mailbox a b = 1 →
      act_store_check_duplicate default_mailbox b c = 1 →
      act_store_check_duplicate default_mailbox a c = 1) := by
  rw [act_store_check_duplicate_folder _ a a ha ha,
    act_store_check_duplicate_folder _ a b ha hb,
    act_store_check_duplicate_folder _ b a hb ha,
    act_store_check_duplicate_folder _ b c hb hc,
    act_store_check_duplicate_folder _ a c ha hc]
  refine ⟨Or.inl rfl, ?_, ?_⟩
  · rintro (h | ⟨h1, h2⟩)
    · exact Or.inl h.symm
    · exact Or.inr ⟨h2, h1⟩
  · rintro (h | ⟨h1, h2⟩) (h' | ⟨h3, h4⟩)
    · exact Or.inl (h.trans h')
    · exact Or.inr ⟨h ▸ h3, h4⟩
    · exact Or.inr ⟨h1, h' ▸ h2⟩
    · exact Or.inr ⟨h1, h4⟩

/-- Witness for C27: implicit keep (null context, default mailbox "INBOX"),
folder "inbox" and folder "Inbox". -/
theorem act_store_check_duplicate_equivalence_witness :
    act_store_check_duplicate (cstr "INBOX") { location := none, context := none }
      { location := none, context := none } = 1 ∧
    (act_store_check_duplicate (cstr "INBOX") { location := none, context := none }
        { location := none, context := some { folder := cstr "inbox" } } = 1 →
      act_store_check_duplicate (cstr "INBOX")
        { location := none, context := some { folder := cstr "inbox" } }
        { location := none, context := none } = 1) ∧
    (act_store_check_duplicate (cstr "INBOX") { location := none, context := none }
        { location := none, context := some { folder := cstr "inbox" } } = 1 →
      act_store_check_duplicate (cstr "INBOX")
        { location := none, context := some { folder := cstr "inbox" } }
        { location := none, context := some { folder := cstr "Inbox" } } = 1 →
      act_store_check_duplicate (cstr "INBOX") { location := none, context := none }
        { location := none, context := some { folder := cstr "Inbox" } } = 1) :=
  act_store_check_duplicate_equivalence (cstr "INBOX") { location := none, context := none }
    { location := none, context := some { folder := cstr "inbox" } }
    { location := none, context := some { folder := cstr "Inbox" } }
    (by decide) (by decide) (by decide)

theorem notify_loop_body_step {Addr : Type} (eq : Addr → Addr → Bool)
    (old kept pend : List (ext_notify_recipient Addr)) (x : ext_notify_recipient Addr)
    (xs : List (ext_notify_recipient Addr)) (s : notify_loop_state Addr)
    (hrec : s.recipients = kept ++ pend ++ x :: xs)
    (hcnt : s.new_count = s.recipients.length)
    (hi : s.i = kept.length + pend.length)
    (hlen : s.del_len = pend.length)
    (hds : pend ≠ [] → s.del_start = kept.length)
    (hbound : s.recipients.length < 2 ^ 32) :
    ∃ s1, notify_loop_body eq old s = some s1 ∧
      s1.new_count = s1.recipients.length ∧ s1.recipients.length < 2 ^ 32 ∧
      ((is_old_recipient eq old x = true ∧ s1.recipients = kept ++ (pend ++ [x]) ++ xs ∧
          s1.i = kept.length + (pend ++ [x]).length ∧ s1.del_len = (pend ++ [x]).length ∧
          s1.del_start = kept.length ∧ s1.deletions = s.deletions) ∨
        (is_old_recipient eq old x = false ∧ s1.recipients = (kept ++ [x]) ++ [] ++ xs ∧
          s1.i = (kept ++ [x]).length ∧ s1.del_len = 0 ∧
          s1.deletions = s.deletions ++
            (if 0 < pend.length then [(kept.length, pend.length)] else []))) := by
  have hget : s.recipients[s.i]? = some x := by
    rw [hrec, hi]
    have : kept.length + pend.length = (kept ++ pend).length := by simp
    rw [this, List.getElem?_append_right (le_refl _)]
    simp
  by_cases hx : is_old_recipient eq old x = true
  · have hj : ¬ notify_inner_loop eq x.address old 0 = old.length := by
      rw [notify_inner_loop_zero]; simp [hx]
    refine ⟨{ s with i := s.i + 1,
                     del_start := if s.del_len = 0 then s.i else s.del_start,
                     del_len := s.del_len + 1 }, ?_, ?_, ?_, Or.inl ⟨hx, ?_, ?_, ?_, ?_, ?_⟩⟩
    · unfold notify_loop_body
      rw [hget]
      simp only [hj, if_false]
    · exact hcnt
    · exact hbound
    · simp [hrec]
    · simp [hi]; omega
    · simp [hlen]
    · by_cases h0 : s.del_len = 0
      · have : pend = [] := by
          apply List.eq_nil_of_length_eq_zero; omega
        simp [h0, hi, this]
      · have hne : pend ≠ [] := by
          intro h; rw [h] at hlen; simp at hlen; omega
        simp [h0, hds hne]
    · rfl
  · have hx2 : is_old_recipient eq old x = false := by simpa using hx
    have hj : notify_inner_loop eq x.address old 0 = old.length := by
      rw [notify_inner_loop_zero]; exact hx2
    by_cases hp : 0 < s.del_len
    · have hne : pend ≠ [] := by
        intro h; rw [h] at hlen; simp at hlen; omega
      have hdel : array_delete s.recipients s.del_start s.del_len = kept ++ x :: xs := by
        rw [hrec, hds hne, hlen]; exact array_delete_append kept pend (x :: xs)
      have hsub : uint_sub s.i s.del_len = kept.length := by
        rw [uint_sub_of_le _ _ (by omega)]
        · omega
        · have : s.i < s.recipients.length := by
            rw [hrec, hi]; simp
          omega
      refine ⟨{ recipients := array_delete s.recipients s.del_start s.del_len,
                new_count := (array_delete s.recipients s.del_start s.del_len).length,
                i := uint_sub s.i s.del_len + 1,
                del_start := s.del_start, del_len := 0,
                deletions := s.deletions ++ [(s.del_start, s.del_len)] },
        ?_, ?_, ?_, Or.inr ⟨hx2, ?_, ?_, ?_, ?_⟩⟩
      · unfold notify_loop_body
        rw [hget]
        simp only [hj, if_true, hp]
      · rfl
      · simp only [hdel]
        have : (kept ++ x :: xs).length ≤ s.recipients.length := by
          rw [hrec]; simp
        omega
      · simp [hdel]
      · simp [hsub]
      · rfl
      · have hpl : 0 < pend.length := by omega
        simp [hpl, hds hne, hlen]
    · have hpe : pend = [] := by
        apply List.eq_nil_of_length_eq_zero; omega
      refine ⟨{ s with i := s.i + 1, del_len := 0 }, ?_, ?_, ?_, Or.inr ⟨hx2, ?_, ?_, ?_, ?_⟩⟩
      · unfold notify_loop_body
        rw [hget]
        simp only [hj, if_true, hp, if_false]
      · exact hcnt
      · exact hbound
      · simp [hrec, hpe]
      · simp [hi, hpe]
      · rfl
      · simp [hpe]

theorem notify_loop_deletions_spec {Addr : Type} (eq : Addr → Addr → Bool)
    (old : List (ext_notify_recipient Addr)) (rest : List (ext_notify_recipient Addr)) :
    ∀ (kept pend : List (ext_notify_recipient Addr)) (fuel : Nat) (s : notify_loop_state Addr),
      rest.length < fuel →
      s.recipients = kept ++ pend ++ rest →
      s.new_count = s.recipients.length →
      s.i = kept.length + pend.length →
      s.del_len = pend.length →
      (pend ≠ [] → s.del_start = kept.length) →
      s.recipients.length < 2 ^ 32 →
      ∃ s1, notify_loop eq old fuel s = some s1 ∧
        (if 0 < s1.del_len then s1.deletions ++ [(s1.del_start, s1.del_len)] else s1.deletions)
          = s.deletions ++ duplicate_runs (is_old_recipient eq old) rest kept.length pend.length := by
  induction rest with
  | nil =>
    intro kept pend fuel s hfuel hrec hcnt hi hlen hds _
    obtain ⟨f, rfl⟩ : ∃ f, fuel = f + 1 := ⟨fuel - 1, by omega⟩
    refine ⟨s, ?_, ?_⟩
    · unfold notify_loop
      have : ¬ s.i < s.new_count := by
        rw [hcnt, hrec, hi]; simp
      simp [this]
    · unfold duplicate_runs
      by_cases hp : 0 < s.del_len
      · have hne : pend ≠ [] := by
          intro h; rw [h] at hlen; simp at hlen; omega
        have hpl : 0 < pend.length := by omega
        simp [hp, hpl, hds hne, hlen]
      · have hpl : ¬ 0 < pend.length := by omega
        simp [hp, hpl]
  | cons x xs ih =>
    intro kept pend fuel s hfuel hrec hcnt hi hlen hds hbound
    obtain ⟨f, rfl⟩ : ∃ f, fuel = f + 1 := ⟨fuel - 1, by omega⟩
    have hf : xs.length < f := by simp at hfuel; omega
    have hlt : s.i < s.new_count := by
      rw [hcnt, hrec, hi]; simp
    obtain ⟨s2, hbody, hc2, hb2, hcase⟩ :=
      notify_loop_body_step eq old kept pend x xs s hrec hcnt hi hlen hds hbound
    unfold notify_loop
    rw [if_pos hlt, hbody]
    simp only
    rcases hcase with ⟨hx, e1, e2, e3, e4, e5⟩ | ⟨hx, e1, e2, e3, e5⟩
    · obtain ⟨s1, h1, h2⟩ := ih kept (pend ++ [x]) f s2 hf e1 hc2 e2 e3 (fun _ => e4) hb2
      refine ⟨s1, h1, ?_⟩
      rw [h2, e5]
      conv_rhs => unfold duplicate_runs
      simp [hx]
    · obtain ⟨s1, h1, h2⟩ := ih (kept ++ [x]) [] f s2 hf e1 hc2 (by simpa using e2)
        (by simpa using e3) (by simp) hb2
      refine ⟨s1, h1, ?_⟩
      rw [h2, e5]
      conv_rhs => unfold duplicate_runs
      simp [hx]

theorem notify_loop_reaches_inv {Addr : Type} (eq : Addr → Addr → Bool)
    (old : List (ext_notify_recipient Addr)) (s0 s : notify_loop_state Addr)
    (h0 : s0.new_count = s0.recipients.length) (hi0 : s0.i = 0) (hl0 : s0.del_len = 0)
    (hb0 : s0.recipients.length < 2 ^ 32)
    (h : notify_loop_reaches eq old s0 s) :
    ∃ kept pend rest, s.recipients = kept ++ pend ++ rest ∧
      s.new_count = s.recipients.length ∧ s.i = kept.length + pend.length ∧
      s.del_len = pend.length ∧ (pend ≠ [] → s.del_start = kept.length) ∧
      s.recipients.length < 2 ^ 32 := by
  induction h with
  | start => exact ⟨[], [], s0.recipients, by simp, h0, by simp [hi0], by simp [hl0], by simp, hb0⟩
  | step s s1 _ hlt hbody ih =>
    obtain ⟨kept, pend, rest, hrec, hcnt, hi, hlen, hds, hbound⟩ := ih
    cases rest with
    | nil =>
      exfalso
      rw [hcnt, hrec, hi] at hlt
      simp at hlt
    | cons x xs =>
      obtain ⟨s2, hbody2, hc2, hb2, hcase⟩ :=
        notify_loop_body_step eq old kept pend x xs s hrec hcnt hi hlen hds hbound
      rw [hbody] at hbody2
      cases hbody2
      rcases hcase with ⟨_, e1, e2, e3, e4, _⟩ | ⟨_, e1, e2, e3, _⟩
      · exact ⟨kept, pend ++ [x], xs, e1, hc2, e2, e3, fun _ => e4, hb2⟩
      · exact ⟨kept ++ [x], [], xs, e1, hc2, by simpa using e2, by simpa using e3, by simp, hb2⟩

theorem duplicate_runs_sum {α : Type} (dup : α → Bool) (l : List α) :
    ∀ kept run, ((duplicate_runs dup l kept run).map Prod.snd).sum = run + l.countP dup := by
  induction l with
  | nil =>
    intro kept run
    unfold duplicate_runs
    split
    all_goals simp
    all_goals omega
  | cons x xs ih =>
    intro kept run
    unfold duplicate_runs
    by_cases hx : dup x = true
    · simp [hx, ih]; omega
    · simp only [hx, Bool.false_eq_true, if_false, List.map_append, List.sum_append, ih]
      rw [List.countP_cons_of_neg _ _ (by simpa using hx)]
      split
      all_goals simp
      all_goals omega

/-- C24: `act_notify_check_duplicate` performs one `array_delete` per maximal run
of consecutive duplicate recipients of the new action: the deletions, in order,
are the runs, each starting at the run's first index in the array as it is at
that moment and covering the whole run (so together they delete every duplicate
once), and in every state the loop passes through `del_len <= i`, so that
`i -= del_len` does not wrap. -/
theorem act_notify_check_duplicate_deletes_runs {Addr : Type} (eq : Addr → Addr → Bool)
    (new_nact old_nact : ext_notify_action Addr)
    (hlen : new_nact.recipients.length < 2 ^ 32) :
    ∃ deletions,
      act_notify_deletions eq new_nact old_nact = some deletions ∧
      deletions = duplicate_runs (is_old_recipient eq old_nact.recipients)
        new_nact.recipients 0 0 ∧
      (deletions.map Prod.snd).sum =
        new_nact.recipients.countP (is_old_recipient eq old_nact.recipients) ∧
      (∀ s, notify_loop_reaches eq old_nact.recipients
          { recipients := new_nact.recipients, new_count := new_nact.recipients.length, i := 0,
            del_start := 0, del_len := 0, deletions := [] } s →
        s.del_len ≤ s.i ∧ s.i < 2 ^ 32 ∧ uint_sub s.i s.del_len = s.i - s.del_len ∧
        (0 < s.del_len → s.del_start + s.del_len = s.i)) := by
  obtain ⟨s1, h1, h2⟩ := notify_loop_deletions_spec eq old_nact.recipients new_nact.recipients
    [] [] (new_nact.recipients.length + 1)
    { recipients := new_nact.recipients, new_count := new_nact.recipients.length, i := 0,
      del_start := 0, del_len := 0, deletions := [] }
    (by omega) (by simp) rfl (by simp) (by simp) (by simp) hlen
  simp only [List.nil_append, List.length_nil] at h2
  refine ⟨_, ?_, rfl, ?_, ?_⟩
  · unfold act_notify_deletions
    rw [h1]
    simp only [h2]
  · rw [duplicate_runs_sum]; simp
  · intro s hs
    obtain ⟨kept, pend, rest, hrec, hcnt, hi, hl, hds, hbound⟩ :=
      notify_loop_reaches_inv eq old_nact.recipients _ s rfl rfl rfl hlen hs
    have hle : s.del_len ≤ s.i := by omega
    have hlt : s.i < 2 ^ 32 := by
      have : s.i ≤ s.recipients.length := by rw [hrec, hi]; simp
      omega
    refine ⟨hle, hlt, uint_sub_of_le _ _ hle hlt, ?_⟩
    intro hpos
    have hne : pend ≠ [] := by
      intro h; rw [h] at hl; simp at hl; omega
    rw [hds hne, hl, hi]

/-- Witness for C24: addresses `[1, 1, 3, 2, 4, 1]` checked against `[1, 2]` have
three runs of duplicates, deleted as `(0, 2)`, `(1, 1)` and `(2, 1)`. -/
theorem act_notify_check_duplicate_deletes_runs_witness :
    (example_notify_action [1, 1, 3, 2, 4, 1]).recipients.length < 2 ^ 32 ∧
    act_notify_deletions (fun a b : Nat => a == b) (example_notify_action [1, 1, 3, 2, 4, 1])
      (example_notify_action [1, 2]) = some [(0, 2), (1, 1), (2, 1)] ∧
    ∃ deletions,
      act_notify_deletions (fun a b : Nat => a == b) (example_notify_action [1, 1, 3, 2, 4, 1])
        (example_notify_action [1, 2]) = some deletions ∧
      deletions = duplicate_runs
        (is_old_recipient (fun a b : Nat => a == b) (example_notify_action [1, 2]).recipients)
        (example_notify_action [1, 1, 3, 2, 4, 1]).recipients 0 0 ∧
      (deletions.map Prod.snd).sum =
        (example_notify_action [1, 1, 3, 2, 4, 1]).recipients.countP
          (is_old_recipient (fun a b : Nat => a == b) (example_notify_action [1, 2]).recipients) ∧
      (∀ s, notify_loop_reaches (fun a b : Nat => a == b) (example_notify_action [1, 2]).recipients
          { recipients := (example_notify_action [1, 1, 3, 2, 4, 1]).recipients,
            new_count := (example_notify_action [1, 1, 3, 2, 4, 1]).recipients.length, i := 0,
            del_start := 0, del_len := 0, deletions := [] } s →
        s.del_len ≤ s.i ∧ s.i < 2 ^ 32 ∧ uint_sub s.i s.del_len = s.i - s.del_len ∧
        (0 < s.del_len → s.del_start + s.del_len = s.i)) :=
  ⟨by decide, by rfl,
    act_notify_check_duplicate_deletes_runs (fun a b : Nat => a == b)
      (example_notify_action [1, 1, 3, 2, 4, 1]) (example_notify_action [1, 2]) (by decide)⟩

/-! ## Theorems: notify command -/

theorem notify_rcpt_search_eq_iff {Addr : Type} (eq : Addr → Addr → Bool) (a : Addr)
    (rcpts : List (ext_notify_recipient Addr)) (i : Nat) :
    notify_rcpt_search eq a rcpts i = i + rcpts.length ↔
      rcpts.any (fun o => eq o.address a) = false := by
  induction rcpts generalizing i with
  | nil => simp [notify_rcpt_search]
  | cons r rs ih =>
    unfold notify_rcpt_search
    by_cases h : eq r.address a = true
    · simp [h]
    · have h2 : eq r.address a = false := by simpa using h
      have := ih (i + 1)
      simp only [h2, Bool.false_eq_true, if_false, List.length_cons, List.any_cons, Bool.false_or]
      rw [← this]
      omega

theorem distinct_recipients_prefix {Addr : Type} (eq : Addr → Addr → Bool)
    (l : List (ext_notify_recipient Addr)) :
    ∀ acc, ∃ t, distinct_recipients eq l acc = acc ++ t := by
  induction l with
  | nil => intro acc; exact ⟨[], by simp [distinct_recipients]⟩
  | cons r rs ih =>
    intro acc
    unfold distinct_recipients
    split
    · exact ih acc
    · obtain ⟨t, ht⟩ := ih (acc ++ [r])
      exact ⟨r :: t, by rw [ht]; simp⟩

theorem notify_options_loop_spec {Addr : Type} (api : notify_api Addr) (items : List String) :
    ∀ (rcpts : List (ext_notify_recipient Addr)) (msgs : List notify_runtime_message) (n : Nat),
      rcpts.length ≤ api.EXT_NOTIFY_MAX_RECIPIENTS →
      rcpts.Pairwise (fun a b => api.smtp_address_equals a.address b.address = false) →
      n ≤ (notify_options_loop api items rcpts msgs n).processed ∧
      ((notify_options_loop api items rcpts msgs n).exit = .invalid ↔
        ∃ raw ∈ items.take ((notify_options_loop api items rcpts msgs n).processed - n),
          api.sieve_address_parse_str raw = none) ∧
      ((notify_options_loop api items rcpts msgs n).exit ≠ .invalid →
        (notify_options_loop api items rcpts msgs n).recipients =
          (distinct_recipients api.smtp_address_equals
            (items.filterMap (notify_parsed_recipient api)) rcpts).take
              api.EXT_NOTIFY_MAX_RECIPIENTS ∧
        (notify_options_loop api items rcpts msgs n).recipients.Pairwise
          (fun a b => api.smtp_address_equals a.address b.address = false) ∧
        (notify_options_loop api items rcpts msgs n).recipients.length ≤
          api.EXT_NOTIFY_MAX_RECIPIENTS) := by
  induction items with
  | nil =>
    intro rcpts msgs n hlen hpw
    simp only [notify_options_loop, List.filterMap_nil, distinct_recipients]
    refine ⟨le_refl _, by simp, fun _ => ⟨?_, hpw, hlen⟩⟩
    rw [List.take_of_length_le hlen]
  | cons raw rest ih =>
    intro rcpts msgs n hlen hpw
    cases hparse : api.sieve_address_parse_str raw with
    | none =>
      have hl : notify_options_loop api (raw :: rest) rcpts msgs n =
          { exit := .invalid, recipients := rcpts,
            messages := msgs ++ [.error_invalid raw], processed := n + 1 } := by
        simp only [notify_options_loop, hparse]
      rw [hl]
      refine ⟨by simp, ?_, fun h => absurd rfl h⟩
      simp [hparse]
    | some a =>
      have hfm : (raw :: rest).filterMap (notify_parsed_recipient api) =
          { full := raw, address := a } :: rest.filterMap (notify_parsed_recipient api) := by
        simp [List.filterMap_cons, notify_parsed_recipient, hparse]
      by_cases hdup : rcpts.any (fun o => api.smtp_address_equals o.address a) = true
      · have hs : notify_rcpt_search api.smtp_address_equals a rcpts 0 ≠ rcpts.length := by
          intro h
          have := (notify_rcpt_search_eq_iff api.smtp_address_equals a rcpts 0).1 (by omega)
          rw [this] at hdup
          exact absurd hdup (by decide)
        have hl : notify_options_loop api (raw :: rest) rcpts msgs n =
            notify_options_loop api rest rcpts (msgs ++ [.warning_duplicate raw]) (n + 1) := by
          simp only [notify_options_loop, hparse, hs, ne_eq, not_false_eq_true, if_true]
        obtain ⟨h1, h2, h3⟩ := ih rcpts (msgs ++ [.warning_duplicate raw]) (n + 1) hlen hpw
        rw [hl]
        refine ⟨by omega, ?_, ?_⟩
        · rw [h2]
          have : (notify_options_loop api rest rcpts (msgs ++ [.warning_duplicate raw])
              (n + 1)).processed - n =
              ((notify_options_loop api rest rcpts (msgs ++ [.warning_duplicate raw])
                (n + 1)).processed - (n + 1)) + 1 := by omega
          rw [this, List.take_succ_cons]
          simp [hparse]
        · intro hne
          rw [hfm]
          have hd : distinct_recipients api.smtp_address_equals
              ({ full := raw, address := a } :: rest.filterMap (notify_parsed_recipient api))
              rcpts =
              distinct_recipients api.smtp_address_equals
                (rest.filterMap (notify_parsed_recipient api)) rcpts := by
            conv_lhs => unfold distinct_recipients
            simp only [hdup, if_true]
          rw [hd]
          exact h3 hne
      · have hdup2 : rcpts.any (fun o => api.smtp_address_equals o.address a) = false := by
          simpa using hdup
        have hs : notify_rcpt_search api.smtp_address_equals a rcpts 0 = rcpts.length := by
          have := (notify_rcpt_search_eq_iff api.smtp_address_equals a rcpts 0).2 hdup2
          omega
        have hd : distinct_recipients api.smtp_address_equals
            ({ full := raw, address := a } :: rest.filterMap (notify_parsed_recipient api))
            rcpts =
            distinct_recipients api.smtp_address_equals
              (rest.filterMap (notify_parsed_recipient api))
              (rcpts ++ [{ full := raw, address := a }]) := by
          conv_lhs => unfold distinct_recipients
          simp only [hdup2, Bool.false_eq_true, if_false]
        by_cases hmax : api.EXT_NOTIFY_MAX_RECIPIENTS ≤ rcpts.length
        · have hl : notify_options_loop api (raw :: rest) rcpts msgs n =
              { exit := .limit, recipients := rcpts,
                messages := msgs ++ [.warning_maximum api.EXT_NOTIFY_MAX_RECIPIENTS],
                processed := n + 1 } := by
            simp only [notify_options_loop, hparse, hs, ne_eq, not_true_eq_false, if_false,
              hmax, if_true]
          rw [hl]
          refine ⟨by simp, ?_, fun _ => ⟨?_, hpw, hlen⟩⟩
          · simp [hparse]
          · rw [hfm, hd]
            obtain ⟨t, ht⟩ := distinct_recipients_prefix api.smtp_address_equals
              (rest.filterMap (notify_parsed_recipient api))
              (rcpts ++ [{ full := raw, address := a }])
            rw [ht, List.append_assoc, List.take_append_of_le_length (by omega)]
            simp only
            rw [List.take_of_length_le hlen]
        · have hl : notify_options_loop api (raw :: rest) rcpts msgs n =
              notify_options_loop api rest (rcpts ++ [{ full := raw, address := a }]) msgs
                (n + 1) := by
            simp only [notify_options_loop, hparse, hs, ne_eq, not_true_eq_false, if_false, hmax]
          have hpw2 : (rcpts ++ [({ full := raw, address := a } : ext_notify_recipient Addr)]).Pairwise
              (fun a b => api.smtp_address_equals a.address b.address = false) := by
            rw [List.pairwise_append]
            refine ⟨hpw, by simp, ?_⟩
            intro o ho b hb
            simp only [List.mem_singleton] at hb
            subst hb
            simp only [List.any_eq_false] at hdup2
            simpa using hdup2 o ho
          obtain ⟨h1, h2, h3⟩ := ih (rcpts ++ [{ full := raw, address := a }]) msgs (n + 1)
            (by simp; omega) hpw2
          rw [hl]
          refine ⟨by omega, ?_, ?_⟩
          · rw [h2]
            have : (notify_options_loop api rest (rcpts ++ [{ full := raw, address := a }]) msgs
                (n + 1)).processed - n =
                ((notify_options_loop api rest (rcpts ++ [{ full := raw, address := a }]) msgs
                  (n + 1)).processed - (n + 1)) + 1 := by omega
            rw [this, List.take_succ_cons]
            simp [hparse]
          · intro hne
            rw [hfm, hd]
            exact h3 hne

theorem cmd_notify_operation_execute_fields {Addr : Type} (api : notify_api Addr)
    (importance : Nat) (id message : Option String) (items : List String) (options_ret : Int)
    (hmsg : 0 < (api.ext_notify_construct_message message).1) :
    (cmd_notify_operation_execute api importance id message (some items) options_ret).processed
      = (notify_options_loop api items [] [] 0).processed ∧
    ((notify_options_loop api items [] [] 0).exit = .invalid →
      (cmd_notify_operation_execute api importance id message (some items)
          options_ret).status = api.SIEVE_EXEC_FAILURE ∧
      (cmd_notify_operation_execute api importance id message (some items)
          options_ret).action = none) ∧
    ((notify_options_loop api items [] [] 0).exit ≠ .invalid →
      (∀ act, (cmd_notify_operation_execute api importance id message (some items)
          options_ret).action = some act →
        act.recipients = (notify_options_loop api items [] [] 0).recipients) ∧
      (0 ≤ options_ret →
        ∃ act,
          (cmd_notify_operation_execute api importance id message (some items)
            options_ret).action = some act ∧
          (cmd_notify_operation_execute api importance id message (some items)
            options_ret).status =
            if api.sieve_result_add_action act < 0 then api.SIEVE_EXEC_FAILURE
            else api.SIEVE_EXEC_OK)) := by
  have hm : ¬ (api.ext_notify_construct_message message).1 ≤ 0 := by omega
  unfold cmd_notify_operation_execute
  simp only [hm, if_false]
  generalize (if importance < 1 then 1 else if 3 < importance then 3 else importance) = imp
  cases hexit : (notify_options_loop api items [] [] 0).exit with
  | invalid => simp
  | finished =>
    by_cases hret : options_ret < 0
    · simp only [hret, and_self, if_true]
      refine ⟨trivial, by simp, fun _ => ⟨by simp, fun h => by omega⟩⟩
    · simp only [hret, and_false, if_false]
      by_cases hadd : api.sieve_result_add_action
          { id := id, message := some (api.ext_notify_construct_message message).2,
            importance := imp,
            recipients := (notify_options_loop api items [] [] 0).recipients } < 0
      · simp only [hadd, if_true]
        refine ⟨trivial, by simp, fun _ => ⟨?_, fun _ => ⟨_, rfl, by simp only [hadd, if_true]⟩⟩⟩
        intro act hact
        cases hact
        rfl
      · simp only [hadd, if_false]
        refine ⟨trivial, by simp, fun _ => ⟨?_, fun _ => ⟨_, rfl, by simp only [hadd, if_false]⟩⟩⟩
        intro act hact
        cases hact
        rfl
  | limit =>
    simp only [reduceCtorEq, false_and, if_false]
    by_cases hadd : api.sieve_result_add_action
        { id := id, message := some (api.ext_notify_construct_message message).2,
          importance := imp,
          recipients := (notify_options_loop api items [] [] 0).recipients } < 0
    · simp only [hadd, if_true]
      refine ⟨trivial, by simp, fun _ => ⟨?_, fun _ => ⟨_, rfl, by simp only [hadd, if_true]⟩⟩⟩
      intro act hact
      cases hact
      rfl
    · simp only [hadd, if_false]
      refine ⟨trivial, by simp, fun _ => ⟨?_, fun _ => ⟨_, rfl, by simp only [hadd, if_false]⟩⟩⟩
      intro act hact
      cases hact
      rfl

/-- C25: when every `:options` entry the loop of `cmd_notify_operation_execute`
reads parses as an address, the recipients of the notify action handed to
`sieve_result_add_action` have pairwise different addresses, are at most
`EXT_NOTIFY_MAX_RECIPIENTS`, and are the list's recipients with distinct
addresses in order of first occurrence, truncated to that maximum, and for a
readable list the action is handed over; when an entry that is read does not
parse, the operation returns `SIEVE_EXEC_FAILURE` and hands over no action. -/
theorem cmd_notify_operation_execute_recipients {Addr : Type} (api : notify_api Addr)
    (importance : Nat) (id message : Option String) (items : List String) (options_ret : Int)
    (hmsg : 0 < (api.ext_notify_construct_message message).1) :
    ((∀ raw ∈ items.take
          (cmd_notify_operation_execute api importance id message (some items)
            options_ret).processed,
        (api.sieve_address_parse_str raw).isSome = true) →
      (∀ act,
        (cmd_notify_operation_execute api importance id message (some items)
          options_ret).action = some act →
        act.recipients.Pairwise
          (fun a b => api.smtp_address_equals a.address b.address = false) ∧
        act.recipients.length ≤ api.EXT_NOTIFY_MAX_RECIPIENTS ∧
        act.recipients =
          (distinct_recipients api.smtp_address_equals
            (items.filterMap (notify_parsed_recipient api)) []).take
              api.EXT_NOTIFY_MAX_RECIPIENTS) ∧
      (0 ≤ options_ret →
        ∃ act,
          (cmd_notify_operation_execute api importance id message (some items)
            options_ret).action = some act ∧
          (cmd_notify_operation_execute api importance id message (some items)
            options_ret).status =
            if api.sieve_result_add_action act < 0 then api.SIEVE_EXEC_FAILURE
            else api.SIEVE_EXEC_OK)) ∧
    ((∃ raw ∈ items.take
          (cmd_notify_operation_execute api importance id message (some items)
            options_ret).processed,
        api.sieve_address_parse_str raw = none) →
      (cmd_notify_operation_execute api importance id message (some items)
          options_ret).status = api.SIEVE_EXEC_FAILURE ∧
      (cmd_notify_operation_execute api importance id message (some items)
          options_ret).action = none) := by
  obtain ⟨_, h2, h3⟩ := notify_options_loop_spec api items [] [] 0 (Nat.zero_le _)
    List.Pairwise.nil
  simp only [Nat.sub_zero] at h2
  obtain ⟨f1, f2, f3⟩ := cmd_notify_operation_execute_fields api importance id message items
    options_ret hmsg
  rw [f1]
  constructor
  · intro hall
    have hne : (notify_options_loop api items [] [] 0).exit ≠ .invalid := by
      intro hinv
      obtain ⟨raw, hraw, hnone⟩ := h2.1 hinv
      have := hall raw hraw
      rw [hnone] at this
      cases this
    refine ⟨?_, (f3 hne).2⟩
    intro act hact
    have hr := (f3 hne).1 act hact
    rw [hr]
    exact ⟨(h3 hne).2.1, (h3 hne).2.2, (h3 hne).1⟩
  · intro hex
    exact f2 (h2.2 hex)

/-- Witness for C25: five entries with a limit of two recipients; the loop stops
at the fourth entry, the fifth (which is no address) is not read. -/
theorem cmd_notify_operation_execute_recipients_witness :
    0 < (example_notify_api.ext_notify_construct_message none).1 ∧
    cmd_notify_operation_execute example_notify_api 2 none none
        (some ["a@x", "b@x", "a@x", "c@x", "nobody"]) 0 =
      { status := 1,
        action := some { id := none, message := some "", importance := 2,
                         recipients := [{ full := "a@x", address := "a@x" },
                                        { full := "b@x", address := "b@x" }] },
        messages := [.warning_duplicate "a@x", .warning_maximum 2],
        processed := 4 } ∧
    (∀ raw ∈ ["a@x", "b@x", "a@x", "c@x", "nobody"].take
          (cmd_notify_operation_execute example_notify_api 2 none none
            (some ["a@x", "b@x", "a@x", "c@x", "nobody"]) 0).processed,
        (example_notify_api.sieve_address_parse_str raw).isSome = true) ∧
    (∀ act,
      (cmd_notify_operation_execute example_notify_api 2 none none
        (some ["a@x", "b@x", "a@x", "c@x", "nobody"]) 0).action = some act →
      act.recipients.Pairwise
        (fun a b => example_notify_api.smtp_address_equals a.address b.address = false) ∧
      act.recipients.length ≤ example_notify_api.EXT_NOTIFY_MAX_RECIPIENTS ∧
      act.recipients =
        (distinct_recipients example_notify_api.smtp_address_equals
          (["a@x", "b@x", "a@x", "c@x", "nobody"].filterMap
            (notify_parsed_recipient example_notify_api)) []).take
            example_notify_api.EXT_NOTIFY_MAX_RECIPIENTS) :=
  ⟨by decide, by decide, by decide,
    ((cmd_notify_operation_execute_recipients example_notify_api 2 none none
      ["a@x", "b@x", "a@x", "c@x", "nobody"] 0 (by decide)).1 (by decide)).1⟩

/-! ## Theorems: master sink -/

/-- Counterexample to C21 as stated: a critical report at "line 1" with the
master sink at address 3 of the example heap reaches that sink as the single
error "line 1: disk quota of user X exceeded", the same for two different
timestamps and without either of them; the timestamp is in the text for the
caller's handler. -/
theorem sieve_vcritical_master_unstamped_counterexample :
    sieve_vcritical 3 example_heap (some 3) (some 1) (some "line 1")
        "disk quota of user X exceeded" (some " [2010-01-01 00:00:00]") =
      some ([.direct .error 3 none "line 1: disk quota of user X exceeded"],
            [.direct .error 1 (some "line 1") (CRITICAL_MSG ++ " [2010-01-01 00:00:00]")]) ∧
    sieve_vcritical 3 example_heap (some 3) (some 1) (some "line 1")
        "disk quota of user X exceeded" (some " [2011-12-31 23:59:59]") =
      some ([.direct .error 3 none "line 1: disk quota of user X exceeded"],
            [.direct .error 1 (some "line 1") (CRITICAL_MSG ++ " [2011-12-31 23:59:59]")]) ∧
    ¬ (" [2010-01-01 00:00:00]".toList <:+:
        "line 1: disk quota of user X exceeded".toList) := by
  refine ⟨by rfl, by rfl, by decide⟩

/-- C21 (amended): when the master sink does not itself mirror to the master
sink, `sieve_vcritical` passes to it exactly one error report, whose text is the
report's location, ": " and the full message (the message alone when the
location is null or empty), whatever the caller's handler is and also when it is
null; that report does not depend on the timestamp. -/
theorem sieve_vcritical_master_report (fuel : Nat) (heap : ehandler_heap) (m : Nat)
    (mh : sieve_error_handler) (ehandler : Option Nat) (location : Option String)
    (msg : String) (stamp : Option String)
    (hm : heap m = some mh)
    (hplain : ¬ (mh.parent = none ∧ mh.log_master = true))
    (hlive : ∀ a, ehandler = some a → ∃ h, heap a = some h) :
    ∃ caller,
      sieve_vcritical (fuel + 2) heap (some m) ehandler location msg stamp =
        some ([.direct .error m none
                (match location with
                 | none => msg
                 | some l => if l = "" then msg else l ++ ": " ++ msg)], caller) ∧
      (ehandler = none → caller = []) := by
  have hsys : ∀ text, sieve_sys_error (fuel + 2) heap (some m) text =
      some [.direct .error m none text] := by
    intro text
    unfold sieve_sys_error sieve_verror
    rw [sieve_vreport_plain_master .error fuel heap m m mh mh hm hm hplain]
    simp only [hplain, if_false, List.nil_append]
  unfold sieve_vcritical
  simp only [hsys]
  cases ehandler with
  | none => exact ⟨[], rfl, fun _ => rfl⟩
  | some a =>
    obtain ⟨h, ha⟩ := hlive a rfl
    unfold sieve_verror
    simp only [sieve_vreport_plain_master .error fuel heap m a mh h hm ha hplain]
    exact ⟨_, rfl, fun hn => by cases hn⟩

/-- Witness for C21 (amended): the master sink at address 3 of the example heap
and a null handler. -/
theorem sieve_vcritical_master_report_witness :
    (example_heap 3 = some example_handler ∧
      ¬ (example_handler.parent = none ∧ example_handler.log_master = true)) ∧
    ∃ caller,
      sieve_vcritical (1 + 2) example_heap (some 3) none (some "line 1")
          "disk quota of user X exceeded" (some " [2010-01-01 00:00:00]") =
        some ([.direct .error 3 none
                (match (some "line 1" : Option String) with
                 | none => "disk quota of user X exceeded"
                 | some l => if l = "" then "disk quota of user X exceeded"
                             else l ++ ": " ++ "disk quota of user X exceeded")], caller) ∧
      ((none : Option Nat) = none → caller = []) :=
  ⟨⟨rfl, by decide⟩,
    sieve_vcritical_master_report 1 example_heap 3 example_handler none (some "line 1")
      "disk quota of user X exceeded" (some " [2010-01-01 00:00:00]") rfl (by decide)
      (fun a ha => by cases ha)⟩

/-- Counterexample to C22 as stated: the master sink at address 1 holds its last
reference and has the handler at address 2 as parent;
`sieve_system_ehandler_set` on that parent (a pooled handler that is not the
current master sink) tears the old master down, which releases the old master's
reference on the parent, and then adds the new one: the parent's reference
count is 2 before and 2 after the call, not raised by one. -/
theorem sieve_system_ehandler_set_parent_counterexample :
    (example_decorated_heap 2).map (fun h => (h.pool, h.refcount)) = some (some 1, 2) ∧
    (sieve_system_ehandler_set 3 example_decorated_heap (some 1) (some 2)).map
        (fun r => ((r.1 2).map (fun h => h.refcount), r.2.1, r.2.2)) =
      some (some 2, some 2, [.decref 1, .decref 2, .pool_unref 1 1]) := by
  constructor <;> rfl

theorem unref_lowered_congr (heap heap1 : ehandler_heap) (l : List Nat)
    (h : ∀ x ∈ l, heap1 x = heap x) : unref_lowered heap1 l = unref_lowered heap l := by
  induction l with
  | nil => rfl
  | cons a l ih =>
    simp only [unref_lowered, h a (List.mem_cons_self _ _),
      ih (fun x hx => h x (List.mem_cons_of_mem _ hx))]

theorem unref_lowered_subset (heap : ehandler_heap) (l : List Nat) :
    ∀ x ∈ unref_lowered heap l, x ∈ l := by
  induction l with
  | nil => intro x hx; cases hx
  | cons a l ih =>
    intro x hx
    simp only [unref_lowered] at hx
    split at hx
    · cases hx
    · split at hx
      · cases hx
      · split at hx
        · rcases List.mem_cons.mp hx with rfl | hx
          · exact List.mem_cons_self _ _
          · exact List.mem_cons_of_mem _ (ih x hx)
        · simp only [List.mem_singleton] at hx
          subst hx
          exact List.mem_cons_self _ _

/-- What one call of `sieve_error_handler_unref` on a parent chain does to the
reference counts: it lowers exactly the counts of the handlers in
`unref_lowered`, each by one, frees those whose count was 1 and leaves every
other handler as it was. -/
theorem sieve_error_handler_unref_lowered (l : List Nat) :
    ∀ (heap : ehandler_heap) (p : Option Nat) (fuel : Nat),
      parent_chain heap p l → refs_counted heap l → l.length < fuel →
      ∃ heap1 p1 ev, sieve_error_handler_unref fuel heap p = some (heap1, p1, ev) ∧
        (∀ x, unref_event.decref x ∈ ev ↔ x ∈ unref_lowered heap l) ∧
        (∀ x, x ∉ unref_lowered heap l → heap1 x = heap x) ∧
        (∀ x hx, x ∈ unref_lowered heap l → heap x = some hx →
          heap1 x = if hx.refcount = 1 then none
                    else some { hx with refcount := hx.refcount - 1 }) := by
  induction l with
  | nil =>
    intro heap p fuel hc _ hf
    cases hc
    obtain ⟨f, rfl⟩ : ∃ f, fuel = f + 1 := ⟨fuel - 1, by omega⟩
    refine ⟨heap, none, [], by simp [sieve_error_handler_unref], ?_, fun _ _ => rfl, ?_⟩
    · intro x; simp [unref_lowered]
    · intro x hx hmem; simp [unref_lowered] at hmem
  | cons a l ih =>
    intro heap p fuel hc hok hf
    have hnd := parent_chain_nodup heap p _ hc
    cases hc with
    | cons _ h _ ha hc1 =>
      obtain ⟨f, rfl⟩ : ∃ f, fuel = f + 1 := ⟨fuel - 1, by omega⟩
      have hf1 : l.length < f := by simp at hf; omega
      have hal : a ∉ l := (List.nodup_cons.mp hnd).1
      cases hpool : h.pool with
      | none =>
        have hlow : unref_lowered heap (a :: l) = [] := by
          simp [unref_lowered, ha, hpool]
        rw [hlow]
        refine ⟨heap, some a, [], ?_, by simp, fun _ _ => rfl, ?_⟩
        · rw [sieve_error_handler_unref]
          simp [ha, hpool]
        · intro x hx hmem; cases hmem
      | some pool =>
        have hr : 1 ≤ h.refcount := hok a (by simp) h ha (by simp [hpool])
        by_cases h1 : h.refcount = 1
        · have hlow : unref_lowered heap (a :: l) = a :: unref_lowered heap l := by
            simp [unref_lowered, ha, hpool, h1]
          have hc2 : parent_chain (heap.store a (some { h with refcount := 0 })) h.parent l :=
            parent_chain_store heap a h { h with refcount := 0 } ha rfl _ _ hc1
          have hok2 : refs_counted (heap.store a (some { h with refcount := 0 })) l := by
            intro x hx hxr hxe hxp
            have hxa : x ≠ a := fun e => hal (e ▸ hx)
            rw [ehandler_heap_store_other _ _ _ _ hxa] at hxe
            exact hok x (List.mem_cons_of_mem _ hx) hxr hxe hxp
          have hcongr : unref_lowered (heap.store a (some { h with refcount := 0 })) l =
              unref_lowered heap l := by
            apply unref_lowered_congr
            intro x hx
            have hxa : x ≠ a := fun e => hal (e ▸ hx)
            exact ehandler_heap_store_other _ _ _ _ hxa
          obtain ⟨heap1, p1, ev, hrec, hev, hfr, hlo⟩ := ih _ h.parent f hc2 hok2 hf1
          rw [hcongr] at hev hfr hlo
          have hnotl : a ∉ unref_lowered heap l := fun e => hal (unref_lowered_subset heap l a e)
          rw [sieve_error_handler_unref_last f (by omega) heap a pool h ha hpool h1, hrec, hlow]
          refine ⟨_, none, _, rfl, ?_, ?_, ?_⟩
          · intro x
            have hhook : unref_event.decref x ∉ unref_hook h.free a := by
              cases h.free <;> simp [unref_hook]
            have hpu : unref_event.decref x ∉ [unref_event.pool_unref a pool] := by simp
            have hd : unref_event.decref x ∈ [unref_event.decref a] ↔ x = a := by simp
            rw [List.mem_append, List.mem_append, List.mem_append, hd, hev x]
            constructor
            · rintro (((hx | hx) | hx) | hx)
              · exact List.mem_cons.mpr (Or.inl hx)
              · exact List.mem_cons.mpr (Or.inr hx)
              · exact absurd hx hhook
              · exact absurd hx hpu
            · intro hx
              rcases List.mem_cons.mp hx with hx | hx
              · exact Or.inl (Or.inl (Or.inl hx))
              · exact Or.inl (Or.inl (Or.inr hx))
          · intro x hx
            simp only [List.mem_cons, not_or] at hx
            show (heap1.store a none) x = heap x
            rw [ehandler_heap_store_other _ _ _ _ hx.1, hfr x hx.2,
              ehandler_heap_store_other _ _ _ _ hx.1]
          · intro x hx hmem hxe
            show (heap1.store a none) x = _
            by_cases hxa : x = a
            · subst hxa
              rw [ha] at hxe
              cases hxe
              simp [ehandler_heap_store_same, h1]
            · have hxl : x ∈ unref_lowered heap l := by
                rcases List.mem_cons.mp hmem with e | e
                · exact absurd e hxa
                · exact e
              rw [ehandler_heap_store_other _ _ _ _ hxa]
              exact hlo x hx hxl (by rw [ehandler_heap_store_other _ _ _ _ hxa]; exact hxe)
        · have hlow : unref_lowered heap (a :: l) = [a] := by
            simp [unref_lowered, ha, hpool, h1]
          rw [sieve_error_handler_unref_more f heap a pool h ha hpool (by omega), hlow]
          refine ⟨_, some a, _, rfl, ?_, ?_, ?_⟩
          · intro x
            simp
          · intro x hx
            simp only [List.mem_singleton] at hx
            exact ehandler_heap_store_other _ _ _ _ hx
          · intro x hx hmem hxe
            simp only [List.mem_singleton] at hmem
            subst hmem
            rw [ha] at hxe
            cases hxe
            simp [ehandler_heap_store_same, h1]

/-- C22 (amended): for a live pooled handler `h` that is not the current master
sink `m`, `sieve_system_ehandler_set(h)` makes `h` the master sink and lowers the
reference count of a pooled previous master by exactly one (tearing it down when
that was its last reference), while a previous master without pool, as the
built-in default, is neither counted nor torn down. The release of the previous
master lowers exactly the counts of the handlers in `unref_lowered`. When `h` is
not among them, the count of `h` is raised by exactly one, and
`sieve_system_ehandler_reset` then lowers it by one, reinstates the built-in
default and leaves the record of `h` as it was before the set; when `h` is among
them (and holds another reference), its record is the same after the set as
before. -/
theorem sieve_system_ehandler_set_reset_counts (fuel : Nat) (heap : ehandler_heap)
    (m h object hpool : Nat) (mrec hrec : sieve_error_handler) (l : List Nat)
    (hm : heap m = some mrec) (hh : heap h = some hrec) (hp : hrec.pool = some hpool)
    (hlive : 1 ≤ hrec.refcount) (hne : h ≠ m)
    (hc : parent_chain heap (some m) (m :: l)) (hok : refs_counted heap (m :: l))
    (hf : l.length < fuel + 1)
    (hsurv : h ∈ unref_lowered heap (m :: l) → 2 ≤ hrec.refcount) :
    ∃ heap1 ev,
      sieve_system_ehandler_set (fuel + 2) heap (some m) (some h) = some (heap1, some h, ev) ∧
      (∀ x, unref_event.decref x ∈ ev ↔ x ∈ unref_lowered heap (m :: l)) ∧
      (mrec.pool = none → ev = [] ∧ heap1 m = some mrec) ∧
      (mrec.pool ≠ none →
        ev.count (.decref m) = 1 ∧
        heap1 m = (if mrec.refcount = 1 then none
                   else some { mrec with refcount := mrec.refcount - 1 })) ∧
      (∀ x, x ∉ m :: l → x ≠ h → heap1 x = heap x) ∧
      (h ∉ unref_lowered heap (m :: l) →
        heap1 h = some { hrec with refcount := hrec.refcount + 1 } ∧
        ∃ heap2,
          sieve_system_ehandler_reset (fuel + 2) heap1 (some h) object =
            some (heap2, some object, [.decref h]) ∧
          heap2 h = some hrec) ∧
      (h ∈ unref_lowered heap (m :: l) → heap1 h = some hrec) := by
  have hmh : m ≠ h := fun e => hne e.symm
  -- the release of the previous master
  obtain ⟨heap0, p0, ev, e0, hev, hfr, hlo⟩ := sieve_error_handler_unref_lowered (m :: l) heap
    (some m) (fuel + 2) hc hok (by simp; omega)
  have hframe : ∀ x, x ∉ m :: l → heap0 x = heap x := by
    intro x hx
    exact hfr x (fun e => hx (unref_lowered_subset heap (m :: l) x e))
  have hnone : mrec.pool = none → ev = [] ∧ heap0 m = some mrec := by
    intro hpn
    have : sieve_error_handler_unref (fuel + 2) heap (some m) = some (heap, some m, []) := by
      simp [sieve_error_handler_unref, hm, hpn]
    rw [this] at e0
    cases e0
    exact ⟨rfl, hm⟩
  have hsome : mrec.pool ≠ none →
      ev.count (.decref m) = 1 ∧
      heap0 m = (if mrec.refcount = 1 then none
                 else some { mrec with refcount := mrec.refcount - 1 }) := by
    intro hpn
    obtain ⟨mp, hmp⟩ : ∃ mp, mrec.pool = some mp := by
      cases hq : mrec.pool with
      | none => exact absurd hq hpn
      | some mp => exact ⟨mp, rfl⟩
    obtain ⟨heap0b, p0b, evb, e0b, _, hcnt, _, hrec0, _⟩ :=
      sieve_error_handler_unref_parent fuel heap m mp mrec l hm hmp hc hok hf
    rw [e0] at e0b
    cases e0b
    exact ⟨hcnt, hrec0⟩
  have hpne : hrec.pool ≠ none := by rw [hp]; simp
  by_cases hmem : h ∈ unref_lowered heap (m :: l)
  · -- the release of the previous master reaches `h`
    have h2 : 2 ≤ hrec.refcount := hsurv hmem
    have h1 : ¬ hrec.refcount = 1 := by omega
    have h0h : heap0 h = some { hrec with refcount := hrec.refcount - 1 } := by
      rw [hlo h hrec hmem hh]
      simp only [h1, if_false]
    have href : sieve_error_handler_ref heap0 (some h) =
        some (heap0.store h (some { hrec with refcount := hrec.refcount - 1 + 1 })) := by
      simp [sieve_error_handler_ref, h0h, hpne]
    have hset : sieve_system_ehandler_set (fuel + 2) heap (some m) (some h) =
        some (heap0.store h (some { hrec with refcount := hrec.refcount - 1 + 1 }),
          some h, ev) := by
      unfold sieve_system_ehandler_set
      rw [e0]
      simp only [href]
    have hback : ({ hrec with refcount := hrec.refcount - 1 + 1 } : sieve_error_handler) =
        hrec := by
      have : hrec.refcount - 1 + 1 = hrec.refcount := by omega
      simp only [this]
    refine ⟨_, ev, hset, hev, ?_, ?_, ?_, fun hn => absurd hmem hn, ?_⟩
    · intro hpn
      refine ⟨(hnone hpn).1, ?_⟩
      rw [ehandler_heap_store_other _ _ _ _ hmh]
      exact (hnone hpn).2
    · intro hpn
      refine ⟨(hsome hpn).1, ?_⟩
      rw [ehandler_heap_store_other _ _ _ _ hmh]
      exact (hsome hpn).2
    · intro x hx hxh
      rw [ehandler_heap_store_other _ _ _ _ hxh]
      exact hframe x hx
    · intro _
      rw [ehandler_heap_store_same, hback]
  · -- the release of the previous master does not reach `h`
    have h0h : heap0 h = some hrec := by rw [hfr h hmem]; exact hh
    have href : sieve_error_handler_ref heap0 (some h) =
        some (heap0.store h (some { hrec with refcount := hrec.refcount + 1 })) := by
      simp [sieve_error_handler_ref, h0h, hpne]
    have hset : sieve_system_ehandler_set (fuel + 2) heap (some m) (some h) =
        some (heap0.store h (some { hrec with refcount := hrec.refcount + 1 }), some h, ev) := by
      unfold sieve_system_ehandler_set
      rw [e0]
      simp only [href]
    refine ⟨_, ev, hset, hev, ?_, ?_, ?_, ?_, fun hy => absurd hy hmem⟩
    · intro hpn
      refine ⟨(hnone hpn).1, ?_⟩
      rw [ehandler_heap_store_other _ _ _ _ hmh]
      exact (hnone hpn).2
    · intro hpn
      refine ⟨(hsome hpn).1, ?_⟩
      rw [ehandler_heap_store_other _ _ _ _ hmh]
      exact (hsome hpn).2
    · intro x hx hxh
      rw [ehandler_heap_store_other _ _ _ _ hxh]
      exact hframe x hx
    · intro _
      refine ⟨ehandler_heap_store_same _ _ _, ?_⟩
      have hmore := sieve_error_handler_unref_more (fuel + 1)
        (heap0.store h (some { hrec with refcount := hrec.refcount + 1 })) h hpool
        { hrec with refcount := hrec.refcount + 1 } (ehandler_heap_store_same _ _ _) hp
        (by simp only; omega)
      have hre : sieve_system_ehandler_reset (fuel + 2)
          (heap0.store h (some { hrec with refcount := hrec.refcount + 1 })) (some h) object =
          some ((heap0.store h (some { hrec with refcount := hrec.refcount + 1 })).store h
              (some { hrec with refcount := hrec.refcount + 1 - 1 }),
            some object, [.decref h]) := by
        unfold sieve_system_ehandler_reset
        rw [show fuel + 2 = fuel + 1 + 1 from rfl, hmore]
      refine ⟨_, hre, ?_⟩
      rw [ehandler_heap_store_same]
      have : hrec.refcount + 1 - 1 = hrec.refcount := by omega
      simp only [this]

theorem example_heap_refs_all : refs_counted example_heap [1, 2, 3] := by
  intro x hx r hr _
  simp only [List.mem_cons, List.mem_singleton, List.not_mem_nil, or_false] at hx
  rcases hx with rfl | rfl | rfl <;> cases hr <;> decide

/-- Witness for C22 (amended): in the example heap the master sink at address 1
holds its last reference, its parent at address 2 holds two; the handler at
address 3, the parent of the parent, becomes master sink. The release of the old
master lowers the counts at 1 and 2 only, and the count at 3 goes from 1 to 2. -/
theorem sieve_system_ehandler_set_reset_counts_witness :
    (parent_chain example_heap (some 1) [1, 2, 3] ∧ refs_counted example_heap [1, 2, 3] ∧
      unref_lowered example_heap [1, 2, 3] = [1, 2]) ∧
    ∃ heap1 ev,
      sieve_system_ehandler_set (2 + 2) example_heap (some 1) (some 3) =
        some (heap1, some 3, ev) ∧
      (∀ x, unref_event.decref x ∈ ev ↔ x ∈ unref_lowered example_heap [1, 2, 3]) ∧
      heap1 1 = none ∧
      heap1 3 = some { example_handler with refcount := 2 } ∧
      ∃ heap2,
        sieve_system_ehandler_reset (2 + 2) heap1 (some 3) 0 =
          some (heap2, some 0, [.decref 3]) ∧
        heap2 3 = some example_handler :=
  have hlow : unref_lowered example_heap [1, 2, 3] = [1, 2] := by decide
  have hnot : (3 : Nat) ∉ unref_lowered example_heap [1, 2, 3] := by rw [hlow]; decide
  ⟨⟨example_heap_chain, example_heap_refs_all, hlow⟩,
    match sieve_system_ehandler_set_reset_counts 2 example_heap 1 3 0 1 _ example_handler
        [2, 3] rfl rfl rfl (by decide) (by decide) example_heap_chain example_heap_refs_all
        (by decide) (fun hy => absurd hy hnot) with
    | ⟨heap1, ev, h1, h2, _, h4, _, h6, _⟩ =>
      ⟨heap1, ev, h1, h2, (h4 (by decide)).2, (h6 hnot).1, (h6 hnot).2⟩⟩

theorem sieve_vreport_mirror_diverges (heap : ehandler_heap) (m : Nat)
    (mh : sieve_error_handler) (hm : heap m = some mh) (hpar : mh.parent = none)
    (hlog : mh.log_master = true) (level : sieve_level) (fuel : Nat)
    (location : Option String) (text : String) :
    sieve_vreport level fuel heap (some m) (some m) location text = none := by
  induction fuel with
  | zero => rfl
  | succ f ih =>
    rw [sieve_vreport_unfold level f heap (some m) m mh hm, ih]
    simp [hpar, hlog]

/-- C28 (code at the failing input): after
`sieve_error_handler_copy_masterlog(h, TRUE)` and `sieve_system_ehandler_set(h)`
for the parentless handler `h` at address 5, a report at any level on that
handler is forwarded to the master sink, which is that handler and forwards it
to the master sink again, and so on: the call returns for no bound on the
depth. -/
theorem sieve_vreport_installed_master_diverges :
    ∃ heap1 heap2,
      sieve_error_handler_copy_masterlog 2 example_system_heap (some 5) true = some heap1 ∧
      sieve_system_ehandler_set 2 heap1 (some 0) (some 5) = some (heap2, some 5, []) ∧
      ∀ (level : sieve_level) (fuel : Nat) (location : Option String) (text : String),
        sieve_vreport level fuel heap2 (some 5) (some 5) location text = none ∧
        sieve_verror fuel heap2 (some 5) (some 5) location text = none ∧
        sieve_vwarning fuel heap2 (some 5) (some 5) location text = none ∧
        sieve_vinfo fuel heap2 (some 5) (some 5) location text = none ∧
        sieve_vdebug fuel heap2 (some 5) (some 5) location text = none := by
  refine ⟨_, _, rfl, rfl, ?_⟩
  intro level fuel location text
  exact ⟨sieve_vreport_mirror_diverges _ 5 _ rfl rfl rfl level fuel location text,
    sieve_vreport_mirror_diverges _ 5 _ rfl rfl rfl .error fuel location text,
    sieve_vreport_mirror_diverges _ 5 _ rfl rfl rfl .warning fuel location text,
    sieve_vreport_mirror_diverges _ 5 _ rfl rfl rfl .info fuel location text,
    sieve_vreport_mirror_diverges _ 5 _ rfl rfl rfl .debug fuel location text⟩

/-- C29 (code at the failing input): the handler at address 5 is installed as
master sink and its creator releases the creator's reference, so the handler is
live with reference count 1; `sieve_system_ehandler_set` on it then lowers the
count to 0 and tears the handler down (its pool is released, its memory freed)
before `sieve_error_handler_ref` is called on it. -/
theorem sieve_system_ehandler_set_tears_down_master :
    ∃ heap1 heap2 heap3,
      sieve_system_ehandler_set 2 example_system_heap (some 0) (some 5) =
        some (heap1, some 5, []) ∧
      sieve_error_handler_unref 2 heap1 (some 5) = some (heap2, some 5, [.decref 5]) ∧
      (heap2 5).map (fun h => (h.pool, h.refcount)) = some (some 1, 1) ∧
      sieve_error_handler_unref 2 heap2 (some 5) =
        some (heap3, none, [.decref 5, .pool_unref 5 1]) ∧
      heap3 5 = none ∧
      ∀ fuel, sieve_system_ehandler_set fuel heap2 (some 5) (some 5) = none := by
  refine ⟨_, _, _, rfl, rfl, rfl, rfl, rfl, ?_⟩
  intro fuel
  cases fuel with
  | zero => rfl
  | succ f =>
    cases f with
    | zero => rfl
    | succ g => rfl

/-! ## Theorems: store action, attempted default save -/

theorem act_store_get_storage_error_estatus (api : mail_api) (t : act_store_transaction)
    (w : store_world) (tw : act_store_transaction × store_world)
    (h : act_store_get_storage_error api t w = some tw) :
    tw.2.estatus = w.estatus := by
  unfold act_store_get_storage_error at h
  split at h
  · cases h
  · cases h; rfl

end Pigeonhole
